import Mathlib

/-!
# The PR_LOQO driver `optimize_qp` (src/classifier/svm/Optimizer.cpp)

A shallow embedding of `optimize_qp` and of the file-level variables it keeps
between calls, followed by theorems about the driver.  The last part embeds
`SGVector<T>::unique` (src/shogun/lib/SGVector.cpp).

Modelling conventions.

* A `float64_t` is either NaN or a finite value; finite values are exact
  rationals, so arithmetic is exact arithmetic and the only special value is
  NaN.  Every comparison with a NaN operand is false and every arithmetic
  operation with a NaN operand yields NaN, as in C.  Statements that depend on
  exact arithmetic say so.  Lines 118-135 are embedded a second time with
  every operation rounded to binary64 (`F64.roundDouble`, `kktDistR`,
  `epsStepR`, `epsilonLoqoR`), to show where the doubles of the source part
  from exact arithmetic.
* A `float64_t *` is a total map from indices to values; the driver only reads
  and writes indices below `opt_n` (and index 0 of `dual` and `opt_ce0`).
* `int32_t` variables are integers.  In `retryStep` and `optimize_qp` they are
  unbounded: this is the reading of the statements about counters that stay
  far below 2^31 and of the statement about the budget as an unbounded
  integer.  In `retryStep32` and `optimize_qp32` the additions `iter+=2000` and
  `init_iter+=10` are reduced modulo 2^32 into the `int32_t` range (`wrap32`);
  the two readings agree as long as no sum leaves the range
  (`retryStep32_eq_retryStep`).
* `pr_loqo`, `log10` and `DEF_PRECISION` come from outside the file and are
  parameters (`Env`).  `pr_loqo` is a function of everything it is handed,
  including the current contents of the two scratch buffers.  Between two
  attempts of one call either `margin` or `iter` differs, so a function of the
  arguments can answer every attempt differently.
* The arrays of the problem and the two scratch buffers do not overlap, and
  `pr_loqo` writes only to the scratch buffers.
* Logging (`SG_SDEBUG`, `SG_SINFO`, `SG_SERROR`) has no effect on the state and
  is left out; the lazy allocation of `primal` and `dual` leaves their contents
  indeterminate, which is the arbitrary initial content of the two maps.
-/

namespace Shogun

/-- Value of a `float64_t`: not-a-number, or a finite value kept exactly. -/
inductive F64 where
  | nan : F64
  | fin (q : ℚ) : F64
  deriving DecidableEq

namespace F64

/-- The C library test `isnan`. -/
def isnan : F64 → Bool
  | nan => true
  | fin _ => false

/-- Addition `a + b`. -/
def add : F64 → F64 → F64
  | fin a, fin b => fin (a + b)
  | _, _ => nan

/-- Subtraction `a - b`. -/
def sub : F64 → F64 → F64
  | fin a, fin b => fin (a - b)
  | _, _ => nan

/-- Multiplication `a * b`. -/
def mul : F64 → F64 → F64
  | fin a, fin b => fin (a * b)
  | _, _ => nan

/-- Division `a / b`; the driver only divides by non-zero literals. -/
def div : F64 → F64 → F64
  | fin a, fin b => if b = 0 then nan else fin (a / b)
  | _, _ => nan

/-- Unary minus `-a`. -/
def neg : F64 → F64
  | fin a => fin (-a)
  | nan => nan

/-- Comparison `a < b`, false when an operand is NaN. -/
def lt : F64 → F64 → Bool
  | fin a, fin b => decide (a < b)
  | _, _ => false

/-- Comparison `a <= b`, false when an operand is NaN. -/
def le : F64 → F64 → Bool
  | fin a, fin b => decide (a ≤ b)
  | _, _ => false

/-- Comparison `a > b`, false when an operand is NaN. -/
def gt : F64 → F64 → Bool
  | fin a, fin b => decide (b < a)
  | _, _ => false

/-- Comparison `a >= b`, false when an operand is NaN. -/
def ge : F64 → F64 → Bool
  | fin a, fin b => decide (b ≤ a)
  | _, _ => false

end F64

/-- A `float64_t *`: the values stored at each index. -/
abbrev Buf := Nat → F64

/-- Modelled from the spec: the status returned by the external solver
(`pr_loqo.h` is absent), one of OPTIMAL_SOLUTION, STILL_RUNNING or another
failure code. -/
inductive Status where
  | STILL_RUNNING : Status
  | OPTIMAL_SOLUTION : Status
  | other (code : Int) : Status
  deriving DecidableEq

/-- Modelled from the spec: the struct `QP` (`Optimizer.h` is absent), with the
field names `optimize_qp` uses. -/
structure QP where
  opt_n : Nat
  opt_m : Nat
  opt_ce : Buf
  opt_ce0 : Buf
  opt_g : Buf
  opt_g0 : Buf
  opt_xinit : Buf
  opt_low : Buf
  opt_up : Buf

/-- The file-level variables of Optimizer.cpp that persist between calls. -/
structure Globals where
  verbosity : Int
  primal : Buf
  dual : Buf
  init_margin : F64
  init_iter : Int
  precision_violations : Int
  model_b : F64
  opt_precision : F64

/-- The sixteen arguments of one `pr_loqo` call, in call order; `primal` and
`dual` are the contents of the scratch buffers when the call is made. -/
structure LoqoArgs where
  n : Nat
  m : Nat
  c : Buf
  h_x : Buf
  a : Buf
  b : Buf
  l : Buf
  u : Buf
  primal : Buf
  dual : Buf
  verb : Int
  sigfig_max : F64
  counter_max : Int
  margin : F64
  bound : F64
  restart : Int

/-- What one `pr_loqo` call leaves behind: its return value and the contents of
the two scratch buffers. -/
structure LoqoOut where
  result : Status
  primal : Buf
  dual : Buf

/-- Everything `optimize_qp` uses that is defined outside Optimizer.cpp. -/
structure Env where
  DEF_PRECISION : F64
  log10 : F64 → F64
  pr_loqo : LoqoArgs → LoqoOut

/-- Modelled from the spec: `CMath::max` (`lib/Mathematics.h` is absent), which
re-floors the precision at the default: `a >= b ? a : b`. -/
def CMath_max (a b : F64) : F64 :=
  if a.ge b then a else b

/-- The initial values of the file-level variables (lines 32-41); the scratch
buffers are allocated by the first call, with the arbitrary contents `primal`
and `dual`. -/
def Globals.initial (env : Env) (primal dual : Buf) : Globals :=
  { verbosity := 1
    primal := primal
    dual := dual
    init_margin := F64.fin (15 / 100)
    init_iter := 500
    precision_violations := 0
    model_b := F64.fin 0
    opt_precision := env.DEF_PRECISION }

/-- The objective loops (lines 60-67 with `x = opt_xinit`, lines 146-153 with
`x = primal`). -/
def objective (qp : QP) (x : Buf) : F64 :=
  (List.range qp.opt_n).foldl
    (fun acc i =>
      let acc1 := acc.add ((qp.opt_g0 i).mul (x i))
      let acc2 := acc1.add ((((F64.fin (1 / 2)).mul (x i)).mul (x i)).mul
        (qp.opt_g (i * qp.opt_n + i)))
      (List.range i).foldl
        (fun a j => a.add (((x j).mul (x i)).mul (qp.opt_g (j * qp.opt_n + i))))
        acc2)
    (F64.fin 0)

/-- The local variables of the retry loop together with the file-level
variables it updates. -/
structure LoopState where
  margin : F64
  iter : Int
  result : Status
  g : Globals

/-- The retry loop's condition (line 74). -/
def loopCond (s : LoopState) : Bool :=
  s.margin.le (F64.fin (9999999 / 10000000)) && decide (s.result ≠ Status.OPTIMAL_SOLUTION)

/-- The arguments handed to `pr_loqo` in the loop body (lines 76-86). -/
def loqoArgs (env : Env) (qp : QP) (s : LoopState) : LoqoArgs :=
  { n := qp.opt_n
    m := qp.opt_m
    c := qp.opt_g0
    h_x := qp.opt_g
    a := qp.opt_ce
    b := qp.opt_ce0
    l := qp.opt_low
    u := qp.opt_up
    primal := s.g.primal
    dual := s.g.dual
    verb := s.g.verbosity - 2
    sigfig_max := (env.log10 (CMath_max s.g.opt_precision env.DEF_PRECISION)).neg
    counter_max := s.iter
    margin := s.margin
    bound := (qp.opt_up 0).div (F64.fin 4)
    restart := 0 }

/-- One pass through the body of the retry loop (lines 76-108). -/
def retryStep (env : Env) (qp : QP) (s : LoopState) : LoopState :=
  let prec := CMath_max s.g.opt_precision env.DEF_PRECISION
  let out := env.pr_loqo (loqoArgs env qp s)
  let g1 : Globals := { s.g with opt_precision := prec, primal := out.primal, dual := out.dual }
  if (out.dual 0).isnan then
    let g2 : Globals :=
      if g1.init_margin.lt (F64.fin (80 / 100)) then
        { g1 with init_margin := (((F64.fin 4).mul s.margin).add (F64.fin 1)).div (F64.fin 5) }
      else g1
    { margin := (s.margin.add (F64.fin 1)).div (F64.fin 2)
      iter := s.iter
      result := out.result
      g := { g2 with opt_precision := g2.opt_precision.mul (F64.fin 10) } }
  else if out.result ≠ Status.OPTIMAL_SOLUTION then
    { margin := s.margin
      iter := s.iter + 2000
      result := out.result
      g := { g1 with init_iter := g1.init_iter + 10
                     opt_precision := g1.opt_precision.mul (F64.fin 10) } }
  else
    { margin := s.margin, iter := s.iter, result := out.result, g := g1 }

/-- The retry loop (lines 73-109) run for at most `fuel` passes; `none` when
the condition still holds after `fuel` passes. -/
def retryLoop (env : Env) (qp : QP) : Nat → LoopState → Option LoopState
  | 0, s => if loopCond s then none else some s
  | fuel + 1, s => if loopCond s then retryLoop env qp fuel (retryStep env qp s) else some s

/-- The value `dist` computed for variable `i` (lines 120-127). -/
def kktDist (qp : QP) (model_b : F64) (primal : Buf) (i : Nat) : F64 :=
  let d0 := model_b.neg.mul (qp.opt_ce i)
  let d1 := d0.add ((qp.opt_g0 i).add (F64.fin 1))
  let d2 := (List.range i).foldl
    (fun d j => d.add ((primal j).mul (qp.opt_g (j * qp.opt_n + i)))) d1
  (List.range' i (qp.opt_n - i)).foldl
    (fun d j => d.add ((primal j).mul (qp.opt_g (i * qp.opt_n + j)))) d2

/-- One pass of the relaxation loop for variable `i` (lines 129-134). -/
def epsStep (qp : QP) (model_b epsilon_crit : F64) (primal : Buf) (eps : F64) (i : Nat) : F64 :=
  let dist := kktDist qp model_b primal i
  if (primal i).lt ((qp.opt_up i).sub eps) && dist.lt ((F64.fin 1).sub epsilon_crit) then
    ((qp.opt_up i).sub (primal i)).mul (F64.fin 2)
  else if (primal i).gt ((F64.fin 0).add eps) && dist.gt ((F64.fin 1).add epsilon_crit) then
    (primal i).mul (F64.fin 2)
  else eps

/-- The relaxation of `epsilon_loqo` (lines 118-135). -/
def epsilonLoqo (qp : QP) (model_b epsilon_crit : F64) (primal : Buf) : F64 :=
  (List.range qp.opt_n).foldl (epsStep qp model_b epsilon_crit primal) (F64.fin (1 / 10 ^ 10))

/-- One pass of the clipping loop for variable `i` (lines 138-143). -/
def clipStep (qp : QP) (eps : F64) (p : Buf) (i : Nat) : Buf :=
  if (p i).le ((F64.fin 0).add eps) then Function.update p i (F64.fin 0)
  else if (p i).ge ((qp.opt_up i).sub eps) then Function.update p i (qp.opt_up i)
  else p

/-- The clipping loop (lines 137-144). -/
def clip (qp : QP) (eps : F64) (primal : Buf) : Buf :=
  (List.range qp.opt_n).foldl (clipStep qp eps) primal

/-- The reset loop of the NaN recovery (lines 158-160). -/
def resetPrimal (qp : QP) (primal : Buf) : Buf :=
  (List.range qp.opt_n).foldl (fun p i => Function.update p i (qp.opt_xinit i)) primal

/-- What a call of `optimize_qp` leaves behind: the returned array, the three
in/out parameters, the problem, the file-level variables, and the final values
of the locals (`raw_b` is `model_b` as set in lines 111-114, `clipped` is
`primal` after the clipping loop). -/
structure Outcome where
  solution : Buf
  threshold : F64
  epsilon_crit : F64
  svm_maxqpsize : Int
  qp : QP
  g : Globals
  result : Status
  margin : F64
  iter : Int
  obj_before : F64
  obj_after : F64
  epsilon_loqo : F64
  raw_b : F64
  clipped : Buf

/-- Lines 111-189: everything after the retry loop. -/
def afterLoop (qp : QP) (epsilon_crit : F64) (svm_maxqpsize : Int) (obj_before : F64)
    (s : LoopState) : Outcome :=
  let model_b := if qp.opt_m ≠ 0 then s.g.dual 0 else F64.fin 0
  let epsilon_loqo := epsilonLoqo qp model_b epsilon_crit s.g.primal
  let clipped := clip qp epsilon_loqo s.g.primal
  let obj_after := objective qp clipped
  let recover : Bool := obj_after.isnan || model_b.isnan
  let primal1 := if recover then resetPrimal qp clipped else clipped
  let model_b1 := if recover then F64.fin 0 else model_b
  let maxqp1 := if recover then (if svm_maxqpsize > 2 then svm_maxqpsize - 1 else svm_maxqpsize)
    else svm_maxqpsize
  let stalled : Bool := obj_after.ge obj_before
  let prec1 := if stalled then s.g.opt_precision.div (F64.fin 100) else s.g.opt_precision
  let viol1 := if stalled then s.g.precision_violations + 1 else s.g.precision_violations
  let relax : Bool := decide (viol1 > 500)
  let crit1 := if relax then epsilon_crit.mul (F64.fin 10) else epsilon_crit
  let viol2 := if relax then 0 else viol1
  { solution := if s.result ≠ Status.OPTIMAL_SOLUTION then qp.opt_xinit else primal1
    threshold := model_b1
    epsilon_crit := crit1
    svm_maxqpsize := maxqp1
    qp := qp
    g := { s.g with primal := primal1, model_b := model_b1, opt_precision := prec1
                    precision_violations := viol2 }
    result := s.result
    margin := s.margin
    iter := s.iter
    obj_before := obj_before
    obj_after := obj_after
    epsilon_loqo := epsilon_loqo
    raw_b := model_b
    clipped := clipped }

/-- The state in which the retry loop is entered (line 69 and the loop header). -/
def loopInit (g : Globals) : LoopState :=
  { margin := g.init_margin, iter := g.init_iter, result := Status.STILL_RUNNING, g := g }

/-- Line 70: `qp->opt_ce0[0]*=(-1.0)`. -/
def negateCe0 (qp : QP) : QP :=
  { qp with opt_ce0 := Function.update qp.opt_ce0 0 ((qp.opt_ce0 0).mul (F64.fin (-1))) }

/-- The driver `optimize_qp` (lines 46-190).  `fuel` bounds the number of passes
of the retry loop; the result is `none` when the loop has not ended by then. -/
def optimize_qp (fuel : Nat) (env : Env) (qp : QP) (epsilon_crit : F64) (svm_maxqpsize : Int)
    (g : Globals) : Option Outcome :=
  let obj_before := objective qp qp.opt_xinit
  let qp1 := negateCe0 qp
  (retryLoop env qp1 fuel (loopInit g)).map (afterLoop qp1 epsilon_crit svm_maxqpsize obj_before)

/-- The value the clipping loop leaves in `primal[i]` when it held `v`. -/
def clipVal (qp : QP) (eps : F64) (i : Nat) (v : F64) : F64 :=
  if v.le ((F64.fin 0).add eps) then F64.fin 0
  else if v.ge ((qp.opt_up i).sub eps) then qp.opt_up i
  else v

/-- What the first solver attempt of a call leaves behind. -/
def firstAttempt (env : Env) (qp : QP) (g : Globals) : LoqoOut :=
  env.pr_loqo (loqoArgs env (negateCe0 qp) (loopInit g))

/-- What the caller keeps between calls: the file-level variables and the two
in/out arguments it re-supplies to the next call. -/
structure World where
  g : Globals
  epsilon_crit : F64
  svm_maxqpsize : Int

/-- One call as the caller makes it: the problem, the solver behind it, and the
number of retry passes allowed to the model. -/
structure Call where
  fuel : Nat
  env : Env
  qp : QP

/-- One call of `optimize_qp` from the caller's state. -/
def callOnce (c : Call) (w : World) : Option Outcome :=
  optimize_qp c.fuel c.env c.qp w.epsilon_crit w.svm_maxqpsize w.g

/-- The caller's state after a call. -/
def Outcome.world (o : Outcome) : World :=
  { g := o.g, epsilon_crit := o.epsilon_crit, svm_maxqpsize := o.svm_maxqpsize }

/-- The caller's state after the first `k` calls of a run, each call starting
from the state the previous one left. -/
def runCalls (calls : Nat → Call) : Nat → World → Option World
  | 0, w => some w
  | k + 1, w => (runCalls calls k w).bind (fun w1 => (callOnce (calls k) w1).map Outcome.world)

/-! ## The retry loop with `iter` and `init_iter` as 32-bit integers -/

/-- The value an `int32_t` holds after the result `x` of an addition is stored
in it: `x` reduced modulo 2^32 into the range -2^31 .. 2^31 - 1. -/
def wrap32 (x : Int) : Int :=
  (x + 2147483648) % 4294967296 - 2147483648

/-- One pass through the body of the retry loop (lines 76-108), with the two
`int32_t` additions `iter+=2000` and `init_iter+=10` reduced to 32 bits. -/
def retryStep32 (env : Env) (qp : QP) (s : LoopState) : LoopState :=
  let prec := CMath_max s.g.opt_precision env.DEF_PRECISION
  let out := env.pr_loqo (loqoArgs env qp s)
  let g1 : Globals := { s.g with opt_precision := prec, primal := out.primal, dual := out.dual }
  if (out.dual 0).isnan then
    let g2 : Globals :=
      if g1.init_margin.lt (F64.fin (80 / 100)) then
        { g1 with init_margin := (((F64.fin 4).mul s.margin).add (F64.fin 1)).div (F64.fin 5) }
      else g1
    { margin := (s.margin.add (F64.fin 1)).div (F64.fin 2)
      iter := s.iter
      result := out.result
      g := { g2 with opt_precision := g2.opt_precision.mul (F64.fin 10) } }
  else if out.result ≠ Status.OPTIMAL_SOLUTION then
    { margin := s.margin
      iter := wrap32 (s.iter + 2000)
      result := out.result
      g := { g1 with init_iter := wrap32 (g1.init_iter + 10)
                     opt_precision := g1.opt_precision.mul (F64.fin 10) } }
  else
    { margin := s.margin, iter := s.iter, result := out.result, g := g1 }

/-- The retry loop (lines 73-109) over `retryStep32`, run for at most `fuel`
passes; `none` when the condition still holds after `fuel` passes. -/
def retryLoop32 (env : Env) (qp : QP) : Nat → LoopState → Option LoopState
  | 0, s => if loopCond s then none else some s
  | fuel + 1, s => if loopCond s then retryLoop32 env qp fuel (retryStep32 env qp s) else some s

/-- The driver with `iter` and `init_iter` as 32-bit integers: lines 46-72 and
111-190 do no arithmetic on either, so they are as in `optimize_qp`. -/
def optimize_qp32 (fuel : Nat) (env : Env) (qp : QP) (epsilon_crit : F64) (svm_maxqpsize : Int)
    (g : Globals) : Option Outcome :=
  let obj_before := objective qp qp.opt_xinit
  let qp1 := negateCe0 qp
  (retryLoop32 env qp1 fuel (loopInit g)).map (afterLoop qp1 epsilon_crit svm_maxqpsize obj_before)

/-! ## Lines 118-135 in binary64 -/

namespace F64

/-- The power of two `2^e`. -/
def pow2 (e : Int) : ℚ :=
  if 0 ≤ e then ((2 ^ e.toNat : Nat) : ℚ) else 1 / ((2 ^ (-e).toNat : Nat) : ℚ)

/-- The position of the leading bit of `n`, found by at most `fuel` halvings. -/
def log2Aux : Nat → Nat → Nat
  | 0, _ => 0
  | fuel + 1, n => if n < 2 then 0 else log2Aux fuel (n / 2) + 1

/-- The binary exponent of a positive value `a`: the `e` with
`2^e <= a < 2^(e+1)`. -/
def exponent (a : ℚ) : Int :=
  let k : Int := (log2Aux a.num.natAbs a.num.natAbs : Int) - (log2Aux a.den a.den : Int)
  if pow2 k ≤ a then k else k - 1

/-- The binary64 value nearest to `q`, ties going to the even significand (the
default rounding of IEEE 754): a 53-bit significand, with the spacing of the
subnormals below `2^-1022`.  Overflow to infinity is left out. -/
def roundDouble (q : ℚ) : ℚ :=
  if q = 0 then 0 else
    let e := max (exponent |q|) (-1022)
    let ulp := pow2 (e - 52)
    let t := q / ulp
    let f := ⌊t⌋
    let r := t - f
    let m : Int :=
      if r < 1 / 2 then f else if 1 / 2 < r then f + 1 else if f % 2 = 0 then f else f + 1
    m * ulp

/-- Addition `a + b` rounded to binary64. -/
def addR : F64 → F64 → F64
  | fin a, fin b => fin (roundDouble (a + b))
  | _, _ => nan

/-- Subtraction `a - b` rounded to binary64. -/
def subR : F64 → F64 → F64
  | fin a, fin b => fin (roundDouble (a - b))
  | _, _ => nan

/-- Multiplication `a * b` rounded to binary64. -/
def mulR : F64 → F64 → F64
  | fin a, fin b => fin (roundDouble (a * b))
  | _, _ => nan

end F64

/-- The value `dist` computed for variable `i` (lines 120-127), every operation
rounded to binary64. -/
def kktDistR (qp : QP) (model_b : F64) (primal : Buf) (i : Nat) : F64 :=
  let d0 := model_b.neg.mulR (qp.opt_ce i)
  let d1 := d0.addR ((qp.opt_g0 i).addR (F64.fin 1))
  let d2 := (List.range i).foldl
    (fun d j => d.addR ((primal j).mulR (qp.opt_g (j * qp.opt_n + i)))) d1
  (List.range' i (qp.opt_n - i)).foldl
    (fun d j => d.addR ((primal j).mulR (qp.opt_g (i * qp.opt_n + j)))) d2

/-- One pass of the relaxation loop for variable `i` (lines 129-134), every
operation rounded to binary64. -/
def epsStepR (qp : QP) (model_b epsilon_crit : F64) (primal : Buf) (eps : F64) (i : Nat) : F64 :=
  let dist := kktDistR qp model_b primal i
  if (primal i).lt ((qp.opt_up i).subR eps) && dist.lt ((F64.fin 1).subR epsilon_crit) then
    ((qp.opt_up i).subR (primal i)).mulR (F64.fin 2)
  else if (primal i).gt ((F64.fin 0).addR eps) && dist.gt ((F64.fin 1).addR epsilon_crit) then
    (primal i).mulR (F64.fin 2)
  else eps

/-- The relaxation of `epsilon_loqo` (lines 118-135) in binary64; the literal
`1E-10` is the double nearest to 1e-10. -/
def epsilonLoqoR (qp : QP) (model_b epsilon_crit : F64) (primal : Buf) : F64 :=
  (List.range qp.opt_n).foldl (epsStepR qp model_b epsilon_crit primal)
    (F64.fin (F64.roundDouble (1 / 10 ^ 10)))

/-! ## The formulas of the specification, for comparison with the loops -/

/-- Addition of values is `F64.add`. -/
instance : Add F64 := ⟨F64.add⟩

/-- Multiplication of values is `F64.mul`. -/
instance : Mul F64 := ⟨F64.mul⟩

/-- The value 0. -/
instance : Zero F64 := ⟨F64.fin 0⟩

/-- Addition is associative and commutative with unit 0, NaN included. -/
instance : AddCommMonoid F64 where
  add_assoc := by
    intro a b c
    show F64.add (F64.add a b) c = F64.add a (F64.add b c)
    cases a <;> cases b <;> cases c <;> simp [F64.add, add_assoc]
  zero_add := by
    intro a
    show F64.add (F64.fin 0) a = a
    cases a <;> simp [F64.add]
  add_zero := by
    intro a
    show F64.add a (F64.fin 0) = a
    cases a <;> simp [F64.add]
  add_comm := by
    intro a b
    show F64.add a b = F64.add b a
    cases a <;> cases b <;> simp [F64.add, add_comm]
  nsmul := nsmulRec

/-- Multiplication is associative and commutative, NaN included. -/
instance : CommSemigroup F64 where
  mul_assoc := by
    intro a b c
    show F64.mul (F64.mul a b) c = F64.mul a (F64.mul b c)
    cases a <;> cases b <;> cases c <;> simp [F64.mul, mul_assoc]
  mul_comm := by
    intro a b
    show F64.mul a b = F64.mul b a
    cases a <;> cases b <;> simp [F64.mul, mul_comm]

/-- Follows the words of the specification, not the loops: the inner product
`a . b` of the first `n` entries. -/
def dot (n : Nat) (a b : Buf) : F64 :=
  Finset.sum (Finset.range n) (fun i => a i * b i)

/-- Follows the words of the specification, not the loops: entry `i` of the
product `H x` of the row-major `n*n` matrix `H` with `x`. -/
def matVec (n : Nat) (H x : Buf) (i : Nat) : F64 :=
  Finset.sum (Finset.range n) (fun j => H (i * n + j) * x j)

/-- Follows the words of the specification, not the loops: the full quadratic
form `g.x + 0.5 * x^T H x`. -/
def quadraticForm (qp : QP) (x : Buf) : F64 :=
  dot qp.opt_n qp.opt_g0 x + F64.fin (1 / 2) * dot qp.opt_n x (matVec qp.opt_n qp.opt_g x)

/-- Follows the words of the specification, not the loops: the triangular
formula `sum_i (g[i]*x[i] + 0.5*x[i]^2*H[i,i] + sum_{j<i} x[j]*x[i]*H[j,i])`. -/
def triangularForm (qp : QP) (x : Buf) : F64 :=
  Finset.sum (Finset.range qp.opt_n) (fun i =>
    qp.opt_g0 i * x i + F64.fin (1 / 2) * (x i * x i) * qp.opt_g (i * qp.opt_n + i) +
      Finset.sum (Finset.range i) (fun j => x j * x i * qp.opt_g (j * qp.opt_n + i)))

/-- Follows the words of the specification, not the loops: the distance
`-b*eq_coeffs[i] + linear_term[i] + 1 + sum_j x[j]*S[i,j]` with the symmetric
matrix `S[i,j] = H[min(i,j), max(i,j)]` read off the upper triangle of `H`. -/
def distSymmetric (qp : QP) (b : F64) (x : Buf) (i : Nat) : F64 :=
  b.neg * qp.opt_ce i + qp.opt_g0 i + F64.fin 1 +
    Finset.sum (Finset.range qp.opt_n)
      (fun j => x j * qp.opt_g (min i j * qp.opt_n + max i j))

/-- Follows the words of the specification, not the loops: the distance
`-b*eq_coeffs[i] + linear_term[i] + 1 + (H x)[i]`. -/
def distFull (qp : QP) (b : F64) (x : Buf) (i : Nat) : F64 :=
  b.neg * qp.opt_ce i + qp.opt_g0 i + F64.fin 1 + matVec qp.opt_n qp.opt_g x i

/-- A two-variable problem with the symmetric Hessian `[[2, 1], [1, 2]]`,
`linear_term=[-1, -1]`, `upper=[10, 10]`, `init_guess=[0, 0]` and the equality
constraint `x[0] - x[1] = 0`. -/
def twoVarQP : QP :=
  { opt_n := 2
    opt_m := 1
    opt_ce := fun i => if i = 0 then F64.fin 1 else F64.fin (-1)
    opt_ce0 := fun _ => F64.fin 0
    opt_g := fun k => if k = 0 ∨ k = 3 then F64.fin 2 else F64.fin 1
    opt_g0 := fun _ => F64.fin (-1)
    opt_xinit := fun _ => F64.fin 0
    opt_low := fun _ => F64.fin 0
    opt_up := fun _ => F64.fin 10 }

/-- Whether the attempt made in loop state `s` ends with a status other than
OPTIMAL and a non-NaN `dual[0]` (the branch of lines 101-108). -/
def softFail (env : Env) (qp : QP) (s : LoopState) : Bool :=
  !((env.pr_loqo (loqoArgs env qp s)).dual 0).isnan &&
    decide ((env.pr_loqo (loqoArgs env qp s)).result ≠ Status.OPTIMAL_SOLUTION)

/-- The number of attempts that end with a status other than OPTIMAL and a
non-NaN `dual[0]` among the first `k` passes of `retryLoop32` entered in `s`. -/
def softFails32 (env : Env) (qp : QP) (s : LoopState) : Nat → Nat
  | 0 => 0
  | k + 1 => softFails32 env qp s k +
      (if softFail env qp ((retryStep32 env qp)^[k] s) then 1 else 0)

/-- The value of `epsilon_loqo` when the relaxation loop reaches variable `i`,
after the passes for the variables before it. -/
def epsBefore (qp : QP) (model_b epsilon_crit : F64) (primal : Buf) (i : Nat) : F64 :=
  (List.range i).foldl (epsStep qp model_b epsilon_crit primal) (F64.fin (1 / 10 ^ 10))

/-! ## `SGVector<T>::unique` (src/shogun/lib/SGVector.cpp)

The element type `T` is any type with a total order (the integer
instantiations; for the floating-point ones, buffers without NaN).  The buffer
is a map from indices to elements, and the state of the loop is the buffer
together with `j`. -/

/-- One pass of the loop of `SGVector<T>::unique` for index `i` (lines
460-463): `if (i==0 || output[i]!=output[i-1]) output[j++]=output[i];`. -/
def uniqueStep {α : Type} [DecidableEq α] (st : (Nat → α) × Nat) (i : Nat) : (Nat → α) × Nat :=
  if i = 0 ∨ st.1 i ≠ st.1 (i - 1) then (Function.update st.1 st.2 (st.1 i), st.2 + 1) else st

/-- The function `SGVector<T>::unique` (lines 453-465), with `CMath::qsort` as
a parameter: the buffer it leaves and the `j` it returns. -/
def SGVector.unique {α : Type} [DecidableEq α] (qsort : (Nat → α) → Nat → (Nat → α))
    (output : Nat → α) (size : Nat) : (Nat → α) × Nat :=
  (List.range size).foldl uniqueStep (qsort output size, 0)

/-- Modelled from the spec: `CMath::qsort` (`lib/Mathematics.h` is absent),
taken to sort the first `size` entries of the buffer ascending and to leave the
rest alone; an insertion sort stands in for it. -/
def CMath_qsort {α : Type} [LinearOrder α] (output : Nat → α) (size : Nat) : Nat → α :=
  fun k => (((List.range size).map output).insertionSort (fun a b => a ≤ b)).getD k (output k)

/-- What holds of the buffer and `j` when the loop of `unique`, run on the
sorted buffer `s`, reaches index `i`: `j <= i`; once an element has been seen,
`j > 0` and the last element written is the last element seen; the buffer is
unchanged from `j` on; its first `j` entries are strictly increasing and are
the values of the first `i` entries of `s`. -/
def uniqueInv {α : Type} [LinearOrder α] (s : Nat → α) (i : Nat) (st : (Nat → α) × Nat) : Prop :=
  st.2 ≤ i ∧ (0 < i → 0 < st.2 ∧ st.1 (st.2 - 1) = s (i - 1)) ∧
    (∀ k, st.2 ≤ k → st.1 k = s k) ∧
    (∀ a b, a < b → b < st.2 → st.1 a < st.1 b) ∧
    (∀ v, (∃ k, k < st.2 ∧ st.1 k = v) ↔ (∃ k, k < i ∧ s k = v))

/-! ## Test doubles and concrete problems used to instantiate the theorems -/

/-- A solver double that answers every call with the same status and buffers. -/
def constSolver (result : Status) (primal dual : Buf) : LoqoArgs → LoqoOut :=
  fun _ => { result := result, primal := primal, dual := dual }

/-- An environment around a solver double: default precision 1e-14; the doubles
ignore the digits they are handed, so `log10` is a constant here. -/
def testEnv (solver : LoqoArgs → LoqoOut) : Env :=
  { DEF_PRECISION := F64.fin (1 / 10 ^ 14)
    log10 := fun _ => F64.fin 0
    pr_loqo := solver }

/-- The one-variable problem `n=1, m=0, linear_term=[-1], hessian=[2],
lower=[0], upper=[up]`, `init_guess=[x0]`. -/
def scenarioQP (up x0 : ℚ) : QP :=
  { opt_n := 1
    opt_m := 0
    opt_ce := fun _ => F64.fin 0
    opt_ce0 := fun _ => F64.fin 0
    opt_g := fun _ => F64.fin 2
    opt_g0 := fun _ => F64.fin (-1)
    opt_xinit := fun _ => F64.fin x0
    opt_low := fun _ => F64.fin 0
    opt_up := fun _ => F64.fin up }

/-- A solver double that reports STILL_RUNNING and writes NaN into both
buffers on every attempt. -/
def nanEnv : Env :=
  testEnv (constSolver Status.STILL_RUNNING (fun _ => F64.nan) (fun _ => F64.nan))

/-- The file-level variables before the first call (default precision 1e-14 as
in every `testEnv`), with zeroed buffers. -/
def freshGlobals : Globals :=
  Globals.initial nanEnv (fun _ => F64.fin 0) (fun _ => F64.fin 0)

/-- A solver double that reports OPTIMAL and hands back the all-zero primal and
dual, which is the initial guess of `scenarioQP 10 0`: no progress is made. -/
def stallEnv : Env :=
  testEnv (constSolver Status.OPTIMAL_SOLUTION (fun _ => F64.fin 0) (fun _ => F64.fin 0))

/-- A run of calls that make no progress: every call is `scenarioQP 10 0` with
the solver double of `stallEnv`. -/
def stallCalls : Nat → Call :=
  fun _ => { fuel := 1, env := stallEnv, qp := scenarioQP 10 0 }

/-- The caller's state before the first call of a run with tolerance 0.001 and
working-set size 10. -/
def freshWorld : World :=
  { g := freshGlobals, epsilon_crit := F64.fin (1 / 1000), svm_maxqpsize := 10 }

/-- A solver double that reports OPTIMAL with `primal=[0.5]` and `dual=[0]`. -/
def halfEnv : Env :=
  testEnv (constSolver Status.OPTIMAL_SOLUTION (fun _ => F64.fin (1 / 2)) (fun _ => F64.fin 0))

/-- A solver double that reports OPTIMAL but writes NaN into the primal. -/
def nanPrimalEnv : Env :=
  testEnv (constSolver Status.OPTIMAL_SOLUTION (fun _ => F64.nan) (fun _ => F64.fin 0))

/-- A solver double that reports STILL_RUNNING with all-zero buffers on every
attempt. -/
def stillRunningEnv : Env :=
  testEnv (constSolver Status.STILL_RUNNING (fun _ => F64.fin 0) (fun _ => F64.fin 0))

/-- The initial file-level variables except that the violation counter is 500,
its value after 500 calls without progress. -/
def stalledGlobals : Globals :=
  { freshGlobals with precision_violations := 500 }

/-- The scenario problem with a NaN initial guess. -/
def nanInitQP : QP :=
  { scenarioQP 10 0 with opt_xinit := fun _ => F64.nan }

/-- The relation between `margin` and `init_margin` that every pass of the
retry loop keeps, for a call entered with `init_margin = b0`: both are finite,
`init_margin` has not dropped below `b0` and is below 0.9, `margin` is at most
1, and either `init_margin` is past 0.8, or no NaN pass has happened yet
(`margin = init_margin`), or the last NaN pass has just set `init_margin` from
the previous margin (`5 * init_margin = 8 * margin - 3`). -/
def marginInv (b0 : ℚ) (s : LoopState) : Prop :=
  ∃ b m, s.g.init_margin = F64.fin b ∧ s.margin = F64.fin m ∧ b0 ≤ b ∧ b < 9 / 10 ∧ m ≤ 1 ∧
    (4 / 5 ≤ b ∨ m = b ∨ 5 * b = 8 * m - 3)

/-- Follows the words of the specification: `a` is within `eps` of `b`, that
is `b - eps <= a <= b + eps`. -/
def F64.within (eps a b : F64) : Bool :=
  (b.sub eps).le a && a.le (b.add eps)

/-- A solver double that reports STILL_RUNNING when handed the iteration cap
500 and OPTIMAL otherwise, with all-zero buffers. -/
def retryOnceEnv : Env :=
  testEnv (fun a =>
    { result := if a.counter_max = 500 then Status.STILL_RUNNING else Status.OPTIMAL_SOLUTION
      primal := fun _ => F64.fin 0
      dual := fun _ => F64.fin 0 })

/-- A solver double that reports OPTIMAL when it is handed a negative iteration
cap and STILL_RUNNING otherwise, with all-zero buffers. -/
def negativeCapEnv : Env :=
  testEnv (fun a =>
    { result := if a.counter_max < 0 then Status.OPTIMAL_SOLUTION else Status.STILL_RUNNING
      primal := fun _ => F64.fin 0
      dual := fun _ => F64.fin 0 })

/-- The one-variable problem `n=1, m=1, eq_coeffs=[1], linear_term=[2^-53],
hessian=[0]`. -/
def cancelQP : QP :=
  { opt_n := 1
    opt_m := 1
    opt_ce := fun _ => F64.fin 1
    opt_ce0 := fun _ => F64.fin 0
    opt_g := fun _ => F64.fin 0
    opt_g0 := fun _ => F64.fin (1 / 2 ^ 53)
    opt_xinit := fun _ => F64.fin 0
    opt_low := fun _ => F64.fin 0
    opt_up := fun _ => F64.fin 10 }

/-- The one-variable problem `n=1, m=0, linear_term=[-1], hessian=[2],
lower=[0], upper=[1E-10]`, the upper bound being the double nearest to 1e-10. -/
def tinyUpperQP : QP :=
  { opt_n := 1
    opt_m := 0
    opt_ce := fun _ => F64.fin 0
    opt_ce0 := fun _ => F64.fin 0
    opt_g := fun _ => F64.fin 2
    opt_g0 := fun _ => F64.fin (-1)
    opt_xinit := fun _ => F64.fin 0
    opt_low := fun _ => F64.fin 0
    opt_up := fun _ => F64.fin (F64.roundDouble (1 / 10 ^ 10)) }

/-! ## Auxiliary facts about the value model -/

theorem F64.isnan_eq_false_iff (a : F64) : a.isnan = false ↔ ∃ q, a = F64.fin q := by
  cases a <;> simp [F64.isnan]

theorem F64.add_eq_fin {a b : F64} {r : ℚ} (h : a.add b = F64.fin r) :
    ∃ x y, a = F64.fin x ∧ b = F64.fin y := by
  cases a <;> cases b <;> simp [F64.add] at h ⊢

theorem F64.mul_eq_fin {a b : F64} {r : ℚ} (h : a.mul b = F64.fin r) :
    ∃ x y, a = F64.fin x ∧ b = F64.fin y := by
  cases a <;> cases b <;> simp [F64.mul] at h ⊢

theorem F64.le_eq_true {a b : F64} (h : a.le b = true) :
    ∃ x y, a = F64.fin x ∧ b = F64.fin y ∧ x ≤ y := by
  cases a <;> cases b <;> simp [F64.le] at h ⊢
  exact h

theorem F64.ge_eq_true {a b : F64} (h : a.ge b = true) :
    ∃ x y, a = F64.fin x ∧ b = F64.fin y ∧ y ≤ x := by
  cases a <;> cases b <;> simp [F64.ge] at h ⊢
  exact h

theorem F64.lt_eq_true {a b : F64} (h : a.lt b = true) :
    ∃ x y, a = F64.fin x ∧ b = F64.fin y ∧ x < y := by
  cases a <;> cases b <;> simp [F64.lt] at h ⊢
  exact h

theorem F64.gt_eq_true {a b : F64} (h : a.gt b = true) :
    ∃ x y, a = F64.fin x ∧ b = F64.fin y ∧ y < x := by
  cases a <;> cases b <;> simp [F64.gt] at h ⊢
  exact h

/-! ## The loops over the variables -/

theorem clipStep_eq (qp : QP) (eps : F64) (p : Buf) (i : Nat) :
    clipStep qp eps p i = Function.update p i (clipVal qp eps i (p i)) := by
  unfold clipStep clipVal
  split
  · rfl
  · split
    · rfl
    · simp

theorem foldl_update_range (f : Nat → F64 → F64) (p : Buf) (n i : Nat) :
    (List.range n).foldl (fun q k => Function.update q k (f k (q k))) p i =
      if i < n then f i (p i) else p i := by
  induction n with
  | zero => simp
  | succ n ih =>
    rw [List.range_succ, List.foldl_append]
    simp only [List.foldl_cons, List.foldl_nil]
    by_cases h : i = n
    · subst h
      have h2 := ih
      simp only [lt_irrefl, if_false] at h2
      simp [h2]
    · rw [Function.update_noteq h, ih]
      by_cases h3 : i < n
      · simp [h3, Nat.lt_succ_of_lt h3]
      · have : ¬ i < n + 1 := by omega
        simp [h3, this]

theorem clip_apply (qp : QP) (eps : F64) (p : Buf) (i : Nat) :
    clip qp eps p i = if i < qp.opt_n then clipVal qp eps i (p i) else p i := by
  unfold clip
  have h : clipStep qp eps = fun q k => Function.update q k (clipVal qp eps k (q k)) := by
    funext q k
    exact clipStep_eq qp eps q k
  rw [h]
  exact foldl_update_range (clipVal qp eps) p qp.opt_n i

theorem resetPrimal_apply (qp : QP) (p : Buf) (i : Nat) :
    resetPrimal qp p i = if i < qp.opt_n then qp.opt_xinit i else p i := by
  unfold resetPrimal
  exact foldl_update_range (fun k _ => qp.opt_xinit k) p qp.opt_n i

theorem epsStep_pos (qp : QP) (model_b epsilon_crit : F64) (primal : Buf) (e : ℚ) (i : Nat)
    (he : 1 / 10 ^ 10 ≤ e) :
    ∃ e2, epsStep qp model_b epsilon_crit primal (F64.fin e) i = F64.fin e2 ∧ 1 / 10 ^ 10 ≤ e2 := by
  unfold epsStep
  simp only []
  split
  · rename_i h
    simp only [Bool.and_eq_true] at h
    obtain ⟨x, y, hx, hy, hxy⟩ := F64.lt_eq_true h.1
    cases hu : qp.opt_up i with
    | nan => rw [hu] at hy; simp [F64.sub] at hy
    | fin u =>
      rw [hu] at hy
      simp only [F64.sub, F64.fin.injEq] at hy
      rw [hx]
      refine ⟨(u - x) * 2, by simp [F64.sub, F64.mul], ?_⟩
      have he0 : (0 : ℚ) < 1 / 10 ^ 10 := by norm_num
      linarith
  · split
    · rename_i h
      simp only [Bool.and_eq_true] at h
      obtain ⟨x, y, hx, hy, hxy⟩ := F64.gt_eq_true h.1
      simp only [F64.add, F64.fin.injEq] at hy
      rw [hx]
      refine ⟨x * 2, by simp [F64.mul], ?_⟩
      have he0 : (0 : ℚ) < 1 / 10 ^ 10 := by norm_num
      linarith
    · exact ⟨e, rfl, he⟩

theorem epsFold_pos (qp : QP) (model_b epsilon_crit : F64) (primal : Buf) (l : List Nat) (e : ℚ)
    (he : 1 / 10 ^ 10 ≤ e) :
    ∃ e2, l.foldl (epsStep qp model_b epsilon_crit primal) (F64.fin e) = F64.fin e2 ∧
      1 / 10 ^ 10 ≤ e2 := by
  induction l generalizing e with
  | nil => exact ⟨e, rfl, he⟩
  | cons i l ih =>
    obtain ⟨e1, h1, h1e⟩ := epsStep_pos qp model_b epsilon_crit primal e i he
    simp only [List.foldl_cons, h1]
    exact ih e1 h1e

theorem epsilonLoqo_pos (qp : QP) (model_b epsilon_crit : F64) (primal : Buf) :
    ∃ e, epsilonLoqo qp model_b epsilon_crit primal = F64.fin e ∧ 1 / 10 ^ 10 ≤ e :=
  epsFold_pos qp model_b epsilon_crit primal (List.range qp.opt_n) (1 / 10 ^ 10) le_rfl

theorem foldl_add_eq_fin (t : Nat → F64) (l : List Nat) (acc : F64) (r : ℚ)
    (h : l.foldl (fun a j => a.add (t j)) acc = F64.fin r) : ∃ q, acc = F64.fin q := by
  induction l generalizing acc with
  | nil => exact ⟨r, h⟩
  | cons j l ih =>
    simp only [List.foldl_cons] at h
    obtain ⟨q, hq⟩ := ih _ h
    obtain ⟨x, _, hx, _⟩ := F64.add_eq_fin hq
    exact ⟨x, hx⟩

/-- One pass of the outer objective loop. -/
theorem objective_step_fin (qp : QP) (x : Buf) (l : List Nat) (acc : F64) (r : ℚ)
    (h : l.foldl
      (fun acc i =>
        let acc1 := acc.add ((qp.opt_g0 i).mul (x i))
        let acc2 := acc1.add ((((F64.fin (1 / 2)).mul (x i)).mul (x i)).mul
          (qp.opt_g (i * qp.opt_n + i)))
        (List.range i).foldl
          (fun a j => a.add (((x j).mul (x i)).mul (qp.opt_g (j * qp.opt_n + i))))
          acc2) acc = F64.fin r) :
    (∃ q, acc = F64.fin q) ∧ ∀ i ∈ l, ∃ q, x i = F64.fin q := by
  induction l generalizing acc with
  | nil => exact ⟨⟨r, h⟩, by simp⟩
  | cons i l ih =>
    simp only [List.foldl_cons] at h
    obtain ⟨⟨q, hq⟩, hrest⟩ := ih _ h
    obtain ⟨q2, hq2⟩ := foldl_add_eq_fin _ _ _ _ hq
    obtain ⟨q1, _, hq1, _⟩ := F64.add_eq_fin hq2
    obtain ⟨q0, y, hq0, hy⟩ := F64.add_eq_fin hq1
    obtain ⟨_, xi, _, hxi⟩ := F64.mul_eq_fin hy
    refine ⟨⟨q0, hq0⟩, ?_⟩
    intro k hk
    rcases List.mem_cons.1 hk with hk | hk
    · subst hk
      exact ⟨xi, hxi⟩
    · exact hrest k hk

theorem objective_fin (qp : QP) (x : Buf) (h : (objective qp x).isnan = false) :
    ∀ i, i < qp.opt_n → ∃ q, x i = F64.fin q := by
  obtain ⟨r, hr⟩ := (F64.isnan_eq_false_iff _).1 h
  intro i hi
  exact (objective_step_fin qp x (List.range qp.opt_n) (F64.fin 0) r hr).2 i (List.mem_range.2 hi)

/-! ## The retry loop and the call as a whole -/

theorem optimize_qp_eq_some {fuel : Nat} {env : Env} {qp : QP} {epsilon_crit : F64}
    {svm_maxqpsize : Int} {g : Globals} {o : Outcome}
    (h : optimize_qp fuel env qp epsilon_crit svm_maxqpsize g = some o) :
    ∃ s, retryLoop env (negateCe0 qp) fuel (loopInit g) = some s ∧
      o = afterLoop (negateCe0 qp) epsilon_crit svm_maxqpsize (objective qp qp.opt_xinit) s := by
  unfold optimize_qp at h
  simp only [Option.map_eq_some'] at h
  obtain ⟨s, hs, ho⟩ := h
  exact ⟨s, hs, ho.symm⟩

theorem retryLoop_one_pass (env : Env) (qp : QP) (fuel : Nat) (s : LoopState)
    (h0 : loopCond s = true) (h1 : loopCond (retryStep env qp s) = false) :
    retryLoop env qp (fuel + 1) s = some (retryStep env qp s) := by
  cases fuel <;> simp [retryLoop, h0, h1]

theorem optimize_qp_one_pass (env : Env) (qp : QP) (epsilon_crit : F64) (svm_maxqpsize : Int)
    (g : Globals) (fuel : Nat) (h0 : loopCond (loopInit g) = true)
    (h1 : loopCond (retryStep env (negateCe0 qp) (loopInit g)) = false) :
    optimize_qp (fuel + 1) env qp epsilon_crit svm_maxqpsize g =
      some (afterLoop (negateCe0 qp) epsilon_crit svm_maxqpsize (objective qp qp.opt_xinit)
        (retryStep env (negateCe0 qp) (loopInit g))) := by
  unfold optimize_qp
  simp only [retryLoop_one_pass env (negateCe0 qp) fuel (loopInit g) h0 h1, Option.map_some']

theorem objective_one (qp : QP) (h : qp.opt_n = 1) (x : Buf) :
    objective qp x = ((F64.fin 0).add ((qp.opt_g0 0).mul (x 0))).add
      ((((F64.fin (1 / 2)).mul (x 0)).mul (x 0)).mul (qp.opt_g 0)) := by
  unfold objective
  rw [h]
  simp [List.range_succ]

theorem kktDist_one (qp : QP) (h : qp.opt_n = 1) (b : F64) (x : Buf) :
    kktDist qp b x 0 = ((b.neg.mul (qp.opt_ce 0)).add ((qp.opt_g0 0).add (F64.fin 1))).add
      ((x 0).mul (qp.opt_g 0)) := by
  unfold kktDist
  rw [h]
  simp [List.range']

theorem epsilonLoqo_one (qp : QP) (h : qp.opt_n = 1) (b c : F64) (x : Buf) :
    epsilonLoqo qp b c x = epsStep qp b c x (F64.fin (1 / 10 ^ 10)) 0 := by
  unfold epsilonLoqo
  rw [h]
  simp [List.range_succ]

theorem clipVal_bounds (qp : QP) (e : ℚ) (he : 0 < e) (i : Nat) (v : ℚ)
    (hu : (F64.fin 0).le (qp.opt_up i) = true) :
    (F64.fin 0).le (clipVal qp (F64.fin e) i (F64.fin v)) = true ∧
      (clipVal qp (F64.fin e) i (F64.fin v)).le (qp.opt_up i) = true := by
  obtain ⟨z, u, hz, hu2, hzu⟩ := F64.le_eq_true hu
  simp only [F64.fin.injEq] at hz
  subst hz
  unfold clipVal
  rw [hu2]
  simp only [F64.add, F64.sub, F64.le, F64.ge, decide_eq_true_eq]
  by_cases h1 : v ≤ 0 + e
  · rw [if_pos h1]
    simp [F64.le, hzu]
  · rw [if_neg h1]
    by_cases h2 : u - e ≤ v
    · rw [if_pos h2]
      simp [F64.le, hzu]
    · rw [if_neg h2]
      simp only [F64.le, decide_eq_true_eq]
      constructor <;> linarith

theorem loopCond_freshGlobals_margin :
    freshGlobals.init_margin.le (F64.fin (9999999 / 10000000)) = true := by
  simp only [freshGlobals, Globals.initial, F64.le]
  norm_num

theorem retryLoop_none (env : Env) (qp : QP) (fuel : Nat) (s : LoopState)
    (h : ∀ k, loopCond ((retryStep env qp)^[k] s) = true) : retryLoop env qp fuel s = none := by
  induction fuel generalizing s with
  | zero =>
    have h0 := h 0
    simp only [Function.iterate_zero, id_eq] at h0
    simp [retryLoop, h0]
  | succ fuel ih =>
    have h0 := h 0
    simp only [Function.iterate_zero, id_eq] at h0
    simp only [retryLoop, h0, if_true]
    apply ih
    intro k
    have := h (k + 1)
    rwa [Function.iterate_succ_apply] at this

theorem retryLoop_exit (env : Env) (qp : QP) (fuel : Nat) (s : LoopState)
    (h : loopCond s = false) : retryLoop env qp fuel s = some s := by
  cases fuel <;> simp [retryLoop, h]

theorem retryStep_not_converged (env : Env) (qp : QP) (s : LoopState)
    (hd : ((env.pr_loqo (loqoArgs env qp s)).dual 0).isnan = false)
    (hr : (env.pr_loqo (loqoArgs env qp s)).result ≠ Status.OPTIMAL_SOLUTION) :
    (retryStep env qp s).margin = s.margin ∧ (retryStep env qp s).iter = s.iter + 2000 ∧
      (retryStep env qp s).result = (env.pr_loqo (loqoArgs env qp s)).result ∧
      (retryStep env qp s).g.init_iter = s.g.init_iter + 10 ∧
      (retryStep env qp s).g.init_margin = s.g.init_margin := by
  simp [retryStep, hd, hr]

theorem stillRunning_iterate (env : Env) (qp : QP) (s : LoopState)
    (hs : ∀ a, (env.pr_loqo a).result = Status.STILL_RUNNING ∧
      ((env.pr_loqo a).dual 0).isnan = false) (k : Nat) :
    ((retryStep env qp)^[k] s).margin = s.margin ∧
      ((retryStep env qp)^[k] s).iter = s.iter + 2000 * k ∧
      ((retryStep env qp)^[k] s).g.init_iter = s.g.init_iter + 10 * k ∧
      ((retryStep env qp)^[k] s).g.init_margin = s.g.init_margin ∧
      (0 < k → ((retryStep env qp)^[k] s).result = Status.STILL_RUNNING) := by
  induction k with
  | zero => simp
  | succ k ih =>
    rw [Function.iterate_succ_apply']
    obtain ⟨h1, h2, h3, h4, _⟩ := ih
    have hr : (env.pr_loqo (loqoArgs env qp ((retryStep env qp)^[k] s))).result ≠
        Status.OPTIMAL_SOLUTION := by
      rw [(hs _).1]
      decide
    obtain ⟨m1, m2, m3, m4, m5⟩ :=
      retryStep_not_converged env qp ((retryStep env qp)^[k] s) (hs _).2 hr
    refine ⟨by rw [m1, h1], ?_, ?_, by rw [m5, h4], fun _ => by rw [m3, (hs _).1]⟩
    · rw [m2, h2]
      push_cast
      ring
    · rw [m4, h3]
      push_cast
      ring

theorem stillRunning_cond (env : Env) (qp : QP) (g : Globals)
    (hs : ∀ a, (env.pr_loqo a).result = Status.STILL_RUNNING ∧
      ((env.pr_loqo a).dual 0).isnan = false)
    (hm : g.init_margin.le (F64.fin (9999999 / 10000000)) = true) (k : Nat) :
    loopCond ((retryStep env qp)^[k] (loopInit g)) = true := by
  obtain ⟨h1, _, _, _, h5⟩ := stillRunning_iterate env qp (loopInit g) hs k
  have hres : ((retryStep env qp)^[k] (loopInit g)).result = Status.STILL_RUNNING := by
    rcases Nat.eq_zero_or_pos k with hk | hk
    · subst hk
      rfl
    · exact h5 hk
  unfold loopCond
  rw [h1, hres]
  simp only [loopInit, hm, Bool.true_and, decide_eq_true_eq]
  decide

theorem retryStep_converged (env : Env) (qp : QP) (s : LoopState)
    (hr : (env.pr_loqo (loqoArgs env qp s)).result = Status.OPTIMAL_SOLUTION) :
    (retryStep env qp s).result = Status.OPTIMAL_SOLUTION ∧
      (retryStep env qp s).g.primal = (env.pr_loqo (loqoArgs env qp s)).primal ∧
      (retryStep env qp s).g.dual = (env.pr_loqo (loqoArgs env qp s)).dual ∧
      (retryStep env qp s).g.precision_violations = s.g.precision_violations := by
  unfold retryStep
  simp only [hr]
  cases ((env.pr_loqo (loqoArgs env qp s)).dual 0).isnan
  · simp
  · simp only [if_true]
    split <;> simp

theorem loopCond_of_optimal (s : LoopState) (h : s.result = Status.OPTIMAL_SOLUTION) :
    loopCond s = false := by
  simp [loopCond, h]

theorem loopCond_loopInit (g : Globals)
    (hm : g.init_margin.le (F64.fin (9999999 / 10000000)) = true) :
    loopCond (loopInit g) = true := by
  simp only [loopCond, loopInit, hm, Bool.true_and, decide_eq_true_eq]
  decide

/-- A call whose first attempt is OPTIMAL returns after that attempt. -/
theorem optimize_qp_first_optimal (fuel : Nat) (env : Env) (qp : QP) (epsilon_crit : F64)
    (svm_maxqpsize : Int) (g : Globals)
    (hm : g.init_margin.le (F64.fin (9999999 / 10000000)) = true)
    (hopt : (firstAttempt env qp g).result = Status.OPTIMAL_SOLUTION) :
    optimize_qp (fuel + 1) env qp epsilon_crit svm_maxqpsize g =
      some (afterLoop (negateCe0 qp) epsilon_crit svm_maxqpsize (objective qp qp.opt_xinit)
        (retryStep env (negateCe0 qp) (loopInit g))) :=
  optimize_qp_one_pass env qp epsilon_crit svm_maxqpsize g fuel (loopCond_loopInit g hm)
    (loopCond_of_optimal _ (retryStep_converged env (negateCe0 qp) (loopInit g) hopt).1)

/-! ## The fields of the outcome, in terms of the locals -/

theorem afterLoop_result (qp : QP) (ec : F64) (mq : Int) (ob : F64) (s : LoopState) :
    (afterLoop qp ec mq ob s).result = s.result := rfl

theorem afterLoop_qp (qp : QP) (ec : F64) (mq : Int) (ob : F64) (s : LoopState) :
    (afterLoop qp ec mq ob s).qp = qp := rfl

theorem afterLoop_obj_before (qp : QP) (ec : F64) (mq : Int) (ob : F64) (s : LoopState) :
    (afterLoop qp ec mq ob s).obj_before = ob := rfl

theorem afterLoop_raw_b (qp : QP) (ec : F64) (mq : Int) (ob : F64) (s : LoopState) :
    (afterLoop qp ec mq ob s).raw_b = if qp.opt_m ≠ 0 then s.g.dual 0 else F64.fin 0 := rfl

theorem afterLoop_epsilon_loqo (qp : QP) (ec : F64) (mq : Int) (ob : F64) (s : LoopState) :
    (afterLoop qp ec mq ob s).epsilon_loqo =
      epsilonLoqo qp (afterLoop qp ec mq ob s).raw_b ec s.g.primal := rfl

theorem afterLoop_clipped (qp : QP) (ec : F64) (mq : Int) (ob : F64) (s : LoopState) :
    (afterLoop qp ec mq ob s).clipped = clip qp (afterLoop qp ec mq ob s).epsilon_loqo s.g.primal :=
  rfl

theorem afterLoop_obj_after (qp : QP) (ec : F64) (mq : Int) (ob : F64) (s : LoopState) :
    (afterLoop qp ec mq ob s).obj_after = objective qp (afterLoop qp ec mq ob s).clipped := rfl

theorem afterLoop_solution (qp : QP) (ec : F64) (mq : Int) (ob : F64) (s : LoopState) :
    (afterLoop qp ec mq ob s).solution =
      if s.result ≠ Status.OPTIMAL_SOLUTION then qp.opt_xinit
      else if ((afterLoop qp ec mq ob s).obj_after.isnan ||
          (afterLoop qp ec mq ob s).raw_b.isnan) = true
        then resetPrimal qp (afterLoop qp ec mq ob s).clipped
        else (afterLoop qp ec mq ob s).clipped := rfl

theorem afterLoop_threshold (qp : QP) (ec : F64) (mq : Int) (ob : F64) (s : LoopState) :
    (afterLoop qp ec mq ob s).threshold =
      if ((afterLoop qp ec mq ob s).obj_after.isnan ||
          (afterLoop qp ec mq ob s).raw_b.isnan) = true
        then F64.fin 0 else (afterLoop qp ec mq ob s).raw_b := rfl

theorem afterLoop_svm_maxqpsize (qp : QP) (ec : F64) (mq : Int) (ob : F64) (s : LoopState) :
    (afterLoop qp ec mq ob s).svm_maxqpsize =
      if ((afterLoop qp ec mq ob s).obj_after.isnan ||
          (afterLoop qp ec mq ob s).raw_b.isnan) = true
        then (if mq > 2 then mq - 1 else mq) else mq := rfl

theorem afterLoop_epsilon_crit (qp : QP) (ec : F64) (mq : Int) (ob : F64) (s : LoopState) :
    (afterLoop qp ec mq ob s).epsilon_crit =
      if (if (afterLoop qp ec mq ob s).obj_after.ge ob = true then s.g.precision_violations + 1
          else s.g.precision_violations) > 500
        then ec.mul (F64.fin 10) else ec := by
  simp only [afterLoop, decide_eq_true_eq]

theorem afterLoop_precision_violations (qp : QP) (ec : F64) (mq : Int) (ob : F64)
    (s : LoopState) :
    (afterLoop qp ec mq ob s).g.precision_violations =
      if (if (afterLoop qp ec mq ob s).obj_after.ge ob = true then s.g.precision_violations + 1
          else s.g.precision_violations) > 500
        then 0
        else (if (afterLoop qp ec mq ob s).obj_after.ge ob = true
          then s.g.precision_violations + 1 else s.g.precision_violations) := by
  simp only [afterLoop, decide_eq_true_eq]

theorem afterLoop_init (qp : QP) (ec : F64) (mq : Int) (ob : F64) (s : LoopState) :
    (afterLoop qp ec mq ob s).g.init_margin = s.g.init_margin ∧
      (afterLoop qp ec mq ob s).g.init_iter = s.g.init_iter := ⟨rfl, rfl⟩

theorem retryStep_converged_clean (env : Env) (qp : QP) (s : LoopState)
    (hr : (env.pr_loqo (loqoArgs env qp s)).result = Status.OPTIMAL_SOLUTION)
    (hd : ((env.pr_loqo (loqoArgs env qp s)).dual 0).isnan = false) :
    (retryStep env qp s).g.init_margin = s.g.init_margin ∧
      (retryStep env qp s).g.init_iter = s.g.init_iter ∧
      (retryStep env qp s).margin = s.margin ∧ (retryStep env qp s).iter = s.iter := by
  simp [retryStep, hr, hd]

theorem clipVal_zero (qp : QP) (e : ℚ) (he : 0 ≤ e) (i : Nat) :
    clipVal qp (F64.fin e) i (F64.fin 0) = F64.fin 0 := by
  simp [clipVal, F64.add, F64.le, he]

/-- A call on `scenarioQP 10 0` with the solver double of `stallEnv` returns
after one attempt with post-objective and pre-objective both 0. -/
theorem stall_call (fuel : Nat) (ec : F64) (mq : Int) (g : Globals)
    (hm : g.init_margin.le (F64.fin (9999999 / 10000000)) = true) :
    ∃ o, optimize_qp (fuel + 1) stallEnv (scenarioQP 10 0) ec mq g = some o ∧
      o.obj_after = F64.fin 0 ∧ o.obj_before = F64.fin 0 ∧ o.raw_b = F64.fin 0 ∧
      o.g.init_margin = g.init_margin ∧
      o = afterLoop (negateCe0 (scenarioQP 10 0)) ec mq
        (objective (scenarioQP 10 0) (scenarioQP 10 0).opt_xinit)
        (retryStep stallEnv (negateCe0 (scenarioQP 10 0)) (loopInit g)) := by
  refine ⟨_, optimize_qp_first_optimal fuel stallEnv (scenarioQP 10 0) ec mq g hm rfl, ?_, ?_, ?_,
    ?_, rfl⟩
  · have hn : (negateCe0 (scenarioQP 10 0)).opt_n = 1 := rfl
    obtain ⟨e, he, hpos⟩ := epsilonLoqo_pos (negateCe0 (scenarioQP 10 0))
      (afterLoop (negateCe0 (scenarioQP 10 0)) ec mq
        (objective (scenarioQP 10 0) (scenarioQP 10 0).opt_xinit)
        (retryStep stallEnv (negateCe0 (scenarioQP 10 0)) (loopInit g))).raw_b ec
      (retryStep stallEnv (negateCe0 (scenarioQP 10 0)) (loopInit g)).g.primal
    have he0 : (0 : ℚ) ≤ e := le_trans (by norm_num) hpos
    have hp : (retryStep stallEnv (negateCe0 (scenarioQP 10 0)) (loopInit g)).g.primal 0 =
        F64.fin 0 := by
      rw [(retryStep_converged stallEnv (negateCe0 (scenarioQP 10 0)) (loopInit g) rfl).2.1]
      rfl
    rw [afterLoop_obj_after, objective_one _ hn, afterLoop_clipped, clip_apply, hn,
      afterLoop_epsilon_loqo, he, if_pos Nat.zero_lt_one, hp, clipVal_zero _ e he0]
    norm_num [scenarioQP, negateCe0, F64.add, F64.mul]
  · have hn : (scenarioQP 10 0).opt_n = 1 := rfl
    rw [afterLoop_obj_before, objective_one _ hn]
    norm_num [scenarioQP, F64.add, F64.mul]
  · rfl
  · rw [(afterLoop_init _ _ _ _ _).1]
    exact (retryStep_converged_clean stallEnv (negateCe0 (scenarioQP 10 0)) (loopInit g)
      rfl rfl).1

/-- The retry loop ends in `t` within `fuel` passes exactly when `t` is the
state after some `k <= fuel` passes, the condition fails in `t`, and it held
before each of the `k` passes: the states before pass `j+1` are the iterates
`(retryStep env qp)^[j] s`. -/
theorem retryLoop_eq_some_iff (env : Env) (qp : QP) (fuel : Nat) (s t : LoopState) :
    retryLoop env qp fuel s = some t ↔
      ∃ k, k ≤ fuel ∧ (retryStep env qp)^[k] s = t ∧ loopCond t = false ∧
        ∀ j, j < k → loopCond ((retryStep env qp)^[j] s) = true := by
  induction fuel generalizing s with
  | zero =>
    simp only [retryLoop]
    constructor
    · intro h
      split at h
      · exact Option.noConfusion h
      · rename_i hc
        simp only [Option.some.injEq] at h
        subst h
        exact ⟨0, le_rfl, rfl, by simpa using hc, fun j hj => absurd hj (Nat.not_lt_zero j)⟩
    · rintro ⟨k, hk, hit, hc, _⟩
      have hk0 : k = 0 := by omega
      subst hk0
      simp only [Function.iterate_zero, id_eq] at hit
      subst hit
      simp [hc]
  | succ fuel ih =>
    simp only [retryLoop]
    by_cases hc : loopCond s = true
    · rw [if_pos hc, ih]
      constructor
      · rintro ⟨k, hk, hit, hct, hall⟩
        refine ⟨k + 1, by omega, by rwa [Function.iterate_succ_apply], hct, fun j hj => ?_⟩
        cases j with
        | zero => exact hc
        | succ j =>
          rw [Function.iterate_succ_apply]
          exact hall j (by omega)
      · rintro ⟨k, hk, hit, hct, hall⟩
        cases k with
        | zero =>
          simp only [Function.iterate_zero, id_eq] at hit
          subst hit
          rw [hc] at hct
          exact Bool.noConfusion hct
        | succ k =>
          refine ⟨k, by omega, by rwa [Function.iterate_succ_apply] at hit, hct, fun j hj => ?_⟩
          have := hall (j + 1) (by omega)
          rwa [Function.iterate_succ_apply] at this
    · rw [if_neg hc]
      simp only [Bool.not_eq_true] at hc
      constructor
      · intro h
        simp only [Option.some.injEq] at h
        subst h
        exact ⟨0, by omega, rfl, hc, fun j hj => absurd hj (Nat.not_lt_zero j)⟩
      · rintro ⟨k, _, hit, _, hall⟩
        cases k with
        | zero =>
          simp only [Function.iterate_zero, id_eq] at hit
          rw [hit]
        | succ k =>
          have := hall 0 (by omega)
          simp only [Function.iterate_zero, id_eq] at this
          rw [hc] at this
          exact Bool.noConfusion this

theorem retryLoop_invariant (env : Env) (qp : QP) (P : LoopState → Prop)
    (hstep : ∀ s, P s → P (retryStep env qp s)) (fuel : Nat) (s t : LoopState) (hs : P s)
    (h : retryLoop env qp fuel s = some t) : P t := by
  induction fuel generalizing s with
  | zero =>
    simp only [retryLoop] at h
    split at h
    · exact Option.noConfusion h
    · simp only [Option.some.injEq] at h
      exact h ▸ hs
  | succ fuel ih =>
    simp only [retryLoop] at h
    split at h
    · exact ih _ (hstep s hs) h
    · simp only [Option.some.injEq] at h
      exact h ▸ hs

theorem retryStep_precision_violations (env : Env) (qp : QP) (s : LoopState) :
    (retryStep env qp s).g.precision_violations = s.g.precision_violations := by
  unfold retryStep
  simp only []
  split
  · split <;> rfl
  · split <;> rfl

theorem retryLoop_precision_violations (env : Env) (qp : QP) (fuel : Nat) (s t : LoopState)
    (h : retryLoop env qp fuel s = some t) :
    t.g.precision_violations = s.g.precision_violations :=
  retryLoop_invariant env qp (fun u => u.g.precision_violations = s.g.precision_violations)
    (fun u hu => (retryStep_precision_violations env qp u).trans hu) fuel s t rfl h

/-- The stagnation step of a call in which the post-objective is >= the
pre-objective. -/
theorem callOnce_stalled (c : Call) (w : World) (o : Outcome) (h : callOnce c w = some o)
    (hge : o.obj_after.ge o.obj_before = true) :
    o.g.precision_violations =
        (if w.g.precision_violations + 1 > 500 then 0 else w.g.precision_violations + 1) ∧
      o.epsilon_crit =
        (if w.g.precision_violations + 1 > 500 then w.epsilon_crit.mul (F64.fin 10)
          else w.epsilon_crit) := by
  obtain ⟨s, hs, ho⟩ := optimize_qp_eq_some h
  have hv := retryLoop_precision_violations _ _ _ _ _ hs
  have hv2 : s.g.precision_violations = w.g.precision_violations := hv
  subst ho
  rw [afterLoop_obj_before] at hge
  rw [afterLoop_precision_violations, afterLoop_epsilon_crit, hge, hv2]
  simp only [if_true]
  exact ⟨trivial, trivial⟩

theorem runCalls_succ (calls : Nat → Call) (k : Nat) (w0 w : World) (o : Outcome)
    (hw : runCalls calls k w0 = some w) (ho : callOnce (calls k) w = some o) :
    runCalls calls (k + 1) w0 = some o.world := by
  simp [runCalls, hw, ho]

theorem stallCalls_run (k : Nat) :
    ∃ w, runCalls stallCalls k freshWorld = some w ∧
      w.g.init_margin.le (F64.fin (9999999 / 10000000)) = true := by
  induction k with
  | zero => exact ⟨freshWorld, rfl, loopCond_freshGlobals_margin⟩
  | succ k ih =>
    obtain ⟨w, hw, hm⟩ := ih
    obtain ⟨o, ho, _, _, _, hmargin, _⟩ := stall_call 0 w.epsilon_crit w.svm_maxqpsize w.g hm
    refine ⟨o.world, runCalls_succ stallCalls k freshWorld w o hw ho, ?_⟩
    show o.g.init_margin.le _ = true
    rw [hmargin]
    exact hm

theorem stallCalls_stalled (k : Nat) :
    ∃ w o, runCalls stallCalls k freshWorld = some w ∧ callOnce (stallCalls k) w = some o ∧
      o.obj_after.ge o.obj_before = true := by
  obtain ⟨w, hw, hm⟩ := stallCalls_run k
  obtain ⟨o, ho, h1, h2, _, _, _⟩ := stall_call 0 w.epsilon_crit w.svm_maxqpsize w.g hm
  refine ⟨w, o, hw, ho, ?_⟩
  rw [h1, h2]
  simp [F64.ge]

theorem retryStep_nan (env : Env) (qp : QP) (s : LoopState)
    (hd : ((env.pr_loqo (loqoArgs env qp s)).dual 0).isnan = true) :
    (retryStep env qp s).margin = (s.margin.add (F64.fin 1)).div (F64.fin 2) ∧
      (retryStep env qp s).iter = s.iter ∧
      (retryStep env qp s).result = (env.pr_loqo (loqoArgs env qp s)).result ∧
      (retryStep env qp s).g.opt_precision =
        (CMath_max s.g.opt_precision env.DEF_PRECISION).mul (F64.fin 10) ∧
      (retryStep env qp s).g.init_margin =
        (if s.g.init_margin.lt (F64.fin (80 / 100)) = true
          then (((F64.fin 4).mul s.margin).add (F64.fin 1)).div (F64.fin 5)
          else s.g.init_margin) ∧
      (retryStep env qp s).g.init_iter = s.g.init_iter := by
  unfold retryStep
  simp only [hd, if_true]
  split <;> simp

theorem CMath_max_floor (p : F64) (d : ℚ) :
    ∃ x, CMath_max p (F64.fin d) = F64.fin x ∧ d ≤ x := by
  unfold CMath_max
  split
  · rename_i h
    obtain ⟨x, y, hx, hy, hxy⟩ := F64.ge_eq_true h
    simp only [F64.fin.injEq] at hy
    subst hy
    exact ⟨x, hx, hxy⟩
  · exact ⟨d, rfl, le_rfl⟩

theorem CMath_max_of_le (x d : ℚ) (h : d ≤ x) : CMath_max (F64.fin x) (F64.fin d) = F64.fin x := by
  simp [CMath_max, F64.ge, h]

theorem nanDual_precision (env : Env) (qp : QP) (s : LoopState)
    (hs : ∀ a, ((env.pr_loqo a).dual 0).isnan = true)
    (hd : (F64.fin 0).le env.DEF_PRECISION = true) (k : Nat) :
    CMath_max ((retryStep env qp)^[k] s).g.opt_precision env.DEF_PRECISION =
      (CMath_max s.g.opt_precision env.DEF_PRECISION).mul (F64.fin (10 ^ k)) := by
  obtain ⟨z, d, hz, hdef, hzd⟩ := F64.le_eq_true hd
  simp only [F64.fin.injEq] at hz
  subst hz
  rw [hdef]
  obtain ⟨x, hx, hdx⟩ := CMath_max_floor s.g.opt_precision d
  induction k with
  | zero => simp [hx, F64.mul]
  | succ k ih =>
    rw [Function.iterate_succ_apply', (retryStep_nan env qp _ (hs _)).2.2.2.1, hdef, ih, hx]
    simp only [F64.mul]
    rw [CMath_max_of_le]
    · rw [pow_succ, mul_assoc]
    · have h10 : (1 : ℚ) ≤ 10 ^ k := one_le_pow₀ (by norm_num)
      nlinarith

/-- A call on a `scenarioQP` with the solver double of `nanPrimalEnv`
returns after one attempt; the clipped primal and the post-objective are NaN. -/
theorem nanPrimal_call (up x0 : ℚ) (fuel : Nat) (ec : F64) (mq : Int) (g : Globals)
    (hm : g.init_margin.le (F64.fin (9999999 / 10000000)) = true) :
    ∃ o, optimize_qp (fuel + 1) nanPrimalEnv (scenarioQP up x0) ec mq g = some o ∧
      o.result = Status.OPTIMAL_SOLUTION ∧ o.clipped 0 = F64.nan ∧ o.obj_after = F64.nan ∧
      o.solution 0 = F64.fin x0 ∧
      o = afterLoop (negateCe0 (scenarioQP up x0)) ec mq
        (objective (scenarioQP up x0) (scenarioQP up x0).opt_xinit)
        (retryStep nanPrimalEnv (negateCe0 (scenarioQP up x0)) (loopInit g)) := by
  have hres := (retryStep_converged nanPrimalEnv (negateCe0 (scenarioQP up x0)) (loopInit g)
    rfl).1
  have hobj : (afterLoop (negateCe0 (scenarioQP up x0)) ec mq
      (objective (scenarioQP up x0) (scenarioQP up x0).opt_xinit)
      (retryStep nanPrimalEnv (negateCe0 (scenarioQP up x0)) (loopInit g))).obj_after =
      F64.nan := by
    have hp : (retryStep nanPrimalEnv (negateCe0 (scenarioQP up x0)) (loopInit g)).g.primal 0 =
        F64.nan := by
      rw [(retryStep_converged nanPrimalEnv (negateCe0 (scenarioQP up x0)) (loopInit g) rfl).2.1]
      rfl
    have hn : (negateCe0 (scenarioQP up x0)).opt_n = 1 := rfl
    rw [afterLoop_obj_after, objective_one _ hn, afterLoop_clipped, clip_apply, hn,
      if_pos Nat.zero_lt_one, hp]
    simp [clipVal, F64.le, F64.ge, F64.mul, F64.add]
  refine ⟨_, optimize_qp_first_optimal fuel nanPrimalEnv (scenarioQP up x0) ec mq g hm rfl, ?_, ?_,
    hobj, ?_, rfl⟩
  · rw [afterLoop_result]
    exact hres
  · have hp : (retryStep nanPrimalEnv (negateCe0 (scenarioQP up x0)) (loopInit g)).g.primal 0 =
        F64.nan := by
      rw [(retryStep_converged nanPrimalEnv (negateCe0 (scenarioQP up x0)) (loopInit g) rfl).2.1]
      rfl
    have hn : (negateCe0 (scenarioQP up x0)).opt_n = 1 := rfl
    rw [afterLoop_clipped, clip_apply, hn, if_pos Nat.zero_lt_one, hp]
    simp [clipVal, F64.le, F64.ge]
  · rw [afterLoop_solution, hres, hobj]
    simp only [ne_eq, not_true_eq_false, if_false, F64.isnan, Bool.true_or, if_true]
    rw [resetPrimal_apply]
    rfl

/-! ## The retry loop with 32-bit counters -/

theorem wrap32_of_inRange (x : Int) (h1 : -2147483648 ≤ x) (h2 : x ≤ 2147483647) :
    wrap32 x = x := by
  unfold wrap32
  omega

theorem wrap32_add (a b : Int) : wrap32 (wrap32 a + b) = wrap32 (a + b) := by
  unfold wrap32
  omega

theorem retryStep32_fields (env : Env) (qp : QP) (s : LoopState) :
    (retryStep32 env qp s).margin = (retryStep env qp s).margin ∧
      (retryStep32 env qp s).result = (retryStep env qp s).result ∧
      (retryStep32 env qp s).iter =
        (if softFail env qp s = true then wrap32 (s.iter + 2000) else s.iter) ∧
      (retryStep32 env qp s).g.init_iter =
        (if softFail env qp s = true then wrap32 (s.g.init_iter + 10) else s.g.init_iter) := by
  cases hd : ((env.pr_loqo (loqoArgs env qp s)).dual 0).isnan with
  | true =>
    have h1 : softFail env qp s = false := by simp [softFail, hd]
    simp only [h1, Bool.false_eq_true, if_false]
    unfold retryStep32 retryStep
    simp only [hd, if_true]
    refine ⟨trivial, trivial, trivial, ?_⟩
    split <;> rfl
  | false =>
    by_cases hr : (env.pr_loqo (loqoArgs env qp s)).result = Status.OPTIMAL_SOLUTION
    · have h1 : softFail env qp s = false := by simp [softFail, hd, hr]
      rw [h1]
      simp [retryStep32, retryStep, hd, hr]
    · have h1 : softFail env qp s = true := by simp [softFail, hd, hr]
      rw [h1]
      simp [retryStep32, retryStep, hd, hr]

theorem retryStep32_eq_retryStep (env : Env) (qp : QP) (s : LoopState)
    (h1 : -2147483648 ≤ s.iter) (h2 : s.iter + 2000 ≤ 2147483647)
    (h3 : -2147483648 ≤ s.g.init_iter) (h4 : s.g.init_iter + 10 ≤ 2147483647) :
    retryStep32 env qp s = retryStep env qp s := by
  unfold retryStep32 retryStep
  simp only []
  rw [wrap32_of_inRange _ (by omega) h2, wrap32_of_inRange _ (by omega) h4]

theorem optimize_qp32_eq_some {fuel : Nat} {env : Env} {qp : QP} {epsilon_crit : F64}
    {svm_maxqpsize : Int} {g : Globals} {o : Outcome}
    (h : optimize_qp32 fuel env qp epsilon_crit svm_maxqpsize g = some o) :
    ∃ s, retryLoop32 env (negateCe0 qp) fuel (loopInit g) = some s ∧
      o = afterLoop (negateCe0 qp) epsilon_crit svm_maxqpsize (objective qp qp.opt_xinit) s := by
  unfold optimize_qp32 at h
  simp only [Option.map_eq_some'] at h
  obtain ⟨s, hs, ho⟩ := h
  exact ⟨s, hs, ho.symm⟩

theorem retryLoop32_none (env : Env) (qp : QP) (fuel : Nat) (s : LoopState)
    (h : ∀ k, loopCond ((retryStep32 env qp)^[k] s) = true) :
    retryLoop32 env qp fuel s = none := by
  induction fuel generalizing s with
  | zero =>
    have h0 := h 0
    simp only [Function.iterate_zero, id_eq] at h0
    simp [retryLoop32, h0]
  | succ fuel ih =>
    have h0 := h 0
    simp only [Function.iterate_zero, id_eq] at h0
    simp only [retryLoop32, h0, if_true]
    apply ih
    intro k
    have := h (k + 1)
    rwa [Function.iterate_succ_apply] at this

theorem retryLoop32_exit (env : Env) (qp : QP) (fuel : Nat) (s : LoopState)
    (h : loopCond s = false) : retryLoop32 env qp fuel s = some s := by
  cases fuel <;> simp [retryLoop32, h]

/-- The loop over `retryStep32` ends in `t` within `fuel` passes exactly when
`t` is the state after some `k <= fuel` passes, the condition fails in `t`, and
it held before each of the `k` passes. -/
theorem retryLoop32_eq_some_iff (env : Env) (qp : QP) (fuel : Nat) (s t : LoopState) :
    retryLoop32 env qp fuel s = some t ↔
      ∃ k, k ≤ fuel ∧ (retryStep32 env qp)^[k] s = t ∧ loopCond t = false ∧
        ∀ j, j < k → loopCond ((retryStep32 env qp)^[j] s) = true := by
  induction fuel generalizing s with
  | zero =>
    simp only [retryLoop32]
    constructor
    · intro h
      split at h
      · exact Option.noConfusion h
      · rename_i hc
        simp only [Option.some.injEq] at h
        subst h
        exact ⟨0, le_rfl, rfl, by simpa using hc, fun j hj => absurd hj (Nat.not_lt_zero j)⟩
    · rintro ⟨k, hk, hit, hc, _⟩
      have hk0 : k = 0 := by omega
      subst hk0
      simp only [Function.iterate_zero, id_eq] at hit
      subst hit
      simp [hc]
  | succ fuel ih =>
    simp only [retryLoop32]
    by_cases hc : loopCond s = true
    · rw [if_pos hc, ih]
      constructor
      · rintro ⟨k, hk, hit, hct, hall⟩
        refine ⟨k + 1, by omega, by rwa [Function.iterate_succ_apply], hct, fun j hj => ?_⟩
        cases j with
        | zero => exact hc
        | succ j =>
          rw [Function.iterate_succ_apply]
          exact hall j (by omega)
      · rintro ⟨k, hk, hit, hct, hall⟩
        cases k with
        | zero =>
          simp only [Function.iterate_zero, id_eq] at hit
          subst hit
          rw [hc] at hct
          exact Bool.noConfusion hct
        | succ k =>
          refine ⟨k, by omega, by rwa [Function.iterate_succ_apply] at hit, hct, fun j hj => ?_⟩
          have := hall (j + 1) (by omega)
          rwa [Function.iterate_succ_apply] at this
    · rw [if_neg hc]
      simp only [Bool.not_eq_true] at hc
      constructor
      · intro h
        simp only [Option.some.injEq] at h
        subst h
        exact ⟨0, by omega, rfl, hc, fun j hj => absurd hj (Nat.not_lt_zero j)⟩
      · rintro ⟨k, _, hit, _, hall⟩
        cases k with
        | zero =>
          simp only [Function.iterate_zero, id_eq] at hit
          rw [hit]
        | succ k =>
          have := hall 0 (by omega)
          simp only [Function.iterate_zero, id_eq] at this
          rw [hc] at this
          exact Bool.noConfusion this

theorem softFails32_le (env : Env) (qp : QP) (s : LoopState) (k : Nat) :
    softFails32 env qp s k ≤ k := by
  induction k with
  | zero => simp [softFails32]
  | succ k ih =>
    simp only [softFails32]
    split <;> omega

theorem softFails32_mono (env : Env) (qp : QP) (s : LoopState) (j k : Nat) (h : j ≤ k) :
    softFails32 env qp s j ≤ softFails32 env qp s k := by
  induction k with
  | zero =>
    have : j = 0 := by omega
    subst this
    exact le_rfl
  | succ k ih =>
    rcases Nat.eq_or_lt_of_le h with h1 | h1
    · subst h1
      exact le_rfl
    · have := ih (by omega)
      simp only [softFails32]
      omega

/-- After `k` passes the cap and the persistent budget are their values at loop
entry plus 2000 and 10 per soft failure, reduced to 32 bits. -/
theorem iterate32_wrap (env : Env) (qp : QP) (s : LoopState) (k : Nat)
    (h1 : -2147483648 ≤ s.iter) (h2 : s.iter ≤ 2147483647)
    (h3 : -2147483648 ≤ s.g.init_iter) (h4 : s.g.init_iter ≤ 2147483647) :
    ((retryStep32 env qp)^[k] s).iter = wrap32 (s.iter + 2000 * (softFails32 env qp s k : Int)) ∧
      ((retryStep32 env qp)^[k] s).g.init_iter =
        wrap32 (s.g.init_iter + 10 * (softFails32 env qp s k : Int)) := by
  induction k with
  | zero =>
    simp only [Function.iterate_zero, id_eq, softFails32, Nat.cast_zero, mul_zero, add_zero]
    exact ⟨(wrap32_of_inRange _ h1 h2).symm, (wrap32_of_inRange _ h3 h4).symm⟩
  | succ k ih =>
    obtain ⟨_, _, f3, f4⟩ := retryStep32_fields env qp ((retryStep32 env qp)^[k] s)
    rw [Function.iterate_succ_apply', f3, f4, ih.1, ih.2]
    simp only [softFails32]
    by_cases hf : softFail env qp ((retryStep32 env qp)^[k] s) = true
    · rw [if_pos hf, if_pos hf, if_pos hf, wrap32_add, wrap32_add]
      constructor <;> congr 1 <;> push_cast <;> ring
    · rw [if_neg hf, if_neg hf, if_neg hf]
      simp

/-- While the sums stay within the `int32_t` range they are not reduced. -/
theorem iterate32_inRange (env : Env) (qp : QP) (s : LoopState) (k : Nat)
    (h1 : -2147483648 ≤ s.iter) (h3 : -2147483648 ≤ s.g.init_iter)
    (h2 : s.iter + 2000 * (softFails32 env qp s k : Int) ≤ 2147483647)
    (h4 : s.g.init_iter + 10 * (softFails32 env qp s k : Int) ≤ 2147483647) :
    ((retryStep32 env qp)^[k] s).iter = s.iter + 2000 * (softFails32 env qp s k : Int) ∧
      ((retryStep32 env qp)^[k] s).g.init_iter =
        s.g.init_iter + 10 * (softFails32 env qp s k : Int) := by
  have hn : (0 : Int) ≤ (softFails32 env qp s k : Int) := Int.natCast_nonneg _
  obtain ⟨w1, w2⟩ := iterate32_wrap env qp s k h1 (by omega) h3 (by omega)
  rw [w1, w2, wrap32_of_inRange _ (by omega) h2, wrap32_of_inRange _ (by omega) h4]
  exact ⟨rfl, rfl⟩

theorem stillRunning32_iterate (env : Env) (qp : QP) (s : LoopState)
    (hs : ∀ a, (env.pr_loqo a).result = Status.STILL_RUNNING ∧
      ((env.pr_loqo a).dual 0).isnan = false) (k : Nat) :
    ((retryStep32 env qp)^[k] s).margin = s.margin ∧
      (0 < k → ((retryStep32 env qp)^[k] s).result = Status.STILL_RUNNING) ∧
      softFails32 env qp s k = k := by
  induction k with
  | zero => simp [softFails32]
  | succ k ih =>
    obtain ⟨h1, _, h3⟩ := ih
    have hr : (env.pr_loqo (loqoArgs env qp ((retryStep32 env qp)^[k] s))).result ≠
        Status.OPTIMAL_SOLUTION := by
      rw [(hs _).1]
      decide
    obtain ⟨m1, _, m3, _, _⟩ :=
      retryStep_not_converged env qp ((retryStep32 env qp)^[k] s) (hs _).2 hr
    obtain ⟨f1, f2, _, _⟩ := retryStep32_fields env qp ((retryStep32 env qp)^[k] s)
    have hf : softFail env qp ((retryStep32 env qp)^[k] s) = true := by
      simp [softFail, (hs _).2, (hs _).1]
    rw [Function.iterate_succ_apply']
    refine ⟨by rw [f1, m1, h1], fun _ => by rw [f2, m3, (hs _).1], ?_⟩
    simp only [softFails32, hf, if_true, h3]

theorem stillRunning32_cond (env : Env) (qp : QP) (g : Globals)
    (hs : ∀ a, (env.pr_loqo a).result = Status.STILL_RUNNING ∧
      ((env.pr_loqo a).dual 0).isnan = false)
    (hm : g.init_margin.le (F64.fin (9999999 / 10000000)) = true) (k : Nat) :
    loopCond ((retryStep32 env qp)^[k] (loopInit g)) = true := by
  obtain ⟨h1, h5, _⟩ := stillRunning32_iterate env qp (loopInit g) hs k
  have hres : ((retryStep32 env qp)^[k] (loopInit g)).result = Status.STILL_RUNNING := by
    rcases Nat.eq_zero_or_pos k with hk | hk
    · subst hk
      rfl
    · exact h5 hk
  unfold loopCond
  rw [h1, hres]
  simp only [loopInit, hm, Bool.true_and, decide_eq_true_eq]
  decide

/-! ## C1 -/

/-- C1 fails as stated: with `upper=[10]` and `init_guess=[11]`, a solver that
reports OPTIMAL with a NaN primal makes the call return `[11]`. -/
theorem C1_counterexample :
    ∃ o, optimize_qp 1 nanPrimalEnv (scenarioQP 10 11) (F64.fin (1 / 1000)) 10 freshGlobals =
        some o ∧
      ¬ ((F64.fin 0).le (o.solution 0) = true ∧
        (o.solution 0).le ((scenarioQP 10 11).opt_up 0) = true) := by
  obtain ⟨o, ho, _, _, _, hsol, _⟩ :=
    nanPrimal_call 10 11 0 (F64.fin (1 / 1000)) 10 freshGlobals loopCond_freshGlobals_margin
  refine ⟨o, ho, ?_⟩
  rw [hsol]
  norm_num [scenarioQP, F64.le]

/-- C1, amended: when the initial guess lies in the box, `0 <= init_guess[i] <=
upper[i]` for all `i < n`, every entry of the returned solution satisfies
`0 <= x[i] <= upper[i]`, whatever the solver wrote and returned. -/
theorem C1_solution_within_bounds (fuel : Nat) (env : Env) (qp : QP) (epsilon_crit : F64)
    (svm_maxqpsize : Int) (g : Globals) (o : Outcome)
    (h : optimize_qp fuel env qp epsilon_crit svm_maxqpsize g = some o)
    (hx : ∀ i, i < qp.opt_n → (F64.fin 0).le (qp.opt_xinit i) = true ∧
      (qp.opt_xinit i).le (qp.opt_up i) = true) :
    ∀ i, i < qp.opt_n → (F64.fin 0).le (o.solution i) = true ∧
      (o.solution i).le (qp.opt_up i) = true := by
  obtain ⟨s, _, ho⟩ := optimize_qp_eq_some h
  intro i hi
  have hup : (F64.fin 0).le (qp.opt_up i) = true := by
    obtain ⟨a, b, ha, hb, hab⟩ := F64.le_eq_true (hx i hi).1
    obtain ⟨c, d, hc, hd, hcd⟩ := F64.le_eq_true (hx i hi).2
    rw [hb] at hc
    simp only [F64.fin.injEq] at ha hc
    subst ha hc
    rw [hd]
    simp only [F64.le, decide_eq_true_eq]
    linarith
  have hn : (negateCe0 qp).opt_n = qp.opt_n := rfl
  have hxi : (negateCe0 qp).opt_xinit = qp.opt_xinit := rfl
  have hupe : (negateCe0 qp).opt_up = qp.opt_up := rfl
  subst ho
  simp only [afterLoop, hxi]
  generalize (if (negateCe0 qp).opt_m ≠ 0 then s.g.dual 0 else F64.fin 0) = mb
  by_cases hres : s.result ≠ Status.OPTIMAL_SOLUTION
  · rw [if_pos hres]
    exact hx i hi
  · rw [if_neg hres]
    by_cases hrec : ((objective (negateCe0 qp) (clip (negateCe0 qp)
        (epsilonLoqo (negateCe0 qp) mb epsilon_crit s.g.primal) s.g.primal)).isnan ||
        mb.isnan) = true
    · rw [if_pos hrec, resetPrimal_apply, hn, if_pos hi, hxi]
      exact hx i hi
    · rw [if_neg hrec]
      simp only [Bool.or_eq_true, not_or, Bool.not_eq_true] at hrec
      obtain ⟨q, hq⟩ := objective_fin _ _ hrec.1 i hi
      rw [clip_apply, hn, if_pos hi] at hq ⊢
      obtain ⟨e, he, hpos⟩ := epsilonLoqo_pos (negateCe0 qp) mb epsilon_crit s.g.primal
      have he0 : (0 : ℚ) < e := lt_of_lt_of_le (by norm_num) hpos
      rw [he] at hq ⊢
      cases hp : s.g.primal i with
      | nan =>
        rw [hp] at hq
        simp [clipVal, F64.le, F64.ge] at hq
      | fin v =>
        have := clipVal_bounds (negateCe0 qp) e he0 i v hup
        rw [hupe] at this
        exact this

/-- C1, amended, at the scenario problem with a solver that reports OPTIMAL
and `primal=[0.5]`. -/
theorem C1_solution_within_bounds_witness :
    ∃ o, optimize_qp 1 halfEnv (scenarioQP 10 0) (F64.fin (1 / 1000)) 10 freshGlobals = some o ∧
      ∀ i, i < (scenarioQP 10 0).opt_n → (F64.fin 0).le (o.solution i) = true ∧
        (o.solution i).le ((scenarioQP 10 0).opt_up i) = true :=
  have h := optimize_qp_first_optimal 0 halfEnv (scenarioQP 10 0) (F64.fin (1 / 1000)) 10
    freshGlobals loopCond_freshGlobals_margin rfl
  ⟨_, h, C1_solution_within_bounds 1 _ _ _ _ _ _ h (by intro i _; simp [scenarioQP, F64.le])⟩

/-! ## C2 -/

/-- C2 fails as stated: from the initial state, with a solver that returns
STILL_RUNNING and a non-NaN dual on every attempt, the retry loop is still
running after any number of passes, so the call never returns; this is so with
the counters as unbounded integers and with the counters as 32-bit integers. -/
theorem C2_counterexample :
    (¬ ∃ fuel o, optimize_qp fuel stillRunningEnv (scenarioQP 10 0) (F64.fin (1 / 1000)) 10
        freshGlobals = some o) ∧
    ¬ ∃ fuel o, optimize_qp32 fuel stillRunningEnv (scenarioQP 10 0) (F64.fin (1 / 1000)) 10
        freshGlobals = some o := by
  constructor
  · rintro ⟨fuel, o, h⟩
    obtain ⟨s, hs, _⟩ := optimize_qp_eq_some h
    rw [retryLoop_none stillRunningEnv _ fuel _ (stillRunning_cond _ _ freshGlobals
      (fun _ => ⟨rfl, rfl⟩) loopCond_freshGlobals_margin)] at hs
    exact Option.noConfusion hs
  · rintro ⟨fuel, o, h⟩
    obtain ⟨s, hs, _⟩ := optimize_qp32_eq_some h
    rw [retryLoop32_none stillRunningEnv _ fuel _ (stillRunning32_cond _ _ freshGlobals
      (fun _ => ⟨rfl, rfl⟩) loopCond_freshGlobals_margin)] at hs
    exact Option.noConfusion hs

/-- C2, amended, with `iter` and `init_iter` as the 32-bit integers of the
source: if the solver returns STILL_RUNNING with a non-NaN `dual[0]` on every
attempt, then `margin` is still `init_margin` after any number of passes; as
long as `init_iter + 2000*(k+1)` is at most 2147483647 the cap after `k` passes
is `init_iter + 2000*k`, the persistent budget is `init_iter + 10*k`, and both
are strictly larger after the next pass; from the initial budget 500 the cap is
2147482500 after 1073741 passes and the next addition leaves the `int32_t`
range (reduced to 32 bits it is -2147482796); so when `init_margin <=
0.9999999` at call start the loop never ends and the call does not return, and
otherwise the solver is not invoked and the call returns `init_guess`. -/
theorem C2_still_running_never_returns (env : Env) (qp : QP) (epsilon_crit : F64)
    (svm_maxqpsize : Int) (g : Globals)
    (hs : ∀ a, (env.pr_loqo a).result = Status.STILL_RUNNING ∧
      ((env.pr_loqo a).dual 0).isnan = false) :
    (∀ k : Nat, ((retryStep32 env (negateCe0 qp))^[k] (loopInit g)).margin = g.init_margin) ∧
    (∀ k : Nat, -2147483648 ≤ g.init_iter → g.init_iter + 2000 * ((k : Int) + 1) ≤ 2147483647 →
      ((retryStep32 env (negateCe0 qp))^[k] (loopInit g)).iter = g.init_iter + 2000 * k ∧
      ((retryStep32 env (negateCe0 qp))^[k] (loopInit g)).g.init_iter = g.init_iter + 10 * k ∧
      ((retryStep32 env (negateCe0 qp))^[k] (loopInit g)).iter <
        ((retryStep32 env (negateCe0 qp))^[k + 1] (loopInit g)).iter ∧
      ((retryStep32 env (negateCe0 qp))^[k] (loopInit g)).g.init_iter <
        ((retryStep32 env (negateCe0 qp))^[k + 1] (loopInit g)).g.init_iter) ∧
    (g.init_iter = 500 →
      ((retryStep32 env (negateCe0 qp))^[1073741] (loopInit g)).iter = 2147482500 ∧
      ((retryStep32 env (negateCe0 qp))^[1073742] (loopInit g)).iter = -2147482796) ∧
    (g.init_margin.le (F64.fin (9999999 / 10000000)) = true →
      ∀ fuel, optimize_qp32 fuel env qp epsilon_crit svm_maxqpsize g = none) ∧
    (g.init_margin.le (F64.fin (9999999 / 10000000)) = false →
      ∀ fuel, ∃ o, optimize_qp32 fuel env qp epsilon_crit svm_maxqpsize g = some o ∧
        o.solution = qp.opt_xinit ∧ o.g.init_iter = g.init_iter) := by
  have hsf : ∀ k, softFails32 env (negateCe0 qp) (loopInit g) k = k := fun k =>
    (stillRunning32_iterate env (negateCe0 qp) (loopInit g) hs k).2.2
  refine ⟨fun k => (stillRunning32_iterate env (negateCe0 qp) (loopInit g) hs k).1,
    fun k hlo hhi => ?_, fun h500 => ?_, fun hm fuel => ?_, fun hm fuel => ?_⟩
  · have e0 : (loopInit g).iter = g.init_iter := rfl
    have e1 : (loopInit g).g.init_iter = g.init_iter := rfl
    obtain ⟨a1, a2⟩ := iterate32_inRange env (negateCe0 qp) (loopInit g) k
      (by rw [e0]; exact hlo) (by rw [e1]; exact hlo)
      (by rw [e0, hsf]; omega) (by rw [e1, hsf]; omega)
    obtain ⟨b1, b2⟩ := iterate32_inRange env (negateCe0 qp) (loopInit g) (k + 1)
      (by rw [e0]; exact hlo) (by rw [e1]; exact hlo)
      (by rw [e0, hsf]; push_cast; omega) (by rw [e1, hsf]; push_cast; omega)
    rw [hsf, e0] at a1 b1
    rw [hsf, e1] at a2 b2
    refine ⟨a1, a2, ?_, ?_⟩
    · rw [a1, b1]
      push_cast
      omega
    · rw [a2, b2]
      push_cast
      omega
  · have e0 : (loopInit g).iter = 500 := h500
    have e1 : (loopInit g).g.init_iter = 500 := h500
    obtain ⟨a1, _⟩ := iterate32_wrap env (negateCe0 qp) (loopInit g) 1073741
      (by rw [e0]; decide) (by rw [e0]; decide) (by rw [e1]; decide) (by rw [e1]; decide)
    obtain ⟨b1, _⟩ := iterate32_wrap env (negateCe0 qp) (loopInit g) 1073742
      (by rw [e0]; decide) (by rw [e0]; decide) (by rw [e1]; decide) (by rw [e1]; decide)
    rw [hsf, e0] at a1 b1
    rw [a1, b1]
    constructor <;> decide
  · unfold optimize_qp32
    simp only [retryLoop32_none _ _ fuel _ (stillRunning32_cond env (negateCe0 qp) g hs hm),
      Option.map_none']
  · have hc : loopCond (loopInit g) = false := by
      simp [loopCond, loopInit, hm]
    unfold optimize_qp32
    simp only [retryLoop32_exit _ _ fuel _ hc, Option.map_some']
    exact ⟨_, rfl, by simp [afterLoop, loopInit, negateCe0], rfl⟩

/-- C2, amended, at the scenario problem from the initial state: the cap
handed to the fourth attempt, and no return within 1000 passes. -/
theorem C2_still_running_never_returns_witness :
    ((retryStep32 stillRunningEnv (negateCe0 (scenarioQP 10 0)))^[3] (loopInit freshGlobals)).iter =
      freshGlobals.init_iter + 2000 * (3 : Nat) ∧
    optimize_qp32 1000 stillRunningEnv (scenarioQP 10 0) (F64.fin (1 / 1000)) 10 freshGlobals =
      none :=
  have c := C2_still_running_never_returns stillRunningEnv (scenarioQP 10 0) (F64.fin (1 / 1000)) 10
    freshGlobals (fun _ => ⟨rfl, rfl⟩)
  ⟨(c.2.1 3 (by decide) (by decide)).1, c.2.2.2.1 loopCond_freshGlobals_margin 1000⟩

/-! ## C3 -/

/-- C3 fails as stated: with the violation counter at 500, a first-attempt
OPTIMAL answer without any NaN that does not improve the objective makes the
call multiply the tolerance by 10. -/
theorem C3_counterexample :
    ∃ o, optimize_qp 1 stallEnv (scenarioQP 10 0) (F64.fin (1 / 1000)) 10 stalledGlobals = some o ∧
      (firstAttempt stallEnv (scenarioQP 10 0) stalledGlobals).result = Status.OPTIMAL_SOLUTION ∧
      o.obj_after.isnan = false ∧ o.raw_b.isnan = false ∧
      o.epsilon_crit = F64.fin (1 / 100) ∧ o.epsilon_crit ≠ F64.fin (1 / 1000) := by
  obtain ⟨o, ho, h1, h2, h3, _, h5⟩ :=
    stall_call 0 (F64.fin (1 / 1000)) 10 stalledGlobals loopCond_freshGlobals_margin
  have hec : o.epsilon_crit = F64.fin (1 / 100) := by
    have hge : o.obj_after.ge (objective (scenarioQP 10 0) (scenarioQP 10 0).opt_xinit) = true := by
      have hb := h2
      rw [h5, afterLoop_obj_before] at hb
      rw [hb, h1]
      simp [F64.ge]
    have hv := (retryStep_converged stallEnv (negateCe0 (scenarioQP 10 0))
      (loopInit stalledGlobals) rfl).2.2.2
    rw [h5] at hge ⊢
    rw [afterLoop_epsilon_crit, hge, hv]
    norm_num [loopInit, stalledGlobals, F64.mul]
  refine ⟨o, ho, rfl, by rw [h1]; rfl, by rw [h3]; rfl, hec, ?_⟩
  rw [hec]
  norm_num

/-- C3, amended: if the first attempt returns OPTIMAL with a non-NaN `dual[0]`,
the call returns after that attempt; `svm_maxqpsize` is unchanged when the
post-objective is not NaN; `*epsilon_crit` is unchanged when the violation
counter was below 500 before the call, or was at most 500 and the
post-objective is not >= the pre-objective; and `*epsilon_crit` is multiplied
by 10 when the counter was at least 500 and the post-objective is >= the
pre-objective. -/
theorem C3_optimal_first_attempt (fuel : Nat) (env : Env) (qp : QP) (epsilon_crit : F64)
    (svm_maxqpsize : Int) (g : Globals)
    (hm : g.init_margin.le (F64.fin (9999999 / 10000000)) = true)
    (hopt : (firstAttempt env qp g).result = Status.OPTIMAL_SOLUTION)
    (hdual : ((firstAttempt env qp g).dual 0).isnan = false) :
    ∃ o, optimize_qp (fuel + 1) env qp epsilon_crit svm_maxqpsize g = some o ∧
      (o.obj_after.isnan = false → o.svm_maxqpsize = svm_maxqpsize) ∧
      (g.precision_violations < 500 → o.epsilon_crit = epsilon_crit) ∧
      (g.precision_violations ≤ 500 → o.obj_after.ge o.obj_before = false →
        o.epsilon_crit = epsilon_crit) ∧
      (500 ≤ g.precision_violations → o.obj_after.ge o.obj_before = true →
        o.epsilon_crit = epsilon_crit.mul (F64.fin 10)) := by
  refine ⟨_, optimize_qp_first_optimal fuel env qp epsilon_crit svm_maxqpsize g hm hopt, ?_, ?_, ?_, ?_⟩
  · intro hobj
    obtain ⟨_, _, hd, _⟩ := retryStep_converged env (negateCe0 qp) (loopInit g) hopt
    have hb : (afterLoop (negateCe0 qp) epsilon_crit svm_maxqpsize (objective qp qp.opt_xinit)
        (retryStep env (negateCe0 qp) (loopInit g))).raw_b.isnan = false := by
      rw [afterLoop_raw_b]
      split
      · rw [hd]
        exact hdual
      · rfl
    rw [afterLoop_svm_maxqpsize, hobj, hb]
    simp
  · intro hlt
    obtain ⟨_, _, _, hv⟩ := retryStep_converged env (negateCe0 qp) (loopInit g) hopt
    have hv2 : (retryStep env (negateCe0 qp) (loopInit g)).g.precision_violations =
        g.precision_violations := hv
    rw [afterLoop_epsilon_crit, hv2]
    split
    · rw [if_neg (by omega)]
    · rw [if_neg (by omega)]
  · intro hle hge
    obtain ⟨_, _, _, hv⟩ := retryStep_converged env (negateCe0 qp) (loopInit g) hopt
    have hv2 : (retryStep env (negateCe0 qp) (loopInit g)).g.precision_violations =
        g.precision_violations := hv
    rw [afterLoop_obj_before] at hge
    rw [afterLoop_epsilon_crit, hv2, hge]
    simp only [Bool.false_eq_true, if_false]
    rw [if_neg (by omega)]
  · intro hle hge
    obtain ⟨_, _, _, hv⟩ := retryStep_converged env (negateCe0 qp) (loopInit g) hopt
    have hv2 : (retryStep env (negateCe0 qp) (loopInit g)).g.precision_violations =
        g.precision_violations := hv
    rw [afterLoop_obj_before] at hge
    rw [afterLoop_epsilon_crit, hv2, hge]
    simp only [if_true]
    rw [if_pos (by omega)]

/-- C3, amended, at the scenario problem from the initial state with the
solver answer `primal=[0.5]`, `dual=[0]`. -/
theorem C3_optimal_first_attempt_witness :
    ∃ o, optimize_qp 1 halfEnv (scenarioQP 10 0) (F64.fin (1 / 1000)) 10 freshGlobals = some o ∧
      (o.obj_after.isnan = false → o.svm_maxqpsize = 10) ∧
      (freshGlobals.precision_violations < 500 → o.epsilon_crit = F64.fin (1 / 1000)) ∧
      (freshGlobals.precision_violations ≤ 500 → o.obj_after.ge o.obj_before = false →
        o.epsilon_crit = F64.fin (1 / 1000)) ∧
      (500 ≤ freshGlobals.precision_violations → o.obj_after.ge o.obj_before = true →
        o.epsilon_crit = (F64.fin (1 / 1000)).mul (F64.fin 10)) :=
  C3_optimal_first_attempt 0 halfEnv (scenarioQP 10 0) (F64.fin (1 / 1000)) 10
    freshGlobals loopCond_freshGlobals_margin rfl rfl

/-! ## C4 -/

/-- C4: from a state with violation counter 0, in a run of 501 calls that all
return with post-objective >= pre-objective, the tolerance after each of the
first 500 calls is the initial one and the counter after call `k` is `k`; the
501st call multiplies the tolerance by 10 and leaves the counter at 0. -/
theorem C4_relaxation_on_call_501 (calls : Nat → Call) (w0 : World)
    (h0 : w0.g.precision_violations = 0)
    (h : ∀ k, k < 501 → ∃ w o, runCalls calls k w0 = some w ∧ callOnce (calls k) w = some o ∧
      o.obj_after.ge o.obj_before = true) :
    (∀ k : Nat, k ≤ 500 → ∃ w, runCalls calls k w0 = some w ∧
      w.epsilon_crit = w0.epsilon_crit ∧ w.g.precision_violations = k) ∧
    ∃ w, runCalls calls 501 w0 = some w ∧
      w.epsilon_crit = w0.epsilon_crit.mul (F64.fin 10) ∧ w.g.precision_violations = 0 := by
  have first : ∀ k : Nat, k ≤ 500 → ∃ w, runCalls calls k w0 = some w ∧
      w.epsilon_crit = w0.epsilon_crit ∧ w.g.precision_violations = k := by
    intro k
    induction k with
    | zero => exact fun _ => ⟨w0, rfl, rfl, by simp [h0]⟩
    | succ k ih =>
      intro hk
      obtain ⟨w, hw, hec, hpv⟩ := ih (by omega)
      obtain ⟨w2, o, hw2, ho, hge⟩ := h k (by omega)
      rw [hw] at hw2
      simp only [Option.some.injEq] at hw2
      subst hw2
      obtain ⟨hv, he⟩ := callOnce_stalled (calls k) w o ho hge
      refine ⟨o.world, runCalls_succ calls k w0 w o hw ho, ?_, ?_⟩
      · show o.epsilon_crit = w0.epsilon_crit
        rw [he, hpv, if_neg (by omega), hec]
      · show o.g.precision_violations = ((k + 1 : Nat) : Int)
        rw [hv, hpv, if_neg (by omega)]
        push_cast
        rfl
  refine ⟨first, ?_⟩
  obtain ⟨w, hw, hec, hpv⟩ := first 500 le_rfl
  obtain ⟨w2, o, hw2, ho, hge⟩ := h 500 (by omega)
  rw [hw] at hw2
  simp only [Option.some.injEq] at hw2
  subst hw2
  obtain ⟨hv, he⟩ := callOnce_stalled (calls 500) w o ho hge
  refine ⟨o.world, runCalls_succ calls 500 w0 w o hw ho, ?_, ?_⟩
  · show o.epsilon_crit = w0.epsilon_crit.mul (F64.fin 10)
    rw [he, hpv, if_pos (by norm_num), hec]
  · show o.g.precision_violations = 0
    rw [hv, hpv, if_pos (by norm_num)]

/-- C4 on a run of 501 calls of the scenario problem in which the solver hands
back the initial guess every time. -/
theorem C4_relaxation_on_call_501_witness :
    (∀ k : Nat, k ≤ 500 → ∃ w, runCalls stallCalls k freshWorld = some w ∧
      w.epsilon_crit = F64.fin (1 / 1000) ∧ w.g.precision_violations = k) ∧
    ∃ w, runCalls stallCalls 501 freshWorld = some w ∧
      w.epsilon_crit = (F64.fin (1 / 1000)).mul (F64.fin 10) ∧ w.g.precision_violations = 0 :=
  C4_relaxation_on_call_501 stallCalls freshWorld rfl (fun k _ => stallCalls_stalled k)

/-! ## C5 -/

/-- C5: if the solver writes a NaN `dual[0]` on every attempt (and never returns
OPTIMAL) and DEF_PRECISION is not negative, then in the state in which pass
`k+1` of the retry loop starts the precision handed to the solver is
`max(opt_precision at call start, DEF_PRECISION) * 10^k`, and that pass changes
`init_margin` only if it is `< 0.80` before the pass, to `(4*margin+1)/5` for
the margin of that pass. -/
theorem C5_nan_dual_schedule (env : Env) (qp : QP) (g : Globals)
    (hs : ∀ a, ((env.pr_loqo a).dual 0).isnan = true ∧
      (env.pr_loqo a).result ≠ Status.OPTIMAL_SOLUTION)
    (hd : (F64.fin 0).le env.DEF_PRECISION = true) (k : Nat) :
    CMath_max ((retryStep env (negateCe0 qp))^[k] (loopInit g)).g.opt_precision
        env.DEF_PRECISION =
      (CMath_max g.opt_precision env.DEF_PRECISION).mul (F64.fin (10 ^ k)) ∧
    (loqoArgs env (negateCe0 qp) ((retryStep env (negateCe0 qp))^[k] (loopInit g))).sigfig_max =
      (env.log10 ((CMath_max g.opt_precision env.DEF_PRECISION).mul (F64.fin (10 ^ k)))).neg ∧
    (((retryStep env (negateCe0 qp))^[k] (loopInit g)).g.init_margin.lt (F64.fin (80 / 100)) = true →
      ((retryStep env (negateCe0 qp))^[k + 1] (loopInit g)).g.init_margin =
        (((F64.fin 4).mul ((retryStep env (negateCe0 qp))^[k] (loopInit g)).margin).add
          (F64.fin 1)).div (F64.fin 5)) ∧
    (((retryStep env (negateCe0 qp))^[k] (loopInit g)).g.init_margin.lt (F64.fin (80 / 100)) = false →
      ((retryStep env (negateCe0 qp))^[k + 1] (loopInit g)).g.init_margin =
        ((retryStep env (negateCe0 qp))^[k] (loopInit g)).g.init_margin) := by
  have hp := nanDual_precision env (negateCe0 qp) (loopInit g) (fun a => (hs a).1) hd k
  have hp2 : CMath_max ((retryStep env (negateCe0 qp))^[k] (loopInit g)).g.opt_precision
      env.DEF_PRECISION = (CMath_max g.opt_precision env.DEF_PRECISION).mul (F64.fin (10 ^ k)) := hp
  refine ⟨hp2, ?_, ?_, ?_⟩
  · show (env.log10 (CMath_max _ _)).neg = _
    rw [hp2]
  · intro hlt
    rw [Function.iterate_succ_apply', (retryStep_nan env _ _ (hs _).1).2.2.2.2.1, if_pos hlt]
  · intro hlt
    rw [Function.iterate_succ_apply', (retryStep_nan env _ _ (hs _).1).2.2.2.2.1, hlt]
    simp

/-- C5 at the third attempt of a call from the initial state with a solver
double that always writes NaN. -/
theorem C5_nan_dual_schedule_witness :
    CMath_max ((retryStep nanEnv (negateCe0 (scenarioQP 10 0)))^[2]
        (loopInit freshGlobals)).g.opt_precision nanEnv.DEF_PRECISION =
      (CMath_max freshGlobals.opt_precision nanEnv.DEF_PRECISION).mul (F64.fin (10 ^ 2)) ∧
    (loqoArgs nanEnv (negateCe0 (scenarioQP 10 0))
        ((retryStep nanEnv (negateCe0 (scenarioQP 10 0)))^[2] (loopInit freshGlobals))).sigfig_max =
      (nanEnv.log10 ((CMath_max freshGlobals.opt_precision nanEnv.DEF_PRECISION).mul
        (F64.fin (10 ^ 2)))).neg ∧
    (((retryStep nanEnv (negateCe0 (scenarioQP 10 0)))^[2]
        (loopInit freshGlobals)).g.init_margin.lt (F64.fin (80 / 100)) = true →
      ((retryStep nanEnv (negateCe0 (scenarioQP 10 0)))^[2 + 1]
          (loopInit freshGlobals)).g.init_margin =
        (((F64.fin 4).mul ((retryStep nanEnv (negateCe0 (scenarioQP 10 0)))^[2]
          (loopInit freshGlobals)).margin).add (F64.fin 1)).div (F64.fin 5)) ∧
    (((retryStep nanEnv (negateCe0 (scenarioQP 10 0)))^[2]
        (loopInit freshGlobals)).g.init_margin.lt (F64.fin (80 / 100)) = false →
      ((retryStep nanEnv (negateCe0 (scenarioQP 10 0)))^[2 + 1]
          (loopInit freshGlobals)).g.init_margin =
        ((retryStep nanEnv (negateCe0 (scenarioQP 10 0)))^[2]
          (loopInit freshGlobals)).g.init_margin) :=
  C5_nan_dual_schedule nanEnv (scenarioQP 10 0) freshGlobals
    (fun _ => ⟨rfl, by simp [nanEnv, testEnv, constSolver]⟩)
    (by norm_num [nanEnv, testEnv, F64.le]) 2

/-! ## C6 -/

/-- C6: on the problem `n=1, m=0, linear_term=[-1], hessian=[2], upper=[10],
init_guess=[0]` (`lower` is only handed to the solver), with any tolerance
`t > 0`, from the initial state, and with a solver that returns OPTIMAL with
`primal=[0.5]` and `dual=[0]`, the call returns after one attempt with
solution `[0.5]` and threshold 0, and leaves the tolerance and the working-set
size unchanged. -/
theorem C6_scenario (fuel : Nat) (env : Env) (qp : QP) (t : ℚ) (svm_maxqpsize : Int)
    (primal dual : Buf) (ht : 0 < t) (hn : qp.opt_n = 1) (hm : qp.opt_m = 0)
    (hg0 : qp.opt_g0 0 = F64.fin (-1)) (hg : qp.opt_g 0 = F64.fin 2)
    (hup : qp.opt_up 0 = F64.fin 10) (hx : qp.opt_xinit 0 = F64.fin 0)
    (hs : ∀ a, (env.pr_loqo a).result = Status.OPTIMAL_SOLUTION ∧
      (env.pr_loqo a).primal 0 = F64.fin (1 / 2) ∧ (env.pr_loqo a).dual 0 = F64.fin 0) :
    ∃ o, optimize_qp (fuel + 1) env qp (F64.fin t) svm_maxqpsize
        (Globals.initial env primal dual) = some o ∧
      o.solution 0 = F64.fin (1 / 2) ∧ o.threshold = F64.fin 0 ∧
      o.epsilon_crit = F64.fin t ∧ o.svm_maxqpsize = svm_maxqpsize := by
  have hmargin : (Globals.initial env primal dual).init_margin.le
      (F64.fin (9999999 / 10000000)) = true := by
    norm_num [Globals.initial, F64.le]
  have hopt : (firstAttempt env qp (Globals.initial env primal dual)).result =
      Status.OPTIMAL_SOLUTION := (hs _).1
  refine ⟨_, optimize_qp_first_optimal fuel env qp (F64.fin t) svm_maxqpsize _ hmargin hopt, ?_⟩
  obtain ⟨hres, hprimal, _, hviol⟩ := retryStep_converged env (negateCe0 qp)
    (loopInit (Globals.initial env primal dual)) hopt
  generalize retryStep env (negateCe0 qp) (loopInit (Globals.initial env primal dual)) = s
    at hres hprimal hviol
  have hn1 : (negateCe0 qp).opt_n = 1 := hn
  have hp0 : s.g.primal 0 = F64.fin (1 / 2) := by
    rw [hprimal]
    exact (hs _).2.1
  have hb : (afterLoop (negateCe0 qp) (F64.fin t) svm_maxqpsize (objective qp qp.opt_xinit)
      s).raw_b = F64.fin 0 := by
    rw [afterLoop_raw_b]
    simp [negateCe0, hm]
  have heps : (afterLoop (negateCe0 qp) (F64.fin t) svm_maxqpsize (objective qp qp.opt_xinit)
      s).epsilon_loqo = F64.fin (1 / 10 ^ 10) := by
    rw [afterLoop_epsilon_loqo, hb, epsilonLoqo_one _ hn1]
    simp only [epsStep, kktDist_one _ hn1, hp0]
    simp only [negateCe0, hg0, hg, hup]
    cases qp.opt_ce 0 with
    | nan => norm_num [F64.neg, F64.mul, F64.add, F64.sub, F64.lt, F64.gt]
    | fin c =>
      norm_num [F64.neg, F64.mul, F64.add, F64.sub, F64.lt, F64.gt]
      rw [if_neg (by linarith), if_neg (by linarith)]
  have hclip : (afterLoop (negateCe0 qp) (F64.fin t) svm_maxqpsize (objective qp qp.opt_xinit)
      s).clipped 0 = F64.fin (1 / 2) := by
    rw [afterLoop_clipped, clip_apply, hn1, if_pos Nat.zero_lt_one, heps, hp0]
    simp only [clipVal, negateCe0, hup]
    norm_num [F64.add, F64.sub, F64.le, F64.ge]
  have hobj : (afterLoop (negateCe0 qp) (F64.fin t) svm_maxqpsize (objective qp qp.opt_xinit)
      s).obj_after = F64.fin (-1 / 4) := by
    rw [afterLoop_obj_after, objective_one _ hn1, hclip]
    simp only [negateCe0, hg0, hg]
    norm_num [F64.add, F64.mul]
  have hbefore : objective qp qp.opt_xinit = F64.fin 0 := by
    rw [objective_one _ hn, hx, hg0, hg]
    norm_num [F64.add, F64.mul]
  refine ⟨?_, ?_, ?_, ?_⟩
  · rw [afterLoop_solution, hres, hobj, hb]
    simp only [ne_eq, not_true_eq_false, if_false, F64.isnan, Bool.or_self, Bool.false_eq_true]
    exact hclip
  · rw [afterLoop_threshold, hobj, hb]
    simp [F64.isnan]
  · rw [afterLoop_epsilon_crit, hobj, hbefore, hviol]
    norm_num [F64.ge, loopInit, Globals.initial]
  · rw [afterLoop_svm_maxqpsize, hobj, hb]
    simp [F64.isnan]

/-- C6 with tolerance 0.001, working-set size 10 and zeroed scratch buffers. -/
theorem C6_scenario_witness :
    ∃ o, optimize_qp 1 halfEnv (scenarioQP 10 0) (F64.fin (1 / 1000)) 10
        (Globals.initial halfEnv (fun _ => F64.fin 0) (fun _ => F64.fin 0)) = some o ∧
      o.solution 0 = F64.fin (1 / 2) ∧ o.threshold = F64.fin 0 ∧
      o.epsilon_crit = F64.fin (1 / 1000) ∧ o.svm_maxqpsize = 10 :=
  C6_scenario 0 halfEnv (scenarioQP 10 0) (1 / 1000) 10 (fun _ => F64.fin 0) (fun _ => F64.fin 0)
    (by norm_num) rfl rfl rfl rfl rfl rfl (fun _ => ⟨rfl, rfl, rfl⟩)

/-! ## C7 -/

/-- C7: the post-objective is the objective of the clipped primal; if it or the
extracted threshold is NaN, the returned solution equals `init_guess` at every
`i < n`, the returned threshold is 0 and `svm_maxqpsize` is decremented by one
if it was > 2 and unchanged otherwise; if neither is NaN, `svm_maxqpsize` is
unchanged. -/
theorem C7_nan_recovery (fuel : Nat) (env : Env) (qp : QP) (epsilon_crit : F64)
    (svm_maxqpsize : Int) (g : Globals) (o : Outcome)
    (h : optimize_qp fuel env qp epsilon_crit svm_maxqpsize g = some o) :
    o.obj_after = objective (negateCe0 qp) o.clipped ∧
    ((o.obj_after.isnan = true ∨ o.raw_b.isnan = true) →
      (∀ i, i < qp.opt_n → o.solution i = qp.opt_xinit i) ∧ o.threshold = F64.fin 0 ∧
      (svm_maxqpsize > 2 → o.svm_maxqpsize = svm_maxqpsize - 1) ∧
      (svm_maxqpsize ≤ 2 → o.svm_maxqpsize = svm_maxqpsize)) ∧
    (o.obj_after.isnan = false → o.raw_b.isnan = false → o.svm_maxqpsize = svm_maxqpsize) := by
  obtain ⟨s, _, ho⟩ := optimize_qp_eq_some h
  subst ho
  refine ⟨rfl, ?_, ?_⟩
  · intro hnan
    have hrec : ((afterLoop (negateCe0 qp) epsilon_crit svm_maxqpsize (objective qp qp.opt_xinit)
        s).obj_after.isnan || (afterLoop (negateCe0 qp) epsilon_crit svm_maxqpsize
        (objective qp qp.opt_xinit) s).raw_b.isnan) = true := by
      rcases hnan with hnan | hnan <;> simp [hnan]
    refine ⟨fun i hi => ?_, ?_, fun hgt => ?_, fun hle => ?_⟩
    · rw [afterLoop_solution, if_pos hrec]
      split
      · rfl
      · rw [resetPrimal_apply]
        exact if_pos hi
    · rw [afterLoop_threshold, if_pos hrec]
    · rw [afterLoop_svm_maxqpsize, if_pos hrec, if_pos hgt]
    · rw [afterLoop_svm_maxqpsize, if_pos hrec, if_neg (by omega)]
  · intro h1 h2
    rw [afterLoop_svm_maxqpsize, h1, h2]
    simp

/-- C7 on a call whose solver reports OPTIMAL with a NaN primal. -/
theorem C7_nan_recovery_witness :
    ∃ o, optimize_qp 1 nanPrimalEnv (scenarioQP 10 0) (F64.fin (1 / 1000)) 10 freshGlobals =
        some o ∧
      o.obj_after.isnan = true ∧
      (∀ i, i < (scenarioQP 10 0).opt_n → o.solution i = (scenarioQP 10 0).opt_xinit i) ∧
      o.threshold = F64.fin 0 ∧ o.svm_maxqpsize = 10 - 1 := by
  obtain ⟨o, ho, _, _, hobj, _, _⟩ :=
    nanPrimal_call 10 0 0 (F64.fin (1 / 1000)) 10 freshGlobals loopCond_freshGlobals_margin
  have hnan : o.obj_after.isnan = true := by
    rw [hobj]
    rfl
  have hc := (C7_nan_recovery 1 nanPrimalEnv (scenarioQP 10 0) (F64.fin (1 / 1000)) 10
    freshGlobals o ho).2.1 (Or.inl hnan)
  exact ⟨o, ho, hnan, hc.1, hc.2.1, hc.2.2.1 (by norm_num)⟩

/-! ## C8 -/

/-- C8 fails as stated: when the solver reports OPTIMAL with a NaN primal, the
final status is OPTIMAL but the returned solution is `init_guess = [0]`, not
the clipped primal `[NaN]`. -/
theorem C8_counterexample :
    ∃ o, optimize_qp 1 nanPrimalEnv (scenarioQP 10 0) (F64.fin (1 / 1000)) 10 freshGlobals =
        some o ∧
      o.result = Status.OPTIMAL_SOLUTION ∧ o.solution 0 = F64.fin 0 ∧ o.clipped 0 = F64.nan ∧
      o.solution ≠ o.clipped := by
  obtain ⟨o, ho, hres, hclip, _, hsol, _⟩ :=
    nanPrimal_call 10 0 0 (F64.fin (1 / 1000)) 10 freshGlobals loopCond_freshGlobals_margin
  refine ⟨o, ho, hres, hsol, hclip, fun hne => ?_⟩
  have h0 := congrFun hne 0
  rw [hsol, hclip] at h0
  exact F64.noConfusion h0

/-- C8, amended: after the retry loop has ended in state `s`, the clipped primal
is the solver's last primal clipped with the relaxed epsilon; if the final
status is not OPTIMAL the returned solution is `init_guess`; if it is OPTIMAL
and neither the post-objective nor the extracted threshold is NaN the returned
solution is the clipped primal; if it is OPTIMAL and one of them is NaN the
returned solution equals `init_guess` at every `i < n`. -/
theorem C8_returned_solution (fuel : Nat) (env : Env) (qp : QP) (epsilon_crit : F64)
    (svm_maxqpsize : Int) (g : Globals) (o : Outcome)
    (h : optimize_qp fuel env qp epsilon_crit svm_maxqpsize g = some o) :
    (∃ s, retryLoop env (negateCe0 qp) fuel (loopInit g) = some s ∧ o.result = s.result ∧
      o.clipped = clip (negateCe0 qp)
        (epsilonLoqo (negateCe0 qp) o.raw_b epsilon_crit s.g.primal) s.g.primal) ∧
    (o.result ≠ Status.OPTIMAL_SOLUTION → o.solution = qp.opt_xinit) ∧
    (o.result = Status.OPTIMAL_SOLUTION → o.obj_after.isnan = false → o.raw_b.isnan = false →
      o.solution = o.clipped) ∧
    (o.result = Status.OPTIMAL_SOLUTION → (o.obj_after.isnan = true ∨ o.raw_b.isnan = true) →
      ∀ i, i < qp.opt_n → o.solution i = qp.opt_xinit i) := by
  obtain ⟨s, hs, ho⟩ := optimize_qp_eq_some h
  subst ho
  refine ⟨⟨s, hs, rfl, rfl⟩, ?_, ?_, ?_⟩
  · intro hres
    rw [afterLoop_result] at hres
    rw [afterLoop_solution, if_pos hres]
    rfl
  · intro hres h1 h2
    rw [afterLoop_result] at hres
    rw [afterLoop_solution, if_neg (by simp [hres]), h1, h2]
    simp
  · intro hres hnan i hi
    rw [afterLoop_result] at hres
    have hrec : ((afterLoop (negateCe0 qp) epsilon_crit svm_maxqpsize (objective qp qp.opt_xinit)
        s).obj_after.isnan || (afterLoop (negateCe0 qp) epsilon_crit svm_maxqpsize
        (objective qp qp.opt_xinit) s).raw_b.isnan) = true := by
      rcases hnan with hnan | hnan <;> simp [hnan]
    rw [afterLoop_solution, if_neg (by simp [hres]), if_pos hrec, resetPrimal_apply]
    exact if_pos hi

/-- C8, amended, on the scenario call with solver answer `primal=[0.5]`. -/
theorem C8_returned_solution_witness :
    ∃ o, optimize_qp 1 halfEnv (scenarioQP 10 0) (F64.fin (1 / 1000)) 10 freshGlobals = some o ∧
      (o.result ≠ Status.OPTIMAL_SOLUTION → o.solution = (scenarioQP 10 0).opt_xinit) ∧
      (o.result = Status.OPTIMAL_SOLUTION → o.obj_after.isnan = false → o.raw_b.isnan = false →
        o.solution = o.clipped) :=
  have h := optimize_qp_first_optimal 0 halfEnv (scenarioQP 10 0) (F64.fin (1 / 1000)) 10
    freshGlobals loopCond_freshGlobals_margin rfl
  ⟨_, h, (C8_returned_solution 1 halfEnv (scenarioQP 10 0) (F64.fin (1 / 1000)) 10 freshGlobals
    _ h).2.1, (C8_returned_solution 1 halfEnv (scenarioQP 10 0) (F64.fin (1 / 1000)) 10
    freshGlobals _ h).2.2.1⟩

/-! ## C9 -/

/-- C9: `svm_maxqpsize` after a call is its value before or that value minus
one, so it is never increased, and if it was >= 2 it still is. -/
theorem C9_working_set_size (fuel : Nat) (env : Env) (qp : QP) (epsilon_crit : F64)
    (svm_maxqpsize : Int) (g : Globals) (o : Outcome)
    (h : optimize_qp fuel env qp epsilon_crit svm_maxqpsize g = some o) :
    (o.svm_maxqpsize = svm_maxqpsize ∨ o.svm_maxqpsize = svm_maxqpsize - 1) ∧
    o.svm_maxqpsize ≤ svm_maxqpsize ∧ (2 ≤ svm_maxqpsize → 2 ≤ o.svm_maxqpsize) := by
  obtain ⟨s, _, ho⟩ := optimize_qp_eq_some h
  subst ho
  rw [afterLoop_svm_maxqpsize]
  split
  · split
    · exact ⟨Or.inr rfl, by omega, fun _ => by omega⟩
    · exact ⟨Or.inl rfl, le_rfl, fun h2 => h2⟩
  · exact ⟨Or.inl rfl, le_rfl, fun h2 => h2⟩

/-- C9 on a call in which the NaN recovery shrinks the working set from 10. -/
theorem C9_working_set_size_witness :
    ∃ o, optimize_qp 1 nanPrimalEnv (scenarioQP 10 0) (F64.fin (1 / 1000)) 10 freshGlobals =
        some o ∧
      (o.svm_maxqpsize = 10 ∨ o.svm_maxqpsize = 10 - 1) ∧ o.svm_maxqpsize ≤ 10 ∧
      ((2 : Int) ≤ 10 → 2 ≤ o.svm_maxqpsize) :=
  have h := optimize_qp_first_optimal 0 nanPrimalEnv (scenarioQP 10 0) (F64.fin (1 / 1000)) 10
    freshGlobals loopCond_freshGlobals_margin rfl
  ⟨_, h, C9_working_set_size 1 nanPrimalEnv (scenarioQP 10 0) (F64.fin (1 / 1000)) 10
    freshGlobals _ h⟩

/-! ## C10 -/

/-- C10: after a call the problem is the one before the call except for
`opt_ce0[0]`, which is the negation of its value before the call; every solver
attempt, in whatever loop state, is handed the unchanged arrays and that
once-negated right-hand side. -/
theorem C10_problem_frame (fuel : Nat) (env : Env) (qp : QP) (epsilon_crit : F64)
    (svm_maxqpsize : Int) (g : Globals) (o : Outcome)
    (h : optimize_qp fuel env qp epsilon_crit svm_maxqpsize g = some o) :
    o.qp.opt_n = qp.opt_n ∧ o.qp.opt_m = qp.opt_m ∧ o.qp.opt_g0 = qp.opt_g0 ∧
    o.qp.opt_g = qp.opt_g ∧ o.qp.opt_ce = qp.opt_ce ∧ o.qp.opt_low = qp.opt_low ∧
    o.qp.opt_up = qp.opt_up ∧ o.qp.opt_xinit = qp.opt_xinit ∧
    o.qp.opt_ce0 0 = (qp.opt_ce0 0).neg ∧ (∀ i, i ≠ 0 → o.qp.opt_ce0 i = qp.opt_ce0 i) ∧
    (∀ s, (loqoArgs env (negateCe0 qp) s).b 0 = (qp.opt_ce0 0).neg ∧
      (loqoArgs env (negateCe0 qp) s).c = qp.opt_g0 ∧
      (loqoArgs env (negateCe0 qp) s).h_x = qp.opt_g ∧
      (loqoArgs env (negateCe0 qp) s).a = qp.opt_ce ∧
      (loqoArgs env (negateCe0 qp) s).l = qp.opt_low ∧
      (loqoArgs env (negateCe0 qp) s).u = qp.opt_up) := by
  obtain ⟨s, _, ho⟩ := optimize_qp_eq_some h
  subst ho
  have hneg : (qp.opt_ce0 0).mul (F64.fin (-1)) = (qp.opt_ce0 0).neg := by
    cases qp.opt_ce0 0 <;> simp [F64.mul, F64.neg]
  refine ⟨rfl, rfl, rfl, rfl, rfl, rfl, rfl, rfl, ?_, ?_, ?_⟩
  · rw [afterLoop_qp]
    simp [negateCe0, hneg]
  · intro i hi
    rw [afterLoop_qp]
    simp [negateCe0, hi]
  · intro s2
    refine ⟨?_, rfl, rfl, rfl, rfl, rfl⟩
    simp [loqoArgs, negateCe0, hneg]

/-- C10 on the scenario call with right-hand side `opt_ce0[0] = 0`. -/
theorem C10_problem_frame_witness :
    ∃ o, optimize_qp 1 halfEnv (scenarioQP 10 0) (F64.fin (1 / 1000)) 10 freshGlobals = some o ∧
      o.qp.opt_n = 1 ∧ o.qp.opt_xinit = (scenarioQP 10 0).opt_xinit ∧
      o.qp.opt_ce0 0 = (F64.fin 0).neg :=
  have h := optimize_qp_first_optimal 0 halfEnv (scenarioQP 10 0) (F64.fin (1 / 1000)) 10
    freshGlobals loopCond_freshGlobals_margin rfl
  have c := C10_problem_frame 1 halfEnv (scenarioQP 10 0) (F64.fin (1 / 1000)) 10 freshGlobals _ h
  ⟨_, h, c.1, c.2.2.2.2.2.2.2.1, c.2.2.2.2.2.2.2.2.1⟩

/-! ## Sums in the value model -/

theorem F64.add_eq (a b : F64) : a.add b = a + b := rfl

theorem F64.mul_eq (a b : F64) : a.mul b = a * b := rfl

theorem F64.zero_eq : F64.fin 0 = 0 := rfl

theorem F64.mul_add' (a b c : F64) : a * (b + c) = a * b + a * c := by
  cases a <;> cases b <;> cases c <;>
    simp [← F64.add_eq, ← F64.mul_eq, F64.add, F64.mul, mul_add]

theorem F64.half_double (a : F64) : F64.fin (1 / 2) * (a + a) = a := by
  cases a <;> simp [← F64.add_eq, ← F64.mul_eq, F64.add, F64.mul]
  ring

theorem F64.nan_add (a : F64) : F64.nan + a = F64.nan := by
  cases a <;> rfl

theorem F64.add_nan (a : F64) : a + F64.nan = F64.nan := by
  cases a <;> rfl

theorem F64.nan_mul (a : F64) : F64.nan * a = F64.nan := by
  cases a <;> rfl

theorem F64.mul_nan (a : F64) : a * F64.nan = F64.nan := by
  cases a <;> rfl

theorem F64.fin_mul_sum (q : ℚ) (t : Nat → F64) (m : Nat) :
    F64.fin q * Finset.sum (Finset.range m) t =
      Finset.sum (Finset.range m) (fun j => F64.fin q * t j) := by
  induction m with
  | zero =>
    simp only [Finset.range_zero, Finset.sum_empty]
    show F64.mul (F64.fin q) (F64.fin 0) = F64.fin 0
    simp [F64.mul]
  | succ m ih => rw [Finset.sum_range_succ, Finset.sum_range_succ, F64.mul_add', ih]

/-- A loop `for (j = 0; j < n; j++) acc += t[j]` adds the sum of the terms. -/
theorem foldl_add_range (t : Nat → F64) (n : Nat) (acc : F64) :
    (List.range n).foldl (fun a j => a.add (t j)) acc = acc + Finset.sum (Finset.range n) t := by
  induction n with
  | zero => simp
  | succ n ih =>
    rw [List.range_succ, List.foldl_append, ih, Finset.sum_range_succ]
    simp only [List.foldl_cons, List.foldl_nil, F64.add_eq, add_assoc]

/-- A double sum over a symmetric matrix, split into the diagonal and twice
the part above it. -/
theorem sym_double_sum (x : Nat → F64) (h : Nat → Nat → F64) (n : Nat)
    (hs : ∀ i j, i < n → j < n → h i j = h j i) (m : Nat) (hm : m ≤ n) :
    Finset.sum (Finset.range m)
        (fun i => x i * Finset.sum (Finset.range m) (fun j => h i j * x j)) =
      Finset.sum (Finset.range m) (fun i => x i * x i * h i i +
        (Finset.sum (Finset.range i) (fun j => x j * x i * h j i) +
          Finset.sum (Finset.range i) (fun j => x j * x i * h j i))) := by
  induction m with
  | zero => simp
  | succ m ih =>
    rw [Finset.sum_range_succ]
    have h1 : Finset.sum (Finset.range m)
        (fun i => x i * Finset.sum (Finset.range (m + 1)) (fun j => h i j * x j)) =
        Finset.sum (Finset.range m)
          (fun i => x i * Finset.sum (Finset.range m) (fun j => h i j * x j)) +
        Finset.sum (Finset.range m) (fun j => x j * x m * h j m) := by
      rw [← Finset.sum_add_distrib]
      refine Finset.sum_congr rfl (fun i _ => ?_)
      rw [Finset.sum_range_succ, F64.mul_add']
      congr 1
      ac_rfl
    have h2 : x m * Finset.sum (Finset.range (m + 1)) (fun j => h m j * x j) =
        Finset.sum (Finset.range m) (fun j => x j * x m * h j m) + x m * x m * h m m := by
      rw [Finset.sum_range_succ, F64.mul_add']
      cases hx : x m with
      | nan => simp only [F64.nan_mul, F64.nan_add, F64.add_nan]
      | fin q =>
        rw [F64.fin_mul_sum]
        congr 1
        · refine Finset.sum_congr rfl (fun j hj => ?_)
          rw [hs m j (by omega) (by have := Finset.mem_range.1 hj; omega)]
          ac_rfl
        · rw [← hx]
          ac_rfl
    rw [h1, h2, Finset.sum_range_succ, ih (by omega)]
    abel

/-- The objective loops compute the triangular formula. -/
theorem objective_eq_triangularForm (qp : QP) (x : Buf) :
    objective qp x = triangularForm qp x := by
  unfold objective triangularForm
  have step : (fun (acc : F64) (i : Nat) =>
      let acc1 := acc.add ((qp.opt_g0 i).mul (x i))
      let acc2 := acc1.add ((((F64.fin (1 / 2)).mul (x i)).mul (x i)).mul
        (qp.opt_g (i * qp.opt_n + i)))
      (List.range i).foldl
        (fun a j => a.add (((x j).mul (x i)).mul (qp.opt_g (j * qp.opt_n + i))))
        acc2) =
      fun acc i => acc.add (qp.opt_g0 i * x i +
        F64.fin (1 / 2) * (x i * x i) * qp.opt_g (i * qp.opt_n + i) +
        Finset.sum (Finset.range i) (fun j => x j * x i * qp.opt_g (j * qp.opt_n + i))) := by
    funext acc i
    simp only []
    rw [foldl_add_range]
    simp only [F64.add_eq, F64.mul_eq, add_assoc, mul_assoc]
  rw [step, foldl_add_range, F64.zero_eq, zero_add]

/-- With a symmetric Hessian the triangular formula is the full quadratic
form. -/
theorem triangularForm_eq_quadraticForm (qp : QP) (x : Buf)
    (hsym : ∀ i j, i < qp.opt_n → j < qp.opt_n →
      qp.opt_g (i * qp.opt_n + j) = qp.opt_g (j * qp.opt_n + i)) :
    triangularForm qp x = quadraticForm qp x := by
  unfold triangularForm quadraticForm dot matVec
  rw [sym_double_sum x (fun i j => qp.opt_g (i * qp.opt_n + j)) qp.opt_n hsym qp.opt_n le_rfl,
    F64.fin_mul_sum, ← Finset.sum_add_distrib]
  refine Finset.sum_congr rfl (fun i _ => ?_)
  rw [F64.mul_add', F64.half_double]
  simp only [add_assoc, mul_assoc]

/-! ## C11 -/

/-- C11: the objective loops compute the triangular formula of the
specification; when the Hessian is symmetric this is the full quadratic form
`g.x + 0.5 * x^T H x`, and in every call that returns the pre-objective is that
form at `init_guess` and the post-objective is that form at the clipped
primal. -/
theorem C11_objective_is_quadratic_form (qp : QP)
    (hsym : ∀ i j, i < qp.opt_n → j < qp.opt_n →
      qp.opt_g (i * qp.opt_n + j) = qp.opt_g (j * qp.opt_n + i)) :
    (∀ x, objective qp x = triangularForm qp x) ∧
    (∀ x, objective qp x = quadraticForm qp x) ∧
    (∀ fuel env epsilon_crit svm_maxqpsize g o,
      optimize_qp fuel env qp epsilon_crit svm_maxqpsize g = some o →
        o.obj_before = quadraticForm qp qp.opt_xinit ∧
        o.obj_after = quadraticForm qp o.clipped) := by
  have hq : ∀ x, objective qp x = quadraticForm qp x := fun x =>
    (objective_eq_triangularForm qp x).trans (triangularForm_eq_quadraticForm qp x hsym)
  refine ⟨objective_eq_triangularForm qp, hq, ?_⟩
  intro fuel env epsilon_crit svm_maxqpsize g o h
  obtain ⟨s, _, ho⟩ := optimize_qp_eq_some h
  subst ho
  rw [afterLoop_obj_before, afterLoop_obj_after]
  exact ⟨hq _, hq _⟩

/-- C11 on the two-variable problem with Hessian `[[2, 1], [1, 2]]` at
`x = [1, 3]`: both formulas give `-4 + 0.5 * 26 = 9`. -/
theorem C11_objective_is_quadratic_form_witness :
    objective twoVarQP (fun i => if i = 0 then F64.fin 1 else F64.fin 3) =
      quadraticForm twoVarQP (fun i => if i = 0 then F64.fin 1 else F64.fin 3) ∧
    objective twoVarQP (fun i => if i = 0 then F64.fin 1 else F64.fin 3) = F64.fin 9 := by
  have hsym : ∀ i j, i < twoVarQP.opt_n → j < twoVarQP.opt_n →
      twoVarQP.opt_g (i * twoVarQP.opt_n + j) = twoVarQP.opt_g (j * twoVarQP.opt_n + i) := by
    intro i j hi hj
    have hi2 : i < 2 := hi
    have hj2 : j < 2 := hj
    interval_cases i <;> interval_cases j <;> simp [twoVarQP]
  refine ⟨(C11_objective_is_quadratic_form twoVarQP hsym).2.1 _, ?_⟩
  rw [objective_eq_triangularForm]
  unfold triangularForm
  simp only [twoVarQP, Finset.sum_range_succ, Finset.sum_range_zero]
  norm_num [← F64.add_eq, ← F64.mul_eq, ← F64.zero_eq, F64.add, F64.mul]

/-! ## C12 -/

theorem afterLoop_opt_precision (qp : QP) (ec : F64) (mq : Int) (ob : F64) (s : LoopState) :
    (afterLoop qp ec mq ob s).g.opt_precision =
      if (afterLoop qp ec mq ob s).obj_after.ge ob = true then s.g.opt_precision.div (F64.fin 100)
      else s.g.opt_precision := rfl

theorem F64.ge_eq_false_iff (a b : F64) :
    a.ge b = false ↔ (a.lt b = true ∨ a.isnan = true ∨ b.isnan = true) := by
  cases a <;> cases b <;> simp [F64.ge, F64.lt, F64.isnan]

/-- A call on a one-variable problem with `linear_term=[-1]`, `hessian=[2]`,
`upper=[10]`, no equality constraint and any initial guess, with a solver
whose first answer is OPTIMAL, `primal=[0.5]`, `dual=[0]`: the primal is not
clipped and the post-objective is -0.25. -/
theorem half_call (fuel : Nat) (env : Env) (qp : QP) (t : ℚ) (mq : Int) (g : Globals)
    (ht : 0 < t) (hn : qp.opt_n = 1) (hm : qp.opt_m = 0)
    (hg0 : qp.opt_g0 0 = F64.fin (-1)) (hg : qp.opt_g 0 = F64.fin 2)
    (hup : qp.opt_up 0 = F64.fin 10)
    (hmargin : g.init_margin.le (F64.fin (9999999 / 10000000)) = true)
    (hs : (firstAttempt env qp g).result = Status.OPTIMAL_SOLUTION ∧
      (firstAttempt env qp g).primal 0 = F64.fin (1 / 2)) :
    ∃ o, optimize_qp (fuel + 1) env qp (F64.fin t) mq g = some o ∧
      o.obj_after = F64.fin (-1 / 4) ∧ o.clipped 0 = F64.fin (1 / 2) ∧ o.raw_b = F64.fin 0 ∧
      o.epsilon_loqo = F64.fin (1 / 10 ^ 10) ∧
      o.obj_before = objective qp qp.opt_xinit ∧ o.result = Status.OPTIMAL_SOLUTION := by
  refine ⟨_, optimize_qp_first_optimal fuel env qp (F64.fin t) mq g hmargin hs.1, ?_⟩
  obtain ⟨hres, hprimal, _, _⟩ := retryStep_converged env (negateCe0 qp) (loopInit g) hs.1
  generalize retryStep env (negateCe0 qp) (loopInit g) = s at hres hprimal
  have hn1 : (negateCe0 qp).opt_n = 1 := hn
  have hp0 : s.g.primal 0 = F64.fin (1 / 2) := by
    rw [hprimal]
    exact hs.2
  have hb : (afterLoop (negateCe0 qp) (F64.fin t) mq (objective qp qp.opt_xinit) s).raw_b =
      F64.fin 0 := by
    rw [afterLoop_raw_b]
    simp [negateCe0, hm]
  have heps : (afterLoop (negateCe0 qp) (F64.fin t) mq (objective qp qp.opt_xinit)
      s).epsilon_loqo = F64.fin (1 / 10 ^ 10) := by
    rw [afterLoop_epsilon_loqo, hb, epsilonLoqo_one _ hn1]
    simp only [epsStep, kktDist_one _ hn1, hp0]
    simp only [negateCe0, hg0, hg, hup]
    cases qp.opt_ce 0 with
    | nan => norm_num [F64.neg, F64.mul, F64.add, F64.sub, F64.lt, F64.gt]
    | fin c =>
      norm_num [F64.neg, F64.mul, F64.add, F64.sub, F64.lt, F64.gt]
      rw [if_neg (by linarith), if_neg (by linarith)]
  have hclip : (afterLoop (negateCe0 qp) (F64.fin t) mq (objective qp qp.opt_xinit)
      s).clipped 0 = F64.fin (1 / 2) := by
    rw [afterLoop_clipped, clip_apply, hn1, if_pos Nat.zero_lt_one, heps, hp0]
    simp only [clipVal, negateCe0, hup]
    norm_num [F64.add, F64.sub, F64.le, F64.ge]
  have hobj : (afterLoop (negateCe0 qp) (F64.fin t) mq (objective qp qp.opt_xinit)
      s).obj_after = F64.fin (-1 / 4) := by
    rw [afterLoop_obj_after, objective_one _ hn1, hclip]
    simp only [negateCe0, hg0, hg]
    norm_num [F64.add, F64.mul]
  exact ⟨hobj, hclip, hb, heps, rfl, hres⟩

/-- C12 fails as stated: with a NaN initial guess the pre-objective is NaN while
the post-objective is the finite -0.25, so the post-objective is neither
strictly smaller than the pre-objective, nor NaN, nor >= the pre-objective. -/
theorem C12_counterexample :
    ∃ o, optimize_qp 1 halfEnv nanInitQP (F64.fin (1 / 1000)) 10 freshGlobals = some o ∧
      o.obj_before.isnan = true ∧ o.obj_after = F64.fin (-1 / 4) ∧
      ¬ ((o.obj_after.lt o.obj_before = true ∨ o.obj_after.isnan = true) ∨
        o.obj_after.ge o.obj_before = true) := by
  obtain ⟨o, ho, hobj, _, _, _, hbefore, _⟩ := half_call 0 halfEnv nanInitQP (1 / 1000) 10
    freshGlobals (by norm_num) rfl rfl rfl rfl rfl loopCond_freshGlobals_margin ⟨rfl, rfl⟩
  have hb : o.obj_before = F64.nan := by
    rw [hbefore, objective_one _ rfl]
    simp [nanInitQP, F64.mul, F64.add]
  refine ⟨o, ho, by rw [hb]; rfl, hobj, ?_⟩
  rw [hobj, hb]
  simp [F64.lt, F64.ge, F64.isnan]

/-- C12, amended: in every call that returns, either the post-objective is not
>= the pre-objective, which means it is strictly smaller or one of the two is
NaN, and then the stagnation step leaves `opt_precision` as the retry loop left
it and the violation counter as it was (the counter that meets the > 500 test
is the old one); or the post-objective is >= the pre-objective, and then
`opt_precision` is divided by 100 and the counter that meets the > 500 test is
the old one plus one. -/
theorem C12_progress_or_flagged (fuel : Nat) (env : Env) (qp : QP) (epsilon_crit : F64)
    (svm_maxqpsize : Int) (g : Globals) (o : Outcome)
    (h : optimize_qp fuel env qp epsilon_crit svm_maxqpsize g = some o) :
    ∃ s, retryLoop env (negateCe0 qp) fuel (loopInit g) = some s ∧
      (o.obj_after.ge o.obj_before = false ↔
        (o.obj_after.lt o.obj_before = true ∨ o.obj_after.isnan = true ∨
          o.obj_before.isnan = true)) ∧
      (o.obj_after.ge o.obj_before = false →
        o.g.opt_precision = s.g.opt_precision ∧
        o.g.precision_violations =
          (if g.precision_violations > 500 then 0 else g.precision_violations)) ∧
      (o.obj_after.ge o.obj_before = true →
        o.g.opt_precision = s.g.opt_precision.div (F64.fin 100) ∧
        o.g.precision_violations =
          (if g.precision_violations + 1 > 500 then 0 else g.precision_violations + 1)) := by
  obtain ⟨s, hs, ho⟩ := optimize_qp_eq_some h
  have hv : s.g.precision_violations = g.precision_violations :=
    retryLoop_precision_violations _ _ _ _ _ hs
  subst ho
  refine ⟨s, hs, F64.ge_eq_false_iff _ _, ?_, ?_⟩
  · intro hge
    rw [afterLoop_obj_before] at hge
    rw [afterLoop_opt_precision, afterLoop_precision_violations, hge, hv]
    simp
  · intro hge
    rw [afterLoop_obj_before] at hge
    rw [afterLoop_opt_precision, afterLoop_precision_violations, hge, hv]
    simp

/-- C12, amended, on the scenario call with solver answer `primal=[0.5]`: the
post-objective -0.25 is below the pre-objective 0. -/
theorem C12_progress_or_flagged_witness :
    ∃ o s, optimize_qp 1 halfEnv (scenarioQP 10 0) (F64.fin (1 / 1000)) 10 freshGlobals = some o ∧
      retryLoop halfEnv (negateCe0 (scenarioQP 10 0)) 1 (loopInit freshGlobals) = some s ∧
      (o.obj_after.ge o.obj_before = false →
        o.g.opt_precision = s.g.opt_precision ∧
        o.g.precision_violations =
          (if freshGlobals.precision_violations > 500 then 0
            else freshGlobals.precision_violations)) := by
  have h := optimize_qp_first_optimal 0 halfEnv (scenarioQP 10 0) (F64.fin (1 / 1000)) 10
    freshGlobals loopCond_freshGlobals_margin rfl
  obtain ⟨s, hs, _, hno, _⟩ := C12_progress_or_flagged 1 halfEnv (scenarioQP 10 0)
    (F64.fin (1 / 1000)) 10 freshGlobals _ h
  exact ⟨_, s, h, hs, hno⟩

/-! ## C13 -/

theorem retryStep_not_nan (env : Env) (qp : QP) (s : LoopState)
    (hd : ((env.pr_loqo (loqoArgs env qp s)).dual 0).isnan = false) :
    (retryStep env qp s).margin = s.margin ∧
      (retryStep env qp s).g.init_margin = s.g.init_margin := by
  unfold retryStep
  simp only [hd, Bool.false_eq_true, if_false]
  split <;> exact ⟨rfl, rfl⟩

theorem retryStep_marginInv (env : Env) (qp : QP) (b0 : ℚ) (s : LoopState)
    (h : marginInv b0 s) : marginInv b0 (retryStep env qp s) := by
  obtain ⟨b, m, hb, hm, hb0, hb9, hm1, hrel⟩ := h
  cases hd : ((env.pr_loqo (loqoArgs env qp s)).dual 0).isnan with
  | false =>
    obtain ⟨h1, h2⟩ := retryStep_not_nan env qp s hd
    exact ⟨b, m, by rw [h2, hb], by rw [h1, hm], hb0, hb9, hm1, hrel⟩
  | true =>
    obtain ⟨h1, _, _, _, h5, _⟩ := retryStep_nan env qp s hd
    have hm' : (retryStep env qp s).margin = F64.fin ((m + 1) / 2) := by
      rw [h1, hm]
      norm_num [F64.add, F64.div]
    by_cases hlt : b < 4 / 5
    · have hb' : (retryStep env qp s).g.init_margin = F64.fin ((4 * m + 1) / 5) := by
        rw [h5, hb, hm]
        have : (F64.fin b).lt (F64.fin (80 / 100)) = true := by
          simp only [F64.lt, decide_eq_true_eq]
          linarith
        rw [if_pos this]
        norm_num [F64.mul, F64.add, F64.div]
      refine ⟨(4 * m + 1) / 5, (m + 1) / 2, hb', hm', ?_, ?_, by linarith, Or.inr (Or.inr ?_)⟩
      · rcases hrel with h | h | h <;> linarith
      · rcases hrel with h | h | h <;> linarith
      · ring
    · have hb' : (retryStep env qp s).g.init_margin = F64.fin b := by
        rw [h5, hb]
        have : (F64.fin b).lt (F64.fin (80 / 100)) = false := by
          simp only [F64.lt, decide_eq_false_iff_not]
          linarith
        rw [this]
        simp
      exact ⟨b, (m + 1) / 2, hb', hm', hb0, hb9, by linarith, Or.inl (by linarith)⟩

/-- A call entered with a finite `init_margin` below 0.9 leaves it finite,
below 0.9 and not smaller. -/
theorem optimize_qp_init_margin (fuel : Nat) (env : Env) (qp : QP) (ec : F64) (mq : Int)
    (g : Globals) (o : Outcome) (b : ℚ) (h : optimize_qp fuel env qp ec mq g = some o)
    (hb : g.init_margin = F64.fin b) (hb9 : b < 9 / 10) :
    ∃ b2, o.g.init_margin = F64.fin b2 ∧ b ≤ b2 ∧ b2 < 9 / 10 := by
  obtain ⟨s, hs, ho⟩ := optimize_qp_eq_some h
  have hinv : marginInv b s :=
    retryLoop_invariant env (negateCe0 qp) (marginInv b) (retryStep_marginInv env _ b) fuel
      (loopInit g) s ⟨b, b, hb, hb, le_rfl, hb9, by linarith, Or.inr (Or.inl rfl)⟩ hs
  obtain ⟨b2, _, h2, _, h02, h92, _, _⟩ := hinv
  subst ho
  exact ⟨b2, by rw [(afterLoop_init _ _ _ _ _).1, h2], h02, h92⟩

theorem retryStep_init_iter_le (env : Env) (qp : QP) (s : LoopState) :
    s.g.init_iter ≤ (retryStep env qp s).g.init_iter := by
  unfold retryStep
  simp only []
  split
  · split <;> exact le_rfl
  · split
    · show s.g.init_iter ≤ s.g.init_iter + 10
      omega
    · exact le_rfl

theorem optimize_qp_init_iter_le (fuel : Nat) (env : Env) (qp : QP) (ec : F64) (mq : Int)
    (g : Globals) (o : Outcome) (h : optimize_qp fuel env qp ec mq g = some o) :
    g.init_iter ≤ o.g.init_iter := by
  obtain ⟨s, hs, ho⟩ := optimize_qp_eq_some h
  subst ho
  rw [(afterLoop_init _ _ _ _ _).2]
  exact retryLoop_invariant env (negateCe0 qp) (fun u => g.init_iter ≤ u.g.init_iter)
    (fun u hu => le_trans hu (retryStep_init_iter_le env _ u)) fuel (loopInit g) s le_rfl hs

theorem runCalls_succ_inv (calls : Nat → Call) (k : Nat) (w0 w : World)
    (h : runCalls calls (k + 1) w0 = some w) :
    ∃ w1 o, runCalls calls k w0 = some w1 ∧ callOnce (calls k) w1 = some o ∧ w = o.world := by
  simp only [runCalls, Option.bind_eq_some, Option.map_eq_some'] at h
  obtain ⟨w1, hw1, o, ho, hw⟩ := h
  exact ⟨w1, o, hw1, ho, hw.symm⟩

/-- In every state reached from `init_margin = 0.15` the persistent margin is
finite, at least 0.15 and below 0.9. -/
theorem runCalls_init_margin (calls : Nat → Call) (w0 : World)
    (h0 : w0.g.init_margin = F64.fin (15 / 100)) (k : Nat) (w : World)
    (hw : runCalls calls k w0 = some w) :
    ∃ b, w.g.init_margin = F64.fin b ∧ 15 / 100 ≤ b ∧ b < 9 / 10 := by
  induction k generalizing w with
  | zero =>
    simp only [runCalls, Option.some.injEq] at hw
    subst hw
    exact ⟨15 / 100, h0, le_rfl, by norm_num⟩
  | succ k ih =>
    obtain ⟨w1, o, hw1, ho, hwo⟩ := runCalls_succ_inv calls k w0 w hw
    obtain ⟨b, hb, hb0, hb9⟩ := ih w1 hw1
    obtain ⟨b2, hb2, hle, h92⟩ := optimize_qp_init_margin _ _ _ _ _ _ o b ho hb hb9
    subst hwo
    exact ⟨b2, hb2, le_trans hb0 hle, h92⟩

/-- C13: in every state reached from the initial `init_margin = 0.15` by calls
that return, with any problems and solvers, a further call that returns leaves
`init_margin` and `init_iter` (an unbounded integer) at least as large as it
found them. -/
theorem C13_ratchet (calls : Nat → Call) (w0 : World)
    (h0 : w0.g.init_margin = F64.fin (15 / 100)) (k : Nat) (w : World) (o : Outcome)
    (hw : runCalls calls k w0 = some w) (ho : callOnce (calls k) w = some o) :
    w.g.init_margin.le o.g.init_margin = true ∧ w.g.init_iter ≤ o.g.init_iter := by
  obtain ⟨b, hb, _, hb9⟩ := runCalls_init_margin calls w0 h0 k w hw
  obtain ⟨b2, hb2, hle, _⟩ := optimize_qp_init_margin _ _ _ _ _ _ o b ho hb hb9
  refine ⟨?_, optimize_qp_init_iter_le _ _ _ _ _ _ o ho⟩
  rw [hb, hb2]
  simp only [F64.le, decide_eq_true_eq]
  exact hle

/-- C13 on the fourth call of a run of stalled scenario calls from the initial
state. -/
theorem C13_ratchet_witness :
    ∃ w o, runCalls stallCalls 3 freshWorld = some w ∧ callOnce (stallCalls 3) w = some o ∧
      w.g.init_margin.le o.g.init_margin = true ∧ w.g.init_iter ≤ o.g.init_iter := by
  obtain ⟨w, o, hw, ho, _⟩ := stallCalls_stalled 3
  exact ⟨w, o, hw, ho, C13_ratchet stallCalls freshWorld rfl 3 w o hw ho⟩

/-! ## C14 -/

/-- C14: when `m = 0` the returned threshold is 0; when `m > 0` and neither the
`dual[0]` the retry loop ended with nor the post-objective is NaN, the
returned threshold is that `dual[0]`; the returned threshold is never NaN. -/
theorem C14_threshold (fuel : Nat) (env : Env) (qp : QP) (epsilon_crit : F64)
    (svm_maxqpsize : Int) (g : Globals) (o : Outcome)
    (h : optimize_qp fuel env qp epsilon_crit svm_maxqpsize g = some o) :
    (qp.opt_m = 0 → o.threshold = F64.fin 0) ∧
    (∃ s, retryLoop env (negateCe0 qp) fuel (loopInit g) = some s ∧
      (0 < qp.opt_m → (s.g.dual 0).isnan = false → o.obj_after.isnan = false →
        o.threshold = s.g.dual 0)) ∧
    o.threshold.isnan = false := by
  obtain ⟨s, hs, ho⟩ := optimize_qp_eq_some h
  subst ho
  have hm : (negateCe0 qp).opt_m = qp.opt_m := rfl
  refine ⟨fun h0 => ?_, ⟨s, hs, fun hpos hd hobj => ?_⟩, ?_⟩
  · rw [afterLoop_threshold, afterLoop_raw_b, hm, h0]
    simp
  · have hb : (afterLoop (negateCe0 qp) epsilon_crit svm_maxqpsize (objective qp qp.opt_xinit)
        s).raw_b = s.g.dual 0 := by
      rw [afterLoop_raw_b, hm, if_pos (by omega)]
    rw [afterLoop_threshold, hobj, hb, hd]
    simp
  · rw [afterLoop_threshold]
    split
    · rfl
    · rename_i hrec
      simp only [Bool.or_eq_true, not_or, Bool.not_eq_true] at hrec
      exact hrec.2

/-- C14 on the two-variable problem (`m = 1`) with a solver that reports
OPTIMAL, `primal = 0` and `dual[0] = 7`: the call returns threshold 7. -/
theorem C14_threshold_witness :
    ∃ o, optimize_qp 1 (testEnv (constSolver Status.OPTIMAL_SOLUTION (fun _ => F64.fin 0)
        (fun _ => F64.fin 7))) twoVarQP (F64.fin (1 / 1000)) 10 freshGlobals = some o ∧
      (twoVarQP.opt_m = 0 → o.threshold = F64.fin 0) ∧ o.threshold.isnan = false := by
  have h := optimize_qp_first_optimal 0 (testEnv (constSolver Status.OPTIMAL_SOLUTION
    (fun _ => F64.fin 0) (fun _ => F64.fin 7))) twoVarQP (F64.fin (1 / 1000)) 10 freshGlobals
    loopCond_freshGlobals_margin rfl
  have c := C14_threshold 1 _ twoVarQP (F64.fin (1 / 1000)) 10 freshGlobals _ h
  exact ⟨_, h, c.1, c.2.2⟩

/-! ## C15 -/

/-- C15 fails as stated: with clipping epsilon 20 and `upper=[10]`, the primal
value 10 is within epsilon of its upper bound, but the clipping loop sets it to
0, because the test against 0 comes first. -/
theorem C15_counterexample :
    F64.within (F64.fin 20) (F64.fin 10) ((scenarioQP 10 0).opt_up 0) = true ∧
      clip (scenarioQP 10 0) (F64.fin 20) (fun _ => F64.fin 10) 0 = F64.fin 0 ∧
      clip (scenarioQP 10 0) (F64.fin 20) (fun _ => F64.fin 10) 0 ≠ (scenarioQP 10 0).opt_up 0 := by
  have hc : clip (scenarioQP 10 0) (F64.fin 20) (fun _ => F64.fin 10) 0 = F64.fin 0 := by
    rw [clip_apply]
    norm_num [scenarioQP, clipVal, F64.add, F64.le]
  refine ⟨?_, hc, ?_⟩
  · norm_num [F64.within, scenarioQP, F64.sub, F64.add, F64.le]
  · rw [hc]
    norm_num [scenarioQP]

/-- C15, amended: for every `i < n`, if `primal[i]` is within epsilon of 0, or
just not above `0 + epsilon`, the clipped value is 0; if `primal[i]` is above
`0 + epsilon` and within epsilon of `upper[i]`, or just not below
`upper[i] - epsilon`, the clipped value is `upper[i]`. -/
theorem C15_clipping (qp : QP) (eps : F64) (primal : Buf) (i : Nat) (hi : i < qp.opt_n) :
    (F64.within eps (primal i) (F64.fin 0) = true → clip qp eps primal i = F64.fin 0) ∧
    ((primal i).le ((F64.fin 0).add eps) = true → clip qp eps primal i = F64.fin 0) ∧
    ((primal i).le ((F64.fin 0).add eps) = false →
      F64.within eps (primal i) (qp.opt_up i) = true → clip qp eps primal i = qp.opt_up i) ∧
    ((primal i).le ((F64.fin 0).add eps) = false →
      (primal i).ge ((qp.opt_up i).sub eps) = true → clip qp eps primal i = qp.opt_up i) := by
  rw [clip_apply, if_pos hi]
  have hge : F64.within eps (primal i) (qp.opt_up i) = true →
      (primal i).ge ((qp.opt_up i).sub eps) = true := by
    intro hw
    simp only [F64.within, Bool.and_eq_true] at hw
    obtain ⟨a, b, ha, hb, hab⟩ := F64.le_eq_true hw.1
    rw [ha, hb]
    simp [F64.ge, hab]
  refine ⟨fun hw => ?_, fun hle => ?_, fun hle hw => ?_, fun hle hg => ?_⟩
  · simp only [F64.within, Bool.and_eq_true] at hw
    simp [clipVal, hw.2]
  · simp [clipVal, hle]
  · simp [clipVal, hle, hge hw]
  · simp [clipVal, hle, hg]

/-- C15, amended, with epsilon 1e-10 and `upper=[10]`: 0.5e-10 is clipped to 0
and 10 - 0.5e-10 to 10. -/
theorem C15_clipping_witness :
    (F64.within (F64.fin (1 / 10 ^ 10)) (F64.fin (1 / (2 * 10 ^ 10))) (F64.fin 0) = true →
      clip (scenarioQP 10 0) (F64.fin (1 / 10 ^ 10)) (fun _ => F64.fin (1 / (2 * 10 ^ 10))) 0 =
        F64.fin 0) ∧
    F64.within (F64.fin (1 / 10 ^ 10)) (F64.fin (1 / (2 * 10 ^ 10))) (F64.fin 0) = true :=
  ⟨(C15_clipping (scenarioQP 10 0) (F64.fin (1 / 10 ^ 10))
    (fun _ => F64.fin (1 / (2 * 10 ^ 10))) 0 Nat.zero_lt_one).1,
    by norm_num [F64.within, F64.sub, F64.add, F64.le]⟩

/-! ## C16 -/

/-- A loop `for (j = s; j < s + len; j++) acc += t[j]` adds the sum of the
terms. -/
theorem foldl_add_range' (t : Nat → F64) (len s : Nat) (acc : F64) :
    (List.range' s len).foldl (fun a j => a.add (t j)) acc =
      acc + Finset.sum (Finset.range len) (fun k => t (s + k)) := by
  induction len generalizing s acc with
  | zero => simp
  | succ len ih =>
    rw [List.range'_succ, List.foldl_cons, ih, Finset.sum_range_succ', F64.add_eq, add_assoc]
    congr 1
    rw [add_comm]
    congr 1
    refine Finset.sum_congr rfl (fun k _ => ?_)
    rw [Nat.add_assoc, Nat.add_comm 1 k]

/-- The two loops over `j < i` and `i <= j < n` of the distance add up the row
of the symmetric matrix read off the upper triangle. -/
theorem kktDist_eq_distSymmetric (qp : QP) (b : F64) (x : Buf) (i : Nat) (hi : i < qp.opt_n) :
    kktDist qp b x i = distSymmetric qp b x i := by
  unfold kktDist distSymmetric
  simp only []
  rw [foldl_add_range', foldl_add_range]
  have hsplit : ∀ f : Nat → F64, Finset.sum (Finset.range qp.opt_n) f =
      Finset.sum (Finset.range i) f +
        Finset.sum (Finset.range (qp.opt_n - i)) (fun k => f (i + k)) := by
    intro f
    have := Finset.sum_range_add f i (qp.opt_n - i)
    rwa [Nat.add_sub_of_le (le_of_lt hi)] at this
  have hsum : Finset.sum (Finset.range qp.opt_n)
      (fun j => x j * qp.opt_g (min i j * qp.opt_n + max i j)) =
      Finset.sum (Finset.range i) (fun j => (x j).mul (qp.opt_g (j * qp.opt_n + i))) +
      Finset.sum (Finset.range (qp.opt_n - i))
        (fun k => (x (i + k)).mul (qp.opt_g (i * qp.opt_n + (i + k)))) := by
    rw [hsplit]
    congr 1
    · refine Finset.sum_congr rfl (fun j hj => ?_)
      have hji : j < i := Finset.mem_range.1 hj
      rw [Nat.min_eq_right (le_of_lt hji), Nat.max_eq_left (le_of_lt hji)]
      rfl
    · refine Finset.sum_congr rfl (fun k _ => ?_)
      rw [Nat.min_eq_left (Nat.le_add_right i k), Nat.max_eq_right (Nat.le_add_right i k)]
      rfl
  rw [hsum]
  simp only [F64.add_eq, F64.mul_eq, add_assoc]

theorem distSymmetric_eq_distFull (qp : QP) (b : F64) (x : Buf) (i : Nat) (hi : i < qp.opt_n)
    (hsym : ∀ a c, a < qp.opt_n → c < qp.opt_n →
      qp.opt_g (a * qp.opt_n + c) = qp.opt_g (c * qp.opt_n + a)) :
    distSymmetric qp b x i = distFull qp b x i := by
  unfold distSymmetric distFull matVec
  congr 1
  refine Finset.sum_congr rfl (fun j hj => ?_)
  have hjn : j < qp.opt_n := Finset.mem_range.1 hj
  rw [mul_comm]
  congr 1
  rcases Nat.le_total i j with hij | hji
  · rw [Nat.min_eq_left hij, Nat.max_eq_right hij]
  · rw [Nat.min_eq_right hji, Nat.max_eq_left hji]
    exact hsym j i hjn hi

/-- In binary64 too the distance reads the Hessian only at entries `H[a,c]`
with `a <= c < n`. -/
theorem kktDistR_upper_triangle (qp : QP) (b : F64) (x : Buf) (i : Nat) (hi : i < qp.opt_n)
    (G : Buf) (hG : ∀ a c, a ≤ c → c < qp.opt_n →
      G (a * qp.opt_n + c) = qp.opt_g (a * qp.opt_n + c)) :
    kktDistR { qp with opt_g := G } b x i = kktDistR qp b x i := by
  unfold kktDistR
  simp only []
  have h1 : ∀ d0 : F64, (List.range i).foldl
      (fun d j => d.addR ((x j).mulR (G (j * qp.opt_n + i)))) d0 =
      (List.range i).foldl (fun d j => d.addR ((x j).mulR (qp.opt_g (j * qp.opt_n + i)))) d0 := by
    intro d0
    refine List.foldl_ext _ _ _ (fun d j hj => ?_)
    rw [hG j i (le_of_lt (List.mem_range.1 hj)) hi]
  have h2 : ∀ d0 : F64, (List.range' i (qp.opt_n - i)).foldl
      (fun d j => d.addR ((x j).mulR (G (i * qp.opt_n + j)))) d0 =
      (List.range' i (qp.opt_n - i)).foldl
        (fun d j => d.addR ((x j).mulR (qp.opt_g (i * qp.opt_n + j)))) d0 := by
    intro d0
    refine List.foldl_ext _ _ _ (fun d j hj => ?_)
    have hj2 := List.mem_range'_1.1 hj
    rw [hG i j hj2.1 (by omega)]
  rw [h1, h2]

/-- C16 fails as stated for the doubles of the source: with `b = 1`,
`eq_coeffs = [1]`, `linear_term = [2^-53]` and `x = [0]` the code adds
`linear_term[0] + 1.0`, which rounds to 1, to `-b*eq_coeffs[0] = -1` and gets
`dist = 0`, while the value of `-b*eq_coeffs[0] + linear_term[0] + 1 + 0` is
`2^-53` (also when it is evaluated from left to right in binary64). -/
theorem C16_counterexample :
    kktDistR cancelQP (F64.fin 1) (fun _ => F64.fin 0) 0 = F64.fin 0 ∧
    distSymmetric cancelQP (F64.fin 1) (fun _ => F64.fin 0) 0 = F64.fin (1 / 2 ^ 53) ∧
    (((F64.fin 1).neg.mulR (cancelQP.opt_ce 0)).addR (cancelQP.opt_g0 0)).addR (F64.fin 1) =
      F64.fin (1 / 2 ^ 53) ∧
    kktDistR cancelQP (F64.fin 1) (fun _ => F64.fin 0) 0 ≠
      distSymmetric cancelQP (F64.fin 1) (fun _ => F64.fin 0) 0 := by
  decide!

/-- C16, amended: in exact arithmetic, for `i < n` the computed `dist` is
`-b*eq_coeffs[i] + linear_term[i] + 1 + sum_j x[j]*S[i,j]` with
`S[i,j] = H[min(i,j), max(i,j)]`, and when `H` is symmetric it is
`-b*eq_coeffs[i] + linear_term[i] + 1 + (H x)[i]`; like the objective it
depends on the upper triangle of `H` only: replacing the Hessian by one with
the same entries `H[a,c]`, `a <= c < n`, changes neither, and it does not
change the `dist` computed in binary64 either. -/
theorem C16_kkt_distance (qp : QP) (b : F64) (x : Buf) (i : Nat) (hi : i < qp.opt_n) :
    kktDist qp b x i = distSymmetric qp b x i ∧
    ((∀ a c, a < qp.opt_n → c < qp.opt_n →
        qp.opt_g (a * qp.opt_n + c) = qp.opt_g (c * qp.opt_n + a)) →
      kktDist qp b x i = distFull qp b x i) ∧
    (∀ G : Buf, (∀ a c, a ≤ c → c < qp.opt_n →
        G (a * qp.opt_n + c) = qp.opt_g (a * qp.opt_n + c)) →
      kktDist { qp with opt_g := G } b x i = kktDist qp b x i ∧
      objective { qp with opt_g := G } x = objective qp x ∧
      kktDistR { qp with opt_g := G } b x i = kktDistR qp b x i) := by
  refine ⟨kktDist_eq_distSymmetric qp b x i hi, fun hsym => ?_, fun G hG =>
    ⟨?_, ?_, kktDistR_upper_triangle qp b x i hi G hG⟩⟩
  · rw [kktDist_eq_distSymmetric qp b x i hi]
    exact distSymmetric_eq_distFull qp b x i hi hsym
  · rw [kktDist_eq_distSymmetric qp b x i hi,
      kktDist_eq_distSymmetric { qp with opt_g := G } b x i hi]
    unfold distSymmetric
    congr 1
    refine Finset.sum_congr rfl (fun j hj => ?_)
    have hjn : j < qp.opt_n := Finset.mem_range.1 hj
    congr 1
    exact hG (min i j) (max i j) (le_trans (Nat.min_le_left i j) (Nat.le_max_left i j))
      (Nat.max_lt.2 ⟨hi, hjn⟩)
  · rw [objective_eq_triangularForm, objective_eq_triangularForm]
    unfold triangularForm
    refine Finset.sum_congr rfl (fun k hk => ?_)
    have hkn : k < qp.opt_n := Finset.mem_range.1 hk
    congr 1
    · congr 2
      exact hG k k le_rfl hkn
    · refine Finset.sum_congr rfl (fun j hj => ?_)
      congr 1
      exact hG j k (le_of_lt (Finset.mem_range.1 hj)) hkn

/-- C16 on the two-variable problem with Hessian `[[2, 1], [1, 2]]`, threshold
7 and `x = [1, 3]`, for variable 1: `dist = -7*(-1) + (-1) + 1 + (1*1 + 3*2) =
14`. -/
theorem C16_kkt_distance_witness :
    kktDist twoVarQP (F64.fin 7) (fun i => if i = 0 then F64.fin 1 else F64.fin 3) 1 =
      distSymmetric twoVarQP (F64.fin 7) (fun i => if i = 0 then F64.fin 1 else F64.fin 3) 1 ∧
    kktDist twoVarQP (F64.fin 7) (fun i => if i = 0 then F64.fin 1 else F64.fin 3) 1 =
      F64.fin 14 := by
  have h := (C16_kkt_distance twoVarQP (F64.fin 7)
    (fun i => if i = 0 then F64.fin 1 else F64.fin 3) 1 (by decide)).1
  refine ⟨h, ?_⟩
  rw [h]
  unfold distSymmetric
  simp only [twoVarQP, Finset.sum_range_succ, Finset.sum_range_zero]
  norm_num [← F64.add_eq, ← F64.mul_eq, ← F64.zero_eq, F64.add, F64.mul, F64.neg]

/-! ## C17 -/

/-- One pass of the relaxation loop leaves epsilon alone or replaces it by more
than twice its value. -/
theorem epsStep_cases (qp : QP) (model_b epsilon_crit : F64) (primal : Buf) (e : ℚ) (i : Nat) :
    epsStep qp model_b epsilon_crit primal (F64.fin e) i = F64.fin e ∨
      ∃ e2, epsStep qp model_b epsilon_crit primal (F64.fin e) i = F64.fin e2 ∧ 2 * e < e2 := by
  unfold epsStep
  simp only []
  by_cases h1 : ((primal i).lt ((qp.opt_up i).sub (F64.fin e)) &&
      (kktDist qp model_b primal i).lt ((F64.fin 1).sub epsilon_crit)) = true
  · rw [if_pos h1]
    simp only [Bool.and_eq_true] at h1
    obtain ⟨x, y, hx, hy, hxy⟩ := F64.lt_eq_true h1.1
    cases hu : qp.opt_up i with
    | nan => rw [hu] at hy; simp [F64.sub] at hy
    | fin u =>
      rw [hu] at hy
      simp only [F64.sub, F64.fin.injEq] at hy
      rw [hx]
      exact Or.inr ⟨(u - x) * 2, by simp [F64.sub, F64.mul], by linarith⟩
  · rw [if_neg h1]
    by_cases h2 : ((primal i).gt ((F64.fin 0).add (F64.fin e)) &&
        (kktDist qp model_b primal i).gt ((F64.fin 1).add epsilon_crit)) = true
    · rw [if_pos h2]
      simp only [Bool.and_eq_true] at h2
      obtain ⟨x, y, hx, hy, hxy⟩ := F64.gt_eq_true h2.1
      simp only [F64.add, F64.fin.injEq] at hy
      rw [hx]
      exact Or.inr ⟨x * 2, by simp [F64.mul], by linarith⟩
    · rw [if_neg h2]
      exact Or.inl rfl

/-- C17 fails as stated for the doubles of the source: with `upper = [1E-10]`,
`primal = [-2^-900]`, tolerance `2^-10` and `epsilon_loqo` at its initial value
`1E-10`, the upper-side branch fires (`primal < upper - epsilon = 0` and
`dist = -2^-899 < 1 - 2^-10`) and `(upper - primal)*2.0` rounds to exactly
twice the previous value, not to more. -/
theorem C17_counterexample :
    epsStepR tinyUpperQP (F64.fin 0) (F64.fin (1 / 1024)) (fun _ => F64.fin (-(1 / 2 ^ 900)))
        (F64.fin (F64.roundDouble (1 / 10 ^ 10))) 0 =
      F64.fin (2 * F64.roundDouble (1 / 10 ^ 10)) ∧
    epsStepR tinyUpperQP (F64.fin 0) (F64.fin (1 / 1024)) (fun _ => F64.fin (-(1 / 2 ^ 900)))
        (F64.fin (F64.roundDouble (1 / 10 ^ 10))) 0 ≠
      F64.fin (F64.roundDouble (1 / 10 ^ 10)) ∧
    (¬ ∃ e2, epsStepR tinyUpperQP (F64.fin 0) (F64.fin (1 / 1024))
        (fun _ => F64.fin (-(1 / 2 ^ 900))) (F64.fin (F64.roundDouble (1 / 10 ^ 10))) 0 =
          F64.fin e2 ∧ 2 * F64.roundDouble (1 / 10 ^ 10) < e2) ∧
    epsilonLoqoR tinyUpperQP (F64.fin 0) (F64.fin (1 / 1024))
        (fun _ => F64.fin (-(1 / 2 ^ 900))) =
      F64.fin (2 * F64.roundDouble (1 / 10 ^ 10)) := by
  have h : epsStepR tinyUpperQP (F64.fin 0) (F64.fin (1 / 1024))
      (fun _ => F64.fin (-(1 / 2 ^ 900))) (F64.fin (F64.roundDouble (1 / 10 ^ 10))) 0 =
      F64.fin (2 * F64.roundDouble (1 / 10 ^ 10)) := by decide!
  refine ⟨h, ?_, ?_, by decide!⟩
  · rw [h]
    decide!
  · rintro ⟨e2, he, hlt⟩
    rw [h] at he
    simp only [F64.fin.injEq] at he
    rw [he] at hlt
    exact lt_irrefl _ hlt

/-- C17, amended: in exact arithmetic the local epsilon starts at 1e-10; each
pass of the relaxation loop either leaves it as it is or replaces it by a value
more than twice as large; so the clipping epsilon is a finite value >= 1e-10,
hence > 0. -/
theorem C17_epsilon_only_widens (qp : QP) (model_b epsilon_crit : F64) (primal : Buf) :
    epsilonLoqo qp model_b epsilon_crit primal =
      (List.range qp.opt_n).foldl (epsStep qp model_b epsilon_crit primal)
        (F64.fin (1 / 10 ^ 10)) ∧
    (∀ (e : ℚ) (i : Nat),
      epsStep qp model_b epsilon_crit primal (F64.fin e) i = F64.fin e ∨
      ∃ e2, epsStep qp model_b epsilon_crit primal (F64.fin e) i = F64.fin e2 ∧ 2 * e < e2) ∧
    ∃ e, epsilonLoqo qp model_b epsilon_crit primal = F64.fin e ∧ 1 / 10 ^ 10 ≤ e ∧ 0 < e := by
  refine ⟨rfl, epsStep_cases qp model_b epsilon_crit primal, ?_⟩
  obtain ⟨e, he, hpos⟩ := epsilonLoqo_pos qp model_b epsilon_crit primal
  exact ⟨e, he, hpos, lt_of_lt_of_le (by norm_num) hpos⟩

/-! ## C18 -/

/-- If the condition fails after some number of passes, the retry loop ends:
with the least such number `k` of passes, for every fuel of at least `k`. -/
theorem retryLoop_of_exit (env : Env) (qp : QP) (s : LoopState)
    (h : ∃ k, loopCond ((retryStep env qp)^[k] s) = false) :
    ∃ k, loopCond ((retryStep env qp)^[k] s) = false ∧
      (∀ j, j < k → loopCond ((retryStep env qp)^[j] s) = true) ∧
      ∀ fuel, k ≤ fuel → retryLoop env qp fuel s = some ((retryStep env qp)^[k] s) := by
  classical
  have hmin : ∀ j, j < Nat.find h → loopCond ((retryStep env qp)^[j] s) = true := by
    intro j hj
    have := Nat.find_min h hj
    simpa using this
  refine ⟨Nat.find h, Nat.find_spec h, hmin, fun fuel hf => ?_⟩
  exact (retryLoop_eq_some_iff env qp fuel s _).2 ⟨Nat.find h, hf, rfl, Nat.find_spec h, hmin⟩

theorem nanDual_margin (env : Env) (qp : QP) (s : LoopState) (m : ℚ)
    (hs : ∀ a, ((env.pr_loqo a).dual 0).isnan = true) (hm : s.margin = F64.fin m) (k : Nat) :
    ((retryStep env qp)^[k] s).margin = F64.fin (1 - (1 - m) / 2 ^ k) := by
  induction k with
  | zero => simp [hm]
  | succ k ih =>
    rw [Function.iterate_succ_apply', (retryStep_nan env qp _ (hs _)).1, ih]
    simp only [F64.add, F64.div]
    norm_num
    rw [pow_succ]
    field_simp
    ring

theorem nanDual_result (env : Env) (qp : QP) (s : LoopState)
    (hs : ∀ a, ((env.pr_loqo a).dual 0).isnan = true ∧
      (env.pr_loqo a).result ≠ Status.OPTIMAL_SOLUTION)
    (h0 : s.result ≠ Status.OPTIMAL_SOLUTION) (k : Nat) :
    ((retryStep env qp)^[k] s).result ≠ Status.OPTIMAL_SOLUTION := by
  cases k with
  | zero => exact h0
  | succ k =>
    rw [Function.iterate_succ_apply', (retryStep_nan env qp _ (hs _).1).2.2.1]
    exact (hs _).2

theorem loopCond_iff (t : LoopState) (m : ℚ) (hm : t.margin = F64.fin m)
    (hr : t.result ≠ Status.OPTIMAL_SOLUTION) :
    loopCond t = true ↔ m ≤ 9999999 / 10000000 := by
  simp [loopCond, hm, hr, F64.le]

/-- With a solver that always writes a NaN `dual[0]` and never reports OPTIMAL
the retry loop ends, whatever the state it is entered in. -/
theorem nanDual_exit (env : Env) (qp : QP) (g : Globals)
    (hs : ∀ a, ((env.pr_loqo a).dual 0).isnan = true ∧
      (env.pr_loqo a).result ≠ Status.OPTIMAL_SOLUTION) :
    ∃ k, loopCond ((retryStep env qp)^[k] (loopInit g)) = false := by
  cases hm : g.init_margin with
  | nan =>
    refine ⟨0, ?_⟩
    simp [loopCond, loopInit, hm, F64.le]
  | fin a =>
    obtain ⟨k, hk⟩ := pow_unbounded_of_one_lt ((1 - a) * 10 ^ 7) (by norm_num : (1 : ℚ) < 2)
    refine ⟨k, ?_⟩
    have hmk := nanDual_margin env qp (loopInit g) a (fun x => (hs x).1) hm k
    have hrk := nanDual_result env qp (loopInit g) hs (by simp [loopInit]) k
    rw [← Bool.not_eq_true, loopCond_iff _ _ hmk hrk, not_le]
    have h2 : (0 : ℚ) < 2 ^ k := by positivity
    have : (1 - a) / 2 ^ k < 1 / 10 ^ 7 := by
      rw [div_lt_div_iff₀ h2 (by norm_num)]
      linarith
    norm_num at this ⊢
    linarith

/-- From `init_margin = 0.15` with an always-NaN dual, `init_margin` is 0.83
after three passes and stays there. -/
theorem nanDual_init_margin (env : Env) (qp : QP) (g : Globals)
    (hs : ∀ a, ((env.pr_loqo a).dual 0).isnan = true)
    (hg : g.init_margin = F64.fin (15 / 100)) (k : Nat) :
    ((retryStep env qp)^[k + 3] (loopInit g)).g.init_margin = F64.fin (83 / 100) := by
  have hm := nanDual_margin env qp (loopInit g) (15 / 100) hs hg
  have hstep : ∀ j, ((retryStep env qp)^[j + 1] (loopInit g)).g.init_margin =
      (if ((retryStep env qp)^[j] (loopInit g)).g.init_margin.lt (F64.fin (80 / 100)) = true
        then (((F64.fin 4).mul ((retryStep env qp)^[j] (loopInit g)).margin).add
          (F64.fin 1)).div (F64.fin 5)
        else ((retryStep env qp)^[j] (loopInit g)).g.init_margin) := by
    intro j
    rw [Function.iterate_succ_apply']
    exact (retryStep_nan env qp _ (hs _)).2.2.2.2.1
  have h0 : ((retryStep env qp)^[0] (loopInit g)).g.init_margin = F64.fin (15 / 100) := hg
  have h1 : ((retryStep env qp)^[1] (loopInit g)).g.init_margin = F64.fin (32 / 100) := by
    rw [hstep 0, h0, hm 0]
    norm_num [F64.lt, F64.mul, F64.add, F64.div]
  have h2 : ((retryStep env qp)^[2] (loopInit g)).g.init_margin = F64.fin (66 / 100) := by
    rw [hstep 1, h1, hm 1]
    norm_num [F64.lt, F64.mul, F64.add, F64.div]
  have h3 : ((retryStep env qp)^[3] (loopInit g)).g.init_margin = F64.fin (83 / 100) := by
    rw [hstep 2, h2, hm 2]
    norm_num [F64.lt, F64.mul, F64.add, F64.div]
  induction k with
  | zero => exact h3
  | succ k ih =>
    rw [show k + 1 + 3 = (k + 3) + 1 from by omega, hstep (k + 3), ih]
    norm_num [F64.lt]

/-- C18: with a solver that writes a NaN `dual[0]` on every attempt and never
returns OPTIMAL, each pass halves the distance `1 - margin`; the call returns
for every state it is entered in (for every fuel from some bound on); and
entered with `init_margin = 0.15` the loop makes exactly 24 passes, one solver
attempt each: the condition holds before each of them and fails after the
24th, when `margin` exceeds 0.9999999 and `init_margin` is 0.83. -/
theorem C18_nan_retry_terminates (env : Env) (qp : QP) (epsilon_crit : F64)
    (svm_maxqpsize : Int) (g : Globals)
    (hs : ∀ a, ((env.pr_loqo a).dual 0).isnan = true ∧
      (env.pr_loqo a).result ≠ Status.OPTIMAL_SOLUTION) :
    (∀ (k : Nat) (m : ℚ),
      ((retryStep env (negateCe0 qp))^[k] (loopInit g)).margin = F64.fin m →
      ((retryStep env (negateCe0 qp))^[k + 1] (loopInit g)).margin =
        F64.fin (1 - (1 - m) / 2)) ∧
    (∃ N, ∀ fuel, N ≤ fuel →
      ∃ o, optimize_qp fuel env qp epsilon_crit svm_maxqpsize g = some o) ∧
    (g.init_margin = F64.fin (15 / 100) →
      (∀ j, j < 24 → loopCond ((retryStep env (negateCe0 qp))^[j] (loopInit g)) = true) ∧
      loopCond ((retryStep env (negateCe0 qp))^[24] (loopInit g)) = false ∧
      ((retryStep env (negateCe0 qp))^[24] (loopInit g)).margin.gt
        (F64.fin (9999999 / 10000000)) = true ∧
      (∀ fuel t, retryLoop env (negateCe0 qp) fuel (loopInit g) = some t ↔
        24 ≤ fuel ∧ t = (retryStep env (negateCe0 qp))^[24] (loopInit g)) ∧
      (∀ fuel, fuel < 24 → optimize_qp fuel env qp epsilon_crit svm_maxqpsize g = none) ∧
      (∀ fuel, 24 ≤ fuel → ∃ o, optimize_qp fuel env qp epsilon_crit svm_maxqpsize g = some o ∧
        o.g.init_margin = F64.fin (83 / 100))) := by
  refine ⟨fun k m hm => ?_, ?_, fun hg => ?_⟩
  · rw [Function.iterate_succ_apply', (retryStep_nan env _ _ (hs _).1).1, hm]
    simp only [F64.add, F64.div]
    norm_num
    ring
  · obtain ⟨k, _, _, hk⟩ := retryLoop_of_exit env (negateCe0 qp) (loopInit g)
      (nanDual_exit env (negateCe0 qp) g hs)
    refine ⟨k, fun fuel hf => ?_⟩
    unfold optimize_qp
    simp only [hk fuel hf, Option.map_some']
    exact ⟨_, rfl⟩
  · have hm := nanDual_margin env (negateCe0 qp) (loopInit g) (15 / 100) (fun x => (hs x).1) hg
    have hr := nanDual_result env (negateCe0 qp) (loopInit g) hs (by simp [loopInit])
    have hbefore : ∀ j, j < 24 →
        loopCond ((retryStep env (negateCe0 qp))^[j] (loopInit g)) = true := by
      intro j hj
      rw [loopCond_iff _ _ (hm j) (hr j)]
      have hp : (2 : ℚ) ^ j ≤ 2 ^ 23 := pow_le_pow_right₀ (by norm_num) (by omega)
      have h2 : (0 : ℚ) < 2 ^ j := by positivity
      have : (1 : ℚ) / 10 ^ 7 ≤ (1 - 15 / 100) / 2 ^ j := by
        rw [div_le_div_iff₀ (by norm_num) h2]
        norm_num at hp ⊢
        linarith
      norm_num at this ⊢
      linarith
    have hafter : loopCond ((retryStep env (negateCe0 qp))^[24] (loopInit g)) = false := by
      rw [← Bool.not_eq_true, loopCond_iff _ _ (hm 24) (hr 24)]
      norm_num
    have hiff : ∀ fuel t, retryLoop env (negateCe0 qp) fuel (loopInit g) = some t ↔
        24 ≤ fuel ∧ t = (retryStep env (negateCe0 qp))^[24] (loopInit g) := by
      intro fuel t
      rw [retryLoop_eq_some_iff]
      constructor
      · rintro ⟨k, hk, hit, hc, hall⟩
        have hk24 : k = 24 := by
          rcases Nat.lt_trichotomy k 24 with hlt | heq | hgt
          · rw [← hit, hbefore k hlt] at hc
            exact Bool.noConfusion hc
          · exact heq
          · have := hall 24 hgt
            rw [hafter] at this
            exact Bool.noConfusion this
        subst hk24
        exact ⟨hk, hit.symm⟩
      · rintro ⟨hf, ht⟩
        subst ht
        exact ⟨24, hf, rfl, hafter, hbefore⟩
    refine ⟨hbefore, hafter, ?_, hiff, fun fuel hf => ?_, fun fuel hf => ?_⟩
    · rw [hm 24]
      norm_num [F64.gt]
    · cases hl : retryLoop env (negateCe0 qp) fuel (loopInit g) with
      | none =>
        unfold optimize_qp
        simp only [hl, Option.map_none']
      | some t =>
        have := ((hiff fuel t).1 hl).1
        omega
    · unfold optimize_qp
      simp only [(hiff fuel _).2 ⟨hf, rfl⟩, Option.map_some']
      refine ⟨_, rfl, ?_⟩
      rw [(afterLoop_init _ _ _ _ _).1]
      exact nanDual_init_margin env (negateCe0 qp) g (fun x => (hs x).1) hg 21

/-- C18 from the initial state with the always-NaN solver double: no return
within 23 passes, return after 24 with `init_margin = 0.83`. -/
theorem C18_nan_retry_terminates_witness :
    optimize_qp 23 nanEnv (scenarioQP 10 0) (F64.fin (1 / 1000)) 10 freshGlobals = none ∧
    ∃ o, optimize_qp 24 nanEnv (scenarioQP 10 0) (F64.fin (1 / 1000)) 10 freshGlobals = some o ∧
      o.g.init_margin = F64.fin (83 / 100) :=
  have c := (C18_nan_retry_terminates nanEnv (scenarioQP 10 0) (F64.fin (1 / 1000)) 10
    freshGlobals (fun _ => ⟨rfl, by simp [nanEnv, testEnv, constSolver]⟩)).2.2 rfl
  ⟨c.2.2.2.2.1 23 (by norm_num), c.2.2.2.2.2 24 le_rfl⟩

/-! ## C19 -/

theorem retryStep32_optimal (env : Env) (qp : QP) (s : LoopState)
    (hr : (env.pr_loqo (loqoArgs env qp s)).result = Status.OPTIMAL_SOLUTION) :
    loopCond (retryStep32 env qp s) = false := by
  apply loopCond_of_optimal
  rw [(retryStep32_fields env qp s).2.1]
  exact (retryStep_converged env qp s hr).1

theorem loqoArgs_counter_max (env : Env) (qp : QP) (s : LoopState) :
    (loqoArgs env qp s).counter_max = s.iter := rfl

theorem negativeCap_result (qp : QP) (s : LoopState) :
    (negativeCapEnv.pr_loqo (loqoArgs negativeCapEnv qp s)).result =
      (if s.iter < 0 then Status.OPTIMAL_SOLUTION else Status.STILL_RUNNING) := rfl

/-- With the solver double of `negativeCapEnv` from the initial state, every
one of the first 1073742 attempts fails softly: the cap handed to attempt
`k+1` is `500 + 2000*k` reduced to 32 bits, which is not negative while
`k <= 1073741`. -/
theorem negativeCap_iterate (qp : QP) (k : Nat) (hk : k ≤ 1073742) :
    ((retryStep32 negativeCapEnv qp)^[k] (loopInit freshGlobals)).margin =
        freshGlobals.init_margin ∧
      (0 < k → ((retryStep32 negativeCapEnv qp)^[k] (loopInit freshGlobals)).result =
        Status.STILL_RUNNING) ∧
      ((retryStep32 negativeCapEnv qp)^[k] (loopInit freshGlobals)).iter =
        wrap32 (500 + 2000 * (k : Int)) ∧
      softFails32 negativeCapEnv qp (loopInit freshGlobals) k = k := by
  induction k with
  | zero =>
    refine ⟨rfl, fun h => absurd h (Nat.lt_irrefl 0), ?_, rfl⟩
    simp only [Function.iterate_zero, id_eq, Nat.cast_zero, mul_zero, add_zero]
    rfl
  | succ k ih =>
    obtain ⟨h1, _, h3, h4⟩ := ih (by omega)
    have hd : ((negativeCapEnv.pr_loqo (loqoArgs negativeCapEnv qp
        ((retryStep32 negativeCapEnv qp)^[k] (loopInit freshGlobals)))).dual 0).isnan = false := rfl
    have hcap : ¬ ((retryStep32 negativeCapEnv qp)^[k] (loopInit freshGlobals)).iter < 0 := by
      rw [h3, wrap32_of_inRange _ (by omega) (by omega)]
      omega
    have hres : (negativeCapEnv.pr_loqo (loqoArgs negativeCapEnv qp
        ((retryStep32 negativeCapEnv qp)^[k] (loopInit freshGlobals)))).result =
        Status.STILL_RUNNING := by
        rw [negativeCap_result, if_neg hcap]
    have hr : (negativeCapEnv.pr_loqo (loqoArgs negativeCapEnv qp
        ((retryStep32 negativeCapEnv qp)^[k] (loopInit freshGlobals)))).result ≠
        Status.OPTIMAL_SOLUTION := by
      rw [hres]
      decide
    have hf : softFail negativeCapEnv qp
        ((retryStep32 negativeCapEnv qp)^[k] (loopInit freshGlobals)) = true := by
      simp [softFail, hd, hres]
    obtain ⟨m1, _, m3, _, _⟩ := retryStep_not_converged negativeCapEnv qp
      ((retryStep32 negativeCapEnv qp)^[k] (loopInit freshGlobals)) hd hr
    obtain ⟨f1, f2, f3, _⟩ := retryStep32_fields negativeCapEnv qp
      ((retryStep32 negativeCapEnv qp)^[k] (loopInit freshGlobals))
    rw [Function.iterate_succ_apply']
    refine ⟨by rw [f1, m1, h1], fun _ => by rw [f2, m3, hres], ?_, ?_⟩
    · have e : (500 : Int) + 2000 * (k : Int) + 2000 = 500 + 2000 * ((k + 1 : Nat) : Int) := by
        push_cast
        ring
      rw [f3, if_pos hf, h3, wrap32_add, e]
    · simp only [softFails32, hf, if_true, h4]

/-- C19 fails as stated for the 32-bit `iter` of the source: from the initial
state (budget 500), with a solver that fails softly until it is handed a
negative cap, the call returns after 1073743 attempts; the last attempt follows
1073742 soft failures, so the claimed cap is 500 + 2000*1073742 = 2147484500,
which no `int32_t` holds; the cap it is handed is that sum reduced to 32 bits,
-2147482796. -/
theorem C19_counterexample :
    (∃ o, optimize_qp32 1073743 negativeCapEnv (scenarioQP 10 0) (F64.fin (1 / 1000)) 10
      freshGlobals = some o) ∧
    loopCond ((retryStep32 negativeCapEnv (negateCe0 (scenarioQP 10 0)))^[1073742]
      (loopInit freshGlobals)) = true ∧
    softFails32 negativeCapEnv (negateCe0 (scenarioQP 10 0)) (loopInit freshGlobals) 1073742 =
      1073742 ∧
    (loqoArgs negativeCapEnv (negateCe0 (scenarioQP 10 0))
      ((retryStep32 negativeCapEnv (negateCe0 (scenarioQP 10 0)))^[1073742]
        (loopInit freshGlobals))).counter_max = -2147482796 ∧
    (loqoArgs negativeCapEnv (negateCe0 (scenarioQP 10 0))
      ((retryStep32 negativeCapEnv (negateCe0 (scenarioQP 10 0)))^[1073742]
        (loopInit freshGlobals))).counter_max ≠
      freshGlobals.init_iter + 2000 * (softFails32 negativeCapEnv (negateCe0 (scenarioQP 10 0))
        (loopInit freshGlobals) 1073742 : Int) := by
  have hcond : ∀ j, j < 1073742 + 1 → loopCond ((retryStep32 negativeCapEnv
      (negateCe0 (scenarioQP 10 0)))^[j] (loopInit freshGlobals)) = true := by
    intro j hj
    obtain ⟨h1, h2, _, _⟩ := negativeCap_iterate (negateCe0 (scenarioQP 10 0)) j (by omega)
    have hres : ((retryStep32 negativeCapEnv (negateCe0 (scenarioQP 10 0)))^[j]
        (loopInit freshGlobals)).result = Status.STILL_RUNNING := by
      rcases Nat.eq_zero_or_pos j with hj0 | hj0
      · subst hj0
        rfl
      · exact h2 hj0
    unfold loopCond
    rw [h1, hres]
    simp only [loopCond_freshGlobals_margin, Bool.true_and, decide_eq_true_eq]
    decide
  obtain ⟨_, _, hit, hsf⟩ := negativeCap_iterate (negateCe0 (scenarioQP 10 0)) 1073742 le_rfl
  have hcap : (loqoArgs negativeCapEnv (negateCe0 (scenarioQP 10 0))
      ((retryStep32 negativeCapEnv (negateCe0 (scenarioQP 10 0)))^[1073742]
        (loopInit freshGlobals))).counter_max = -2147482796 := by
    rw [loqoArgs_counter_max, hit]
    decide
  have hres : (negativeCapEnv.pr_loqo (loqoArgs negativeCapEnv (negateCe0 (scenarioQP 10 0))
      ((retryStep32 negativeCapEnv (negateCe0 (scenarioQP 10 0)))^[1073742]
        (loopInit freshGlobals)))).result = Status.OPTIMAL_SOLUTION := by
    rw [loqoArgs_counter_max] at hcap
    rw [negativeCap_result, hcap]
    rfl
  have hloop : retryLoop32 negativeCapEnv (negateCe0 (scenarioQP 10 0)) 1073743
      (loopInit freshGlobals) =
      some (retryStep32 negativeCapEnv (negateCe0 (scenarioQP 10 0))
        ((retryStep32 negativeCapEnv (negateCe0 (scenarioQP 10 0)))^[1073742]
          (loopInit freshGlobals))) :=
    (retryLoop32_eq_some_iff _ _ _ _ _).2 ⟨1073742 + 1, by omega,
      Function.iterate_succ_apply' _ _ _, retryStep32_optimal _ _ _ hres, hcond⟩
  refine ⟨?_, hcond 1073742 (by omega), hsf, hcap, ?_⟩
  · unfold optimize_qp32
    simp only [hloop, Option.map_some']
    exact ⟨_, rfl⟩
  · rw [hcap, hsf]
    decide

/-- C19, amended, with `iter` and `init_iter` as the 32-bit integers of the
source: an attempt with a NaN `dual[0]` changes neither the cap nor
`init_iter`; and for a call that returns after `k` attempts, if `init_iter` at
call start plus 2000 for each soft failure (status other than OPTIMAL, non-NaN
`dual[0]`) among the `k` attempts is at most 2147483647, then the cap handed to
attempt `j+1` is `init_iter` at call start plus 2000 for each soft failure
among the `j` earlier attempts, and the call leaves `init_iter` at its value
before plus 10 for each soft failure among the `k`. -/
theorem C19_iteration_budget (fuel : Nat) (env : Env) (qp : QP) (epsilon_crit : F64)
    (svm_maxqpsize : Int) (g : Globals) (o : Outcome)
    (h : optimize_qp32 fuel env qp epsilon_crit svm_maxqpsize g = some o)
    (hlo : -2147483648 ≤ g.init_iter) :
    (∀ s, ((env.pr_loqo (loqoArgs env (negateCe0 qp) s)).dual 0).isnan = true →
      (retryStep32 env (negateCe0 qp) s).iter = s.iter ∧
      (retryStep32 env (negateCe0 qp) s).g.init_iter = s.g.init_iter) ∧
    ∃ k, k ≤ fuel ∧
      (∀ j, j < k → loopCond ((retryStep32 env (negateCe0 qp))^[j] (loopInit g)) = true) ∧
      loopCond ((retryStep32 env (negateCe0 qp))^[k] (loopInit g)) = false ∧
      (g.init_iter + 2000 * (softFails32 env (negateCe0 qp) (loopInit g) k : Int) ≤ 2147483647 →
        (∀ j, j ≤ k → (loqoArgs env (negateCe0 qp)
            ((retryStep32 env (negateCe0 qp))^[j] (loopInit g))).counter_max =
          g.init_iter + 2000 * (softFails32 env (negateCe0 qp) (loopInit g) j : Int)) ∧
        o.iter = g.init_iter + 2000 * (softFails32 env (negateCe0 qp) (loopInit g) k : Int) ∧
        o.g.init_iter =
          g.init_iter + 10 * (softFails32 env (negateCe0 qp) (loopInit g) k : Int)) := by
  refine ⟨fun s hd => ?_, ?_⟩
  · obtain ⟨_, _, f3, f4⟩ := retryStep32_fields env (negateCe0 qp) s
    have hf : softFail env (negateCe0 qp) s = false := by simp [softFail, hd]
    rw [f3, f4, hf]
    exact ⟨rfl, rfl⟩
  · obtain ⟨s, hs, ho⟩ := optimize_qp32_eq_some h
    obtain ⟨k, hk, hit, hc, hall⟩ := (retryLoop32_eq_some_iff _ _ _ _ _).1 hs
    subst ho
    subst hit
    refine ⟨k, hk, hall, hc, fun hhi => ?_⟩
    have e0 : (loopInit g).iter = g.init_iter := rfl
    have e1 : (loopInit g).g.init_iter = g.init_iter := rfl
    have hrange : ∀ j, j ≤ k →
        ((retryStep32 env (negateCe0 qp))^[j] (loopInit g)).iter =
          g.init_iter + 2000 * (softFails32 env (negateCe0 qp) (loopInit g) j : Int) ∧
        ((retryStep32 env (negateCe0 qp))^[j] (loopInit g)).g.init_iter =
          g.init_iter + 10 * (softFails32 env (negateCe0 qp) (loopInit g) j : Int) := by
      intro j hj
      have hm : (softFails32 env (negateCe0 qp) (loopInit g) j : Int) ≤
          (softFails32 env (negateCe0 qp) (loopInit g) k : Int) :=
        Int.ofNat_le.2 (softFails32_mono env (negateCe0 qp) (loopInit g) j k hj)
      have hn : (0 : Int) ≤ (softFails32 env (negateCe0 qp) (loopInit g) j : Int) :=
        Int.natCast_nonneg _
      have := iterate32_inRange env (negateCe0 qp) (loopInit g) j
        (by rw [e0]; exact hlo) (by rw [e1]; exact hlo)
        (by rw [e0]; omega) (by rw [e1]; omega)
      rwa [e0, e1] at this
    refine ⟨fun j hj => ?_, (hrange k le_rfl).1, ?_⟩
    · rw [loqoArgs_counter_max]
      exact (hrange j hj).1
    · rw [(afterLoop_init _ _ _ _ _).2]
      exact (hrange k le_rfl).2

/-- From the initial state the solver double of `retryOnceEnv` is attempted
twice: the first attempt fails softly, the second reports OPTIMAL. -/
theorem retryOnce_call32 (qp : QP) (ec : F64) (mq : Int) :
    ∃ o, optimize_qp32 2 retryOnceEnv qp ec mq freshGlobals = some o ∧
      loopCond ((retryStep32 retryOnceEnv (negateCe0 qp))^[0] (loopInit freshGlobals)) = true ∧
      loopCond ((retryStep32 retryOnceEnv (negateCe0 qp))^[1] (loopInit freshGlobals)) = true ∧
      softFails32 retryOnceEnv (negateCe0 qp) (loopInit freshGlobals) 1 = 1 ∧
      softFails32 retryOnceEnv (negateCe0 qp) (loopInit freshGlobals) 2 = 1 := by
  have hd : ∀ s, ((retryOnceEnv.pr_loqo (loqoArgs retryOnceEnv (negateCe0 qp) s)).dual 0).isnan =
      false := fun _ => rfl
  have hr0 : (retryOnceEnv.pr_loqo (loqoArgs retryOnceEnv (negateCe0 qp)
      (loopInit freshGlobals))).result = Status.STILL_RUNNING := by
    simp [retryOnceEnv, testEnv, loqoArgs, loopInit, freshGlobals, Globals.initial]
  have hf0 : softFail retryOnceEnv (negateCe0 qp) (loopInit freshGlobals) = true := by
    simp [softFail, hd, hr0]
  obtain ⟨m1, _, r1, _, _⟩ := retryStep_not_converged retryOnceEnv (negateCe0 qp)
    (loopInit freshGlobals) (hd _) (by rw [hr0]; decide)
  obtain ⟨f1, f2, f3, _⟩ := retryStep32_fields retryOnceEnv (negateCe0 qp) (loopInit freshGlobals)
  have hc0 : loopCond (loopInit freshGlobals) = true :=
    loopCond_loopInit freshGlobals loopCond_freshGlobals_margin
  have hc1 : loopCond (retryStep32 retryOnceEnv (negateCe0 qp) (loopInit freshGlobals)) = true := by
    unfold loopCond
    rw [f1, f2, m1, r1, hr0]
    simp only [loopInit, loopCond_freshGlobals_margin, Bool.true_and, decide_eq_true_eq]
    decide
  have hr1 : (retryOnceEnv.pr_loqo (loqoArgs retryOnceEnv (negateCe0 qp)
      (retryStep32 retryOnceEnv (negateCe0 qp) (loopInit freshGlobals)))).result =
      Status.OPTIMAL_SOLUTION := by
    have hcap : (loqoArgs retryOnceEnv (negateCe0 qp)
        (retryStep32 retryOnceEnv (negateCe0 qp) (loopInit freshGlobals))).counter_max = 2500 := by
      rw [loqoArgs_counter_max, f3, if_pos hf0]
      decide
    show (if (loqoArgs retryOnceEnv (negateCe0 qp)
        (retryStep32 retryOnceEnv (negateCe0 qp) (loopInit freshGlobals))).counter_max = 500
      then Status.STILL_RUNNING else Status.OPTIMAL_SOLUTION) = Status.OPTIMAL_SOLUTION
    rw [hcap]
    rfl
  have hf1 : softFail retryOnceEnv (negateCe0 qp)
      (retryStep32 retryOnceEnv (negateCe0 qp) (loopInit freshGlobals)) = false := by
    simp [softFail, hr1]
  have hc2 : loopCond ((retryStep32 retryOnceEnv (negateCe0 qp))^[2] (loopInit freshGlobals)) =
      false := retryStep32_optimal _ _ _ hr1
  have hloop : retryLoop32 retryOnceEnv (negateCe0 qp) 2 (loopInit freshGlobals) =
      some ((retryStep32 retryOnceEnv (negateCe0 qp))^[2] (loopInit freshGlobals)) := by
    refine (retryLoop32_eq_some_iff _ _ _ _ _).2 ⟨2, le_rfl, rfl, hc2, fun j hj => ?_⟩
    have hj2 : j = 0 ∨ j = 1 := by omega
    rcases hj2 with hj0 | hj1
    · subst hj0
      exact hc0
    · subst hj1
      exact hc1
  have hcall : optimize_qp32 2 retryOnceEnv qp ec mq freshGlobals =
      some (afterLoop (negateCe0 qp) ec mq (objective qp qp.opt_xinit)
        ((retryStep32 retryOnceEnv (negateCe0 qp))^[2] (loopInit freshGlobals))) := by
    unfold optimize_qp32
    simp only [hloop, Option.map_some']
  refine ⟨_, hcall, hc0, hc1, ?_, ?_⟩
  · simp [softFails32, hf0]
  · simp [softFails32, hf0, hf1]

/-- C19, amended, on a call in which the first attempt fails softly and the
second reports OPTIMAL: the cap of the second attempt is 500 + 2000 and
`init_iter` ends at 500 + 10. -/
theorem C19_iteration_budget_witness :
    ∃ o, optimize_qp32 2 retryOnceEnv (scenarioQP 10 0) (F64.fin (1 / 1000)) 10 freshGlobals =
        some o ∧
      (loqoArgs retryOnceEnv (negateCe0 (scenarioQP 10 0))
        ((retryStep32 retryOnceEnv (negateCe0 (scenarioQP 10 0)))^[1]
          (loopInit freshGlobals))).counter_max = 500 + 2000 * ((1 : Nat) : Int) ∧
      o.iter = 500 + 2000 * ((1 : Nat) : Int) ∧
      o.g.init_iter = 500 + 10 * ((1 : Nat) : Int) := by
  obtain ⟨o, ho, hc0, hc1, hsf1, hsf2⟩ :=
    retryOnce_call32 (scenarioQP 10 0) (F64.fin (1 / 1000)) 10
  obtain ⟨_, k, hk, _, hck, hacc⟩ := C19_iteration_budget 2 retryOnceEnv (scenarioQP 10 0)
    (F64.fin (1 / 1000)) 10 freshGlobals o ho (by decide)
  have hk2 : k = 2 := by
    rcases Nat.lt_or_ge k 2 with hlt | hge
    · have hk01 : k = 0 ∨ k = 1 := by omega
      rcases hk01 with h0 | h1
      · subst h0
        rw [hc0] at hck
        exact Bool.noConfusion hck
      · subst h1
        rw [hc1] at hck
        exact Bool.noConfusion hck
    · omega
  subst hk2
  have h500 : freshGlobals.init_iter = 500 := rfl
  obtain ⟨hcap, hiter, hinit⟩ := hacc (by rw [h500, hsf2]; decide)
  have hcap1 := hcap 1 (by omega)
  rw [h500, hsf1] at hcap1
  rw [h500, hsf2] at hiter hinit
  exact ⟨o, ho, hcap1, hiter, hinit⟩

/-! ## C20 -/

theorem range_split (n i : Nat) (hi : i < n) :
    List.range n = List.range i ++ i :: List.range' (i + 1) (n - (i + 1)) := by
  have h1 : List.range n = List.range' 0 (n - (i + 1) + (i + 1)) := by
    rw [List.range_eq_range', Nat.sub_add_cancel hi]
  rw [h1, ← List.range'_append_1 0 (i + 1) (n - (i + 1)), ← List.range_eq_range',
    List.range_succ, List.append_assoc, Nat.zero_add]
  rfl

theorem epsFold_mono (qp : QP) (model_b epsilon_crit : F64) (primal : Buf) (l : List Nat)
    (e : ℚ) (he : 0 < e) :
    ∃ e2, l.foldl (epsStep qp model_b epsilon_crit primal) (F64.fin e) = F64.fin e2 ∧ e ≤ e2 := by
  induction l generalizing e with
  | nil => exact ⟨e, rfl, le_rfl⟩
  | cons i l ih =>
    simp only [List.foldl_cons]
    rcases epsStep_cases qp model_b epsilon_crit primal e i with h | ⟨e1, h, h1⟩
    · rw [h]
      exact ih e he
    · rw [h]
      obtain ⟨e2, h2, h12⟩ := ih e1 (by linarith)
      exact ⟨e2, h2, by linarith⟩

theorem epsBefore_pos (qp : QP) (model_b epsilon_crit : F64) (primal : Buf) (i : Nat) :
    ∃ e, epsBefore qp model_b epsilon_crit primal i = F64.fin e ∧ 0 < e := by
  obtain ⟨e, he, hpos⟩ := epsFold_pos qp model_b epsilon_crit primal (List.range i)
    (1 / 10 ^ 10) le_rfl
  exact ⟨e, he, lt_of_lt_of_le (by norm_num) hpos⟩

/-- The final epsilon is at least the value the pass for variable `i` leaves. -/
theorem epsilonLoqo_ge_step (qp : QP) (model_b epsilon_crit : F64) (primal : Buf) (i : Nat)
    (hi : i < qp.opt_n) (e1 : ℚ) (h1 : 0 < e1)
    (hstep : epsStep qp model_b epsilon_crit primal
      (epsBefore qp model_b epsilon_crit primal i) i = F64.fin e1) :
    ∃ e, epsilonLoqo qp model_b epsilon_crit primal = F64.fin e ∧ e1 ≤ e := by
  unfold epsilonLoqo
  rw [range_split qp.opt_n i hi, List.foldl_append, List.foldl_cons]
  have hb : (List.range i).foldl (epsStep qp model_b epsilon_crit primal)
      (F64.fin (1 / 10 ^ 10)) = epsBefore qp model_b epsilon_crit primal i := rfl
  rw [hb, hstep]
  exact epsFold_mono qp model_b epsilon_crit primal _ e1 h1

/-- C20: for `i < n`, with the epsilon the relaxation loop has reached when it
examines variable `i`: if the pass takes the upper-side branch
(`primal[i] < upper[i] - epsilon` and `dist < 1 - tolerance`), the clipping
loop leaves 0 or `upper[i]` in `primal[i]`; if it takes the lower-side branch
(the first test fails, `primal[i] > 0 + epsilon` and `dist > 1 + tolerance`),
the clipping loop leaves 0 in `primal[i]`. -/
theorem C20_widening_variable_on_bound (qp : QP) (model_b epsilon_crit : F64) (primal : Buf)
    (i : Nat) (hi : i < qp.opt_n) :
    (((primal i).lt ((qp.opt_up i).sub (epsBefore qp model_b epsilon_crit primal i)) &&
        (kktDist qp model_b primal i).lt ((F64.fin 1).sub epsilon_crit)) = true →
      clip qp (epsilonLoqo qp model_b epsilon_crit primal) primal i = F64.fin 0 ∨
      clip qp (epsilonLoqo qp model_b epsilon_crit primal) primal i = qp.opt_up i) ∧
    (((primal i).lt ((qp.opt_up i).sub (epsBefore qp model_b epsilon_crit primal i)) &&
        (kktDist qp model_b primal i).lt ((F64.fin 1).sub epsilon_crit)) = false →
      ((primal i).gt ((F64.fin 0).add (epsBefore qp model_b epsilon_crit primal i)) &&
        (kktDist qp model_b primal i).gt ((F64.fin 1).add epsilon_crit)) = true →
      clip qp (epsilonLoqo qp model_b epsilon_crit primal) primal i = F64.fin 0) := by
  obtain ⟨e0, he0, hpos0⟩ := epsBefore_pos qp model_b epsilon_crit primal i
  constructor
  · intro hc
    have hc2 := hc
    rw [he0] at hc2
    simp only [Bool.and_eq_true] at hc2
    obtain ⟨x, y, hx, hy, hxy⟩ := F64.lt_eq_true hc2.1
    cases hu : qp.opt_up i with
    | nan => rw [hu] at hy; simp [F64.sub] at hy
    | fin u =>
      rw [hu] at hy
      simp only [F64.sub, F64.fin.injEq] at hy
      subst hy
      have hstep : epsStep qp model_b epsilon_crit primal
          (epsBefore qp model_b epsilon_crit primal i) i = F64.fin ((u - x) * 2) := by
        unfold epsStep
        simp only []
        rw [if_pos hc, hu, hx]
        simp [F64.sub, F64.mul]
      obtain ⟨e, he, hle⟩ := epsilonLoqo_ge_step qp model_b epsilon_crit primal i hi
        ((u - x) * 2) (by linarith) hstep
      rw [clip_apply, if_pos hi, he, hx]
      unfold clipVal
      rw [hu]
      simp only [F64.add, F64.sub, F64.le, F64.ge, decide_eq_true_eq]
      by_cases hx0 : x ≤ 0 + e
      · exact Or.inl (if_pos hx0)
      · rw [if_neg hx0, if_pos (by linarith)]
        exact Or.inr rfl
  · intro hc1 hc
    have hc2 := hc
    rw [he0] at hc2
    simp only [Bool.and_eq_true] at hc2
    obtain ⟨x, y, hx, hy, hxy⟩ := F64.gt_eq_true hc2.1
    simp only [F64.add, F64.fin.injEq] at hy
    subst hy
    have hstep : epsStep qp model_b epsilon_crit primal
        (epsBefore qp model_b epsilon_crit primal i) i = F64.fin (x * 2) := by
      unfold epsStep
      simp only []
      rw [hc1, if_pos hc, hx]
      simp [F64.mul]
    obtain ⟨e, he, hle⟩ := epsilonLoqo_ge_step qp model_b epsilon_crit primal i hi
      (x * 2) (by linarith) hstep
    rw [clip_apply, if_pos hi, he, hx]
    unfold clipVal
    simp only [F64.add, F64.le, decide_eq_true_eq]
    rw [if_pos (by linarith)]

/-- C20 on the scenario problem with `primal=[0]`: variable 0 takes the
upper-side branch (`0 < 10 - 1e-10`, `dist = 0 < 1 - 0.001`) and ends on a
bound (0). -/
theorem C20_widening_variable_on_bound_witness :
    ((((fun _ => F64.fin 0 : Buf) 0).lt (((scenarioQP 10 0).opt_up 0).sub
        (epsBefore (scenarioQP 10 0) (F64.fin 0) (F64.fin (1 / 1000)) (fun _ => F64.fin 0) 0)) &&
      (kktDist (scenarioQP 10 0) (F64.fin 0) (fun _ => F64.fin 0) 0).lt
        ((F64.fin 1).sub (F64.fin (1 / 1000)))) = true) ∧
    (clip (scenarioQP 10 0)
        (epsilonLoqo (scenarioQP 10 0) (F64.fin 0) (F64.fin (1 / 1000)) (fun _ => F64.fin 0))
        (fun _ => F64.fin 0) 0 = F64.fin 0 ∨
      clip (scenarioQP 10 0)
        (epsilonLoqo (scenarioQP 10 0) (F64.fin 0) (F64.fin (1 / 1000)) (fun _ => F64.fin 0))
        (fun _ => F64.fin 0) 0 = (scenarioQP 10 0).opt_up 0) := by
  have hc : (((fun _ => F64.fin 0 : Buf) 0).lt (((scenarioQP 10 0).opt_up 0).sub
      (epsBefore (scenarioQP 10 0) (F64.fin 0) (F64.fin (1 / 1000)) (fun _ => F64.fin 0) 0)) &&
      (kktDist (scenarioQP 10 0) (F64.fin 0) (fun _ => F64.fin 0) 0).lt
        ((F64.fin 1).sub (F64.fin (1 / 1000)))) = true := by
    rw [kktDist_one _ rfl]
    simp only [epsBefore, List.range_zero, List.foldl_nil, scenarioQP]
    norm_num [F64.lt, F64.sub, F64.add, F64.mul, F64.neg]
  exact ⟨hc, (C20_widening_variable_on_bound (scenarioQP 10 0) (F64.fin 0) (F64.fin (1 / 1000))
    (fun _ => F64.fin 0) 0 Nat.zero_lt_one).1 hc⟩

/-! ## C21 -/

/-- Every pass of the retry loop leaves in the scratch buffers what the solver
wrote in that pass. -/
theorem retryStep_buffers (env : Env) (qp : QP) (s : LoopState) :
    (retryStep env qp s).g.primal = (env.pr_loqo (loqoArgs env qp s)).primal ∧
      (retryStep env qp s).g.dual = (env.pr_loqo (loqoArgs env qp s)).dual := by
  unfold retryStep
  simp only []
  split
  · split <;> exact ⟨rfl, rfl⟩
  · split <;> exact ⟨rfl, rfl⟩

/-- A call entered with `init_margin` at most 0.9999999 that returns has made
at least one pass of the retry loop. -/
theorem retryLoop_at_least_one_pass (env : Env) (qp : QP) (fuel : Nat) (g : Globals)
    (s : LoopState) (hm : g.init_margin.le (F64.fin (9999999 / 10000000)) = true)
    (h : retryLoop env qp fuel (loopInit g) = some s) :
    ∃ n, n < fuel ∧ s = retryStep env qp ((retryStep env qp)^[n] (loopInit g)) ∧
      ∀ j, j ≤ n → loopCond ((retryStep env qp)^[j] (loopInit g)) = true := by
  obtain ⟨k, hk, hit, hc, hall⟩ := (retryLoop_eq_some_iff env qp fuel (loopInit g) s).1 h
  cases k with
  | zero =>
    simp only [Function.iterate_zero, id_eq] at hit
    rw [← hit, loopCond_loopInit g hm] at hc
    exact Bool.noConfusion hc
  | succ n =>
    refine ⟨n, by omega, ?_, fun j hj => hall j (by omega)⟩
    rw [← hit, Function.iterate_succ_apply']

/-- C21: in every state reached from the initial `init_margin = 0.15` by calls
that return, with any problems and solvers, `init_margin` is a finite value
below 0.9, hence below the loop ceiling 0.9999999; so the next call enters the
retry loop, and if it returns it has attempted the solver at least once and
the buffers it reads after the loop are the ones the last attempt wrote. -/
theorem C21_init_margin_below_ceiling (calls : Nat → Call) (w0 : World)
    (h0 : w0.g.init_margin = F64.fin (15 / 100)) (k : Nat) (w : World)
    (hw : runCalls calls k w0 = some w) :
    (∃ b, w.g.init_margin = F64.fin b ∧ b < 9 / 10) ∧
    w.g.init_margin.lt (F64.fin (9999999 / 10000000)) = true ∧
    loopCond (loopInit w.g) = true ∧
    (∀ fuel env qp epsilon_crit svm_maxqpsize o,
      optimize_qp fuel env qp epsilon_crit svm_maxqpsize w.g = some o →
      ∃ n t, t = (retryStep env (negateCe0 qp))^[n] (loopInit w.g) ∧
        retryLoop env (negateCe0 qp) fuel (loopInit w.g) =
          some (retryStep env (negateCe0 qp) t) ∧
        (retryStep env (negateCe0 qp) t).g.primal =
          (env.pr_loqo (loqoArgs env (negateCe0 qp) t)).primal ∧
        (retryStep env (negateCe0 qp) t).g.dual =
          (env.pr_loqo (loqoArgs env (negateCe0 qp) t)).dual) := by
  obtain ⟨b, hb, _, hb9⟩ := runCalls_init_margin calls w0 h0 k w hw
  have hle : w.g.init_margin.le (F64.fin (9999999 / 10000000)) = true := by
    rw [hb]
    simp only [F64.le, decide_eq_true_eq]
    linarith
  refine ⟨⟨b, hb, hb9⟩, ?_, loopCond_loopInit w.g hle, ?_⟩
  · rw [hb]
    simp only [F64.lt, decide_eq_true_eq]
    linarith
  · intro fuel env qp epsilon_crit svm_maxqpsize o ho
    obtain ⟨s, hs, _⟩ := optimize_qp_eq_some ho
    obtain ⟨n, _, hsn, _⟩ := retryLoop_at_least_one_pass env (negateCe0 qp) fuel w.g s hle hs
    refine ⟨n, _, rfl, ?_, retryStep_buffers env (negateCe0 qp) _⟩
    rw [hs, hsn]

/-- C21 in the state after three stalled scenario calls from the initial
state. -/
theorem C21_init_margin_below_ceiling_witness :
    ∃ w, runCalls stallCalls 3 freshWorld = some w ∧
      w.g.init_margin.lt (F64.fin (9999999 / 10000000)) = true ∧
      loopCond (loopInit w.g) = true := by
  obtain ⟨w, hw, _⟩ := stallCalls_run 3
  have c := C21_init_margin_below_ceiling stallCalls freshWorld rfl 3 w hw
  exact ⟨w, hw, c.2.1, c.2.2.1⟩

/-! ## C22 -/

/-- C22: a call that returns and finds the violation counter in 0..500 leaves
it in 0..500. Either the call resets the counter to 0 and multiplies the
tolerance by 10, which happens when the counter was 500 and the post-objective
is >= the pre-objective; or it leaves the tolerance alone and the counter is
the old one plus one (post-objective >= pre-objective) or the old one. -/
theorem C22_violation_counter (fuel : Nat) (env : Env) (qp : QP) (epsilon_crit : F64)
    (svm_maxqpsize : Int) (g : Globals) (o : Outcome)
    (h : optimize_qp fuel env qp epsilon_crit svm_maxqpsize g = some o)
    (hlo : 0 ≤ g.precision_violations) (hhi : g.precision_violations ≤ 500) :
    0 ≤ o.g.precision_violations ∧ o.g.precision_violations ≤ 500 ∧
    ((g.precision_violations = 500 ∧ o.obj_after.ge o.obj_before = true ∧
        o.g.precision_violations = 0 ∧ o.epsilon_crit = epsilon_crit.mul (F64.fin 10)) ∨
      (o.epsilon_crit = epsilon_crit ∧
        ((o.obj_after.ge o.obj_before = true ∧ g.precision_violations < 500 ∧
            o.g.precision_violations = g.precision_violations + 1) ∨
          (o.obj_after.ge o.obj_before = false ∧
            o.g.precision_violations = g.precision_violations)))) := by
  obtain ⟨s, hs, ho⟩ := optimize_qp_eq_some h
  have hv : s.g.precision_violations = g.precision_violations :=
    retryLoop_precision_violations _ _ _ _ _ hs
  subst ho
  rw [afterLoop_obj_before, afterLoop_precision_violations, afterLoop_epsilon_crit, hv]
  cases hge : (afterLoop (negateCe0 qp) epsilon_crit svm_maxqpsize (objective qp qp.opt_xinit)
      s).obj_after.ge (objective qp qp.opt_xinit) with
  | false =>
    simp only [Bool.false_eq_true, if_false]
    rw [if_neg (by omega), if_neg (by omega)]
    exact ⟨hlo, hhi, Or.inr ⟨rfl, Or.inr ⟨trivial, rfl⟩⟩⟩
  | true =>
    simp only [if_true]
    by_cases h5 : g.precision_violations = 500
    · rw [if_pos (by omega), if_pos (by omega)]
      exact ⟨le_rfl, by norm_num, Or.inl ⟨h5, trivial, rfl, rfl⟩⟩
    · rw [if_neg (by omega), if_neg (by omega)]
      exact ⟨by omega, by omega, Or.inr ⟨rfl, Or.inl ⟨trivial, by omega, rfl⟩⟩⟩

/-- C22 on a stalled scenario call entered with the counter at 500: the counter
is reset and the tolerance goes from 0.001 to 0.01. -/
theorem C22_violation_counter_witness :
    ∃ o, optimize_qp 1 stallEnv (scenarioQP 10 0) (F64.fin (1 / 1000)) 10 stalledGlobals = some o ∧
      0 ≤ o.g.precision_violations ∧ o.g.precision_violations ≤ 500 := by
  obtain ⟨o, ho, _⟩ :=
    stall_call 0 (F64.fin (1 / 1000)) 10 stalledGlobals loopCond_freshGlobals_margin
  have c := C22_violation_counter 1 stallEnv (scenarioQP 10 0) (F64.fin (1 / 1000)) 10
    stalledGlobals o ho (by decide) (by decide)
  exact ⟨o, ho, c.1, c.2.1⟩

/-! ## C23 -/

/-- One pass of the loop of `unique` on a sorted buffer keeps `uniqueInv`. -/
theorem uniqueStep_inv {α : Type} [LinearOrder α] (s : Nat → α) (n i : Nat)
    (st : (Nat → α) × Nat) (hs : ∀ a b, a ≤ b → b < n → s a ≤ s b) (hi : i < n)
    (h : uniqueInv s i st) : uniqueInv s (i + 1) (uniqueStep st i) := by
  obtain ⟨hj, hlast, hrest, hinc, hval⟩ := h
  have hcur : st.1 i = s i := hrest i hj
  have hprev : 0 < i → st.1 (i - 1) = s (i - 1) := by
    intro hpos
    rcases Nat.lt_or_ge (i - 1) st.2 with hlt | hge
    · have hidx : st.2 - 1 = i - 1 := by omega
      have h2 := (hlast hpos).2
      rw [hidx] at h2
      exact h2
    · exact hrest (i - 1) hge
  unfold uniqueStep
  by_cases hc : i = 0 ∨ st.1 i ≠ st.1 (i - 1)
  · rw [if_pos hc]
    have hlt : ∀ k, k < st.2 → st.1 k < s i := by
      intro k hk
      have hpos : 0 < i := by omega
      have hne : st.1 i ≠ st.1 (i - 1) := by
        rcases hc with h0 | hne
        · omega
        · exact hne
      rw [hcur, hprev hpos] at hne
      have hle : s (i - 1) ≤ s i := hs (i - 1) i (by omega) hi
      have hlast2 := (hlast hpos).2
      have hk2 : st.1 k ≤ st.1 (st.2 - 1) := by
        rcases Nat.lt_or_ge k (st.2 - 1) with h1 | h1
        · exact le_of_lt (hinc k (st.2 - 1) h1 (by omega))
        · have : k = st.2 - 1 := by omega
          rw [this]
      rw [hlast2] at hk2
      exact lt_of_le_of_lt hk2 (lt_of_le_of_ne hle (Ne.symm hne))
    refine ⟨by simp only; omega, fun _ => ⟨by simp only; omega, ?_⟩, ?_, ?_, ?_⟩
    · show Function.update st.1 st.2 (st.1 i) (st.2 + 1 - 1) = s (i + 1 - 1)
      rw [Nat.add_sub_cancel, Nat.add_sub_cancel, Function.update_same]
      exact hcur
    · intro k hk
      simp only at hk ⊢
      rw [Function.update_noteq (by omega)]
      exact hrest k (by omega)
    · intro a b hab hb
      simp only at hb ⊢
      rw [Function.update_noteq (by omega : a ≠ st.2)]
      rcases Nat.lt_or_ge b st.2 with hb2 | hb2
      · rw [Function.update_noteq (by omega : b ≠ st.2)]
        exact hinc a b hab hb2
      · have : b = st.2 := by omega
        rw [this, Function.update_same, hcur]
        exact hlt a (by omega)
    · intro v
      simp only
      constructor
      · rintro ⟨k, hk, hkv⟩
        rcases Nat.lt_or_ge k st.2 with hk2 | hk2
        · rw [Function.update_noteq (by omega : k ≠ st.2)] at hkv
          obtain ⟨k2, hk2i, hk2v⟩ := (hval v).1 ⟨k, hk2, hkv⟩
          exact ⟨k2, by omega, hk2v⟩
        · have : k = st.2 := by omega
          rw [this, Function.update_same, hcur] at hkv
          exact ⟨i, by omega, hkv⟩
      · rintro ⟨k, hk, hkv⟩
        rcases Nat.lt_or_ge k i with hki | hki
        · obtain ⟨k2, hk2j, hk2v⟩ := (hval v).2 ⟨k, hki, hkv⟩
          exact ⟨k2, by omega, by rw [Function.update_noteq (by omega : k2 ≠ st.2)]; exact hk2v⟩
        · have : k = i := by omega
          rw [this] at hkv
          exact ⟨st.2, by omega, by rw [Function.update_same, hcur]; exact hkv⟩
  · rw [if_neg hc]
    simp only [not_or, ne_eq, not_not] at hc
    obtain ⟨hi0, heq⟩ := hc
    have hpos : 0 < i := by omega
    rw [hcur, hprev hpos] at heq
    refine ⟨by omega, fun _ => ⟨(hlast hpos).1, ?_⟩, hrest, hinc, ?_⟩
    · rw [(hlast hpos).2, Nat.add_sub_cancel, heq]
    · intro v
      constructor
      · rintro ⟨k, hk, hkv⟩
        obtain ⟨k2, hk2i, hk2v⟩ := (hval v).1 ⟨k, hk, hkv⟩
        exact ⟨k2, by omega, hk2v⟩
      · rintro ⟨k, hk, hkv⟩
        rcases Nat.lt_or_ge k i with hki | hki
        · exact (hval v).2 ⟨k, hki, hkv⟩
        · have : k = i := by omega
          rw [this, heq] at hkv
          exact (hval v).2 ⟨i - 1, by omega, hkv⟩

theorem uniqueLoop_inv {α : Type} [LinearOrder α] (s : Nat → α) (n : Nat)
    (hs : ∀ a b, a ≤ b → b < n → s a ≤ s b) (m : Nat) (hm : m ≤ n) :
    uniqueInv s m ((List.range m).foldl uniqueStep (s, 0)) := by
  induction m with
  | zero =>
    refine ⟨le_rfl, fun h => absurd h (lt_irrefl 0), fun _ _ => rfl, ?_, ?_⟩
    · intro a b _ hb
      exact absurd hb (Nat.not_lt_zero b)
    · intro v
      constructor <;> rintro ⟨k, hk, _⟩ <;> exact absurd hk (Nat.not_lt_zero k)
  | succ m ih =>
    rw [List.range_succ, List.foldl_append]
    exact uniqueStep_inv s n m _ hs (by omega) (ih (by omega))

theorem CMath_qsort_map {α : Type} [LinearOrder α] (output : Nat → α) (size : Nat) :
    (List.range size).map (CMath_qsort output size) =
      ((List.range size).map output).insertionSort (fun a b => a ≤ b) := by
  have hlen : (((List.range size).map output).insertionSort (fun a b => a ≤ b)).length = size := by
    rw [List.length_insertionSort, List.length_map, List.length_range]
  refine List.ext_getElem (by rw [List.length_map, List.length_range, hlen]) (fun k h1 h2 => ?_)
  rw [List.getElem_map, List.getElem_range]
  unfold CMath_qsort
  exact List.getD_eq_getElem _ _ h2

theorem CMath_qsort_perm {α : Type} [LinearOrder α] (output : Nat → α) (size : Nat) :
    ((List.range size).map (CMath_qsort output size)).Perm ((List.range size).map output) := by
  rw [CMath_qsort_map]
  exact List.perm_insertionSort _ _

theorem CMath_qsort_sorted {α : Type} [LinearOrder α] (output : Nat → α) (size : Nat)
    (a b : Nat) (hab : a ≤ b) (hb : b < size) :
    CMath_qsort output size a ≤ CMath_qsort output size b := by
  have hlen : (((List.range size).map output).insertionSort (fun a b => a ≤ b)).length = size := by
    rw [List.length_insertionSort, List.length_map, List.length_range]
  have hs := List.sorted_insertionSort (fun (a b : α) => a ≤ b) ((List.range size).map output)
  unfold CMath_qsort
  have ha : a < (((List.range size).map output).insertionSort (fun a b => a ≤ b)).length := by
    omega
  have hb2 : b < (((List.range size).map output).insertionSort (fun a b => a ≤ b)).length := by
    omega
  rw [List.getD_eq_getElem _ _ ha, List.getD_eq_getElem _ _ hb2]
  exact hs.rel_get_of_le (show (⟨a, ha⟩ : Fin _) ≤ ⟨b, hb2⟩ from hab)

/-- C23: if `CMath::qsort` leaves the first `size` entries sorted ascending and
a permutation of what they were, `unique` returns the number `j` of distinct
values among them, the first `j` entries of the buffer are then strictly
increasing and are exactly those values, `j = 0` when `size = 0` and
`1 <= j <= size` otherwise. -/
theorem C23_unique {α : Type} [LinearOrder α] (qsort : (Nat → α) → Nat → (Nat → α))
    (output : Nat → α) (size : Nat)
    (hsorted : ∀ a b, a ≤ b → b < size → qsort output size a ≤ qsort output size b)
    (hperm : ((List.range size).map (qsort output size)).Perm ((List.range size).map output)) :
    (SGVector.unique qsort output size).2 = ((List.range size).map output).toFinset.card ∧
    (∀ a b, a < b → b < (SGVector.unique qsort output size).2 →
      (SGVector.unique qsort output size).1 a < (SGVector.unique qsort output size).1 b) ∧
    (∀ v, (∃ k, k < (SGVector.unique qsort output size).2 ∧
        (SGVector.unique qsort output size).1 k = v) ↔ (∃ k, k < size ∧ output k = v)) ∧
    (size = 0 → (SGVector.unique qsort output size).2 = 0) ∧
    (0 < size → 1 ≤ (SGVector.unique qsort output size).2 ∧
      (SGVector.unique qsort output size).2 ≤ size) := by
  obtain ⟨hj, hlast, _, hinc, hval⟩ :=
    uniqueLoop_inv (qsort output size) size hsorted size le_rfl
  have hmem : ∀ v, (∃ k, k < size ∧ qsort output size k = v) ↔ (∃ k, k < size ∧ output k = v) := by
    intro v
    have h1 : v ∈ (List.range size).map (qsort output size) ↔ v ∈ (List.range size).map output :=
      hperm.mem_iff
    simpa [List.mem_map, List.mem_range] using h1
  have hval2 : ∀ v, (∃ k, k < (SGVector.unique qsort output size).2 ∧
      (SGVector.unique qsort output size).1 k = v) ↔ (∃ k, k < size ∧ output k = v) :=
    fun v => (hval v).trans (hmem v)
  refine ⟨?_, hinc, hval2, fun h0 => ?_, fun hpos => ⟨(hlast hpos).1, hj⟩⟩
  · have himg : Finset.image (SGVector.unique qsort output size).1
        (Finset.range (SGVector.unique qsort output size).2) =
        ((List.range size).map output).toFinset := by
      ext v
      simp only [Finset.mem_image, Finset.mem_range, List.mem_toFinset, List.mem_map,
        List.mem_range]
      exact hval2 v
    rw [← himg, Finset.card_image_of_injOn, Finset.card_range]
    intro a ha b hb hab
    simp only [Finset.coe_range, Set.mem_Iio] at ha hb
    rcases Nat.lt_trichotomy a b with h | h | h
    · exact absurd hab (ne_of_lt (hinc a b h hb))
    · exact h
    · exact absurd hab.symm (ne_of_lt (hinc b a h ha))
  · have : (SGVector.unique qsort output size).2 ≤ size := hj
    omega

/-- C23 on the buffer `[3, 1, 3, 2, 1]` with the insertion sort standing in for
`CMath::qsort`: `unique` returns 3. -/
theorem C23_unique_witness :
    (SGVector.unique CMath_qsort (fun k => [3, 1, 3, 2, 1].getD k 0) 5).2 = 3 ∧
    (SGVector.unique CMath_qsort (fun k => [3, 1, 3, 2, 1].getD k 0) 5).2 =
      ((List.range 5).map (fun k => [3, 1, 3, 2, 1].getD k 0)).toFinset.card := by
  refine ⟨by decide, (C23_unique CMath_qsort (fun k => [3, 1, 3, 2, 1].getD k 0) 5
    (CMath_qsort_sorted _ 5) (CMath_qsort_perm _ 5)).1⟩

end Shogun
